import Mathlib

/-! Moana magic pedal: session state machine, debounce, brightness and IR cursor.

A shallow embedding of `src/main.cpp`.

* The globals and the function-local statics of the firmware are the fields of `State`.
* `millis()` and `digitalRead(BUTTON_PIN)` are inputs of the function that calls them
  (`now`, and the sampled level, `true` for HIGH).
* `unsigned long` is 32 bits wide on the target: subtraction of two timestamps is `sub32`.
* Calls into collaborators (IR sender, BLE stack, OTA, WiFi, watchdog), `digitalWrite`, and the
  writes to `currentState`, `breathingActive` and `isOtaMode` are appended, in program order,
  to `State.log`. Serial diagnostics are left out.
* `random(n)` draws are an input (`BleDraw`), reduced modulo their bound.
* A `float` value is the rational it denotes; every single-precision operation of
  `handleMagicalGlow` (the conversion of `elapsedTime`, the division, the product, the
  difference, the sum and the scaling) is the exact operation followed by `roundF32`,
  rounding to the nearest binary32 value, ties to even.
* The sine is a parameter `sinTurn`: `sinTurn x` is the value that `sin(phase)` returns when
  `(now % period) / breathingPeriod` is `x`, that is, when the phase is `2π` times `x`.
* The accesses of a function to the two variables shared with the timer interrupt, and its
  calls of `portENTER_CRITICAL` and `portEXIT_CRITICAL`, are listed in program order by the
  functions named `..._accesses`.
-/

namespace MagicPedal

/-! ## Data model -/

/-- Session state, the enum `DeviceState`. -/
inductive DeviceState
  | STATE_IDLE
  | STATE_CHECKING_PRESS
  | STATE_RUNNING_SHORT
  | STATE_RUNNING_LONG
  deriving DecidableEq, Repr

/-- The values of `decode_type_t` that occur in the table. -/
inductive Protocol
  | SAMSUNG
  | NEC
  | SONY
  | RC6
  | SHARP
  deriving DecidableEq, Repr

/-- One entry of the IR table, `struct IRCommand`. -/
structure IRCommand where
  protocol : Protocol
  code : Nat
  bits : Nat
  deriving DecidableEq, Repr

/-- The master table `irCommands[]`. -/
def irCommands : List IRCommand :=
  [ ⟨Protocol.SAMSUNG, 0xE0E040BF, 32⟩,
    ⟨Protocol.SAMSUNG, 0xE0E019E6, 32⟩,
    ⟨Protocol.SAMSUNG, 0xE0E0E01F, 32⟩,
    ⟨Protocol.NEC, 0x20DF10EF, 32⟩,
    ⟨Protocol.NEC, 0x20DF23DC, 32⟩,
    ⟨Protocol.SONY, 0xA90, 12⟩,
    ⟨Protocol.SONY, 0x10A90, 20⟩,
    ⟨Protocol.NEC, 0x40040100BCBD, 32⟩,
    ⟨Protocol.RC6, 0xC, 20⟩,
    ⟨Protocol.RC6, 0x10C, 20⟩,
    ⟨Protocol.SHARP, 0xB54A, 15⟩,
    ⟨Protocol.SHARP, 0xAA5A, 15⟩,
    ⟨Protocol.NEC, 0x2FD48B7, 32⟩,
    ⟨Protocol.NEC, 0x2FD807F, 32⟩,
    ⟨Protocol.NEC, 0x20DF10EF, 32⟩,
    ⟨Protocol.NEC, 0x20DF3EC1, 32⟩,
    ⟨Protocol.NEC, 0x20DF40BF, 32⟩,
    ⟨Protocol.NEC, 0x25D8C43B, 32⟩,
    ⟨Protocol.NEC, 0x57E318E7, 32⟩,
    ⟨Protocol.NEC, 0x57E316E9, 32⟩,
    ⟨Protocol.NEC, 0x57E3E817, 32⟩ ]

/-- The constant `numCommands = sizeof(irCommands) / sizeof(irCommands[0])`. -/
def numCommands : Nat := irCommands.length

/-- Output pins written by the modelled code. -/
inductive Pin
  | LED1_PIN
  | LED2_PIN
  | LED3_PIN
  | DEBUG_LED_PIN
  deriving DecidableEq, Repr

/-- Observable actions, in program order. Levels are `true` for HIGH; the three light
outputs are active-low, so HIGH is the off level. -/
inductive Event
  | setCurrentState (st : DeviceState)
  | setBreathingActive (b : Bool)
  | setIsOtaMode (b : Bool)
  | digitalWrite (pin : Pin) (level : Bool)
  | delay (ms : Nat)
  | otaEnd
  | otaHandle
  | wifiSoftAPdisconnect
  | wifiModeOff
  | bleStop
  | bleSetDeviceAddress (addr : List Nat)
  | bleSetAdvertisementType (choice : Nat)
  | bleSetAdvertisementData (deviceChoice : Nat) (index : Nat)
  | bleStart
  | bleSetTxPower (belowMax : Nat)
  | bleDeinit
  | irSend (index : Nat) (cmd : IRCommand)
  | wdtReset
  | wdtDelete
  | timerEnd
  deriving DecidableEq, Repr

/-- The globals of `main.cpp` together with the function-local statics
(`otaModeExitStartTime`, `otaExitInProgress` of `handleButtonPress`; `lastUpdate` of
`handleMagicalGlow`; `lastDebugPrint`, `lastOtaHandle`, `lastWatchdogFeed` of `loop`),
the level last written to each output pin, and the log of observable actions.
`timerOn` is `timer != NULL`, `pAdvertising` is `pAdvertising != nullptr`. -/
structure State where
  currentState : DeviceState
  lastButtonPressTime : Nat
  operationStartTime : Nat
  lastButtonCheck : Nat
  lastButtonState : Bool
  isOtaMode : Bool
  currentBrightness : Int
  breathingActive : Bool
  breathingStartTime : Nat
  pwmCounter : Int
  timerOn : Bool
  bleInitialized : Bool
  pAdvertising : Bool
  lastBLESpoofTime : Nat
  currentDeviceType : Int
  currentDeviceIndex : Int
  currentCommandIndex : Int
  otaModeExitStartTime : Nat
  otaExitInProgress : Bool
  lastUpdate : Nat
  lastDebugPrint : Nat
  lastOtaHandle : Nat
  lastWatchdogFeed : Nat
  led1 : Bool
  led2 : Bool
  led3 : Bool
  debugLed : Bool
  log : List Event
  deriving DecidableEq, Repr

/-- The draws of `random` made by one call of `cycleBLEDevice`. -/
structure BleDraw where
  addr : List Nat
  device_choice : Nat
  index : Nat
  adv_type_choice : Nat
  rand_val : Nat
  deriving DecidableEq, Repr

/-! ## Constants and arithmetic -/

/-- Debounce window in ms. -/
abbrev BUTTON_DEBOUNCE_MS : Nat := 50

/-- Long-press threshold in ms. -/
abbrev LONG_PRESS_MS : Nat := 3000

/-- Total run time of a short-press session in ms. -/
abbrev SHORT_PRESS_DURATION_MS : Nat := 10000

/-- Beacon rotation interval in ms. -/
abbrev BLE_SPOOF_INTERVAL_MS : Nat := 30

/-- Table sizes `NUM_APPLE_DEVICES`, `NUM_APPLE_SETUP_DEVICES`, `NUM_SAMSUNG_DEVICES`,
`NUM_ANDROID_DEVICES`. -/
abbrev NUM_APPLE_DEVICES : Nat := 17

/-- Number of rows of `APPLE_SETUP_DEVICES`. -/
abbrev NUM_APPLE_SETUP_DEVICES : Nat := 13

/-- Number of rows of `SAMSUNG_DEVICES`. -/
abbrev NUM_SAMSUNG_DEVICES : Nat := 3

/-- Number of rows of `ANDROID_DEVICES`. -/
abbrev NUM_ANDROID_DEVICES : Nat := 5

/-- Subtraction of two `unsigned long` values (32 bits, wrapping). -/
def sub32 (a b : Nat) : Nat :=
  (a % 4294967296 + (4294967296 - b % 4294967296)) % 4294967296

/-- Conversion of a `float` to an integer type: truncation toward zero. -/
def truncToInt (q : ℚ) : Int :=
  if 0 ≤ q then ⌊q⌋ else ⌈q⌉

/-- Rounding of a rational to the nearest integer, ties to the even one. -/
def roundHalfEven (q : ℚ) : Int :=
  if q - ⌊q⌋ < 1 / 2 then ⌊q⌋
  else if 1 / 2 < q - ⌊q⌋ then ⌊q⌋ + 1
  else if ⌊q⌋ % 2 = 0 then ⌊q⌋ else ⌊q⌋ + 1

/-- The binary exponent of the `float` nearest to `q`: `⌊log₂ |q|⌋`, and -126 for the
subnormal range (at `q = 0` the exponent does not matter, the rounding is 0). -/
def f32Exponent (q : ℚ) : Int :=
  max (Int.log 2 |q|) (-126)

/-- The `float` (IEEE 754 binary32, 24-bit significand) nearest to `q`, ties to even: the
result of a single-precision operation whose exact result is `q`. Overflow is left out:
no value computed by `handleMagicalGlow` reaches 2^128. -/
def roundF32 (q : ℚ) : ℚ :=
  (roundHalfEven (q / 2 ^ (f32Exponent q - 23)) : ℚ) * 2 ^ (f32Exponent q - 23)

/-! ## Operations -/

/-- The call `digitalWrite(pin, level)`. -/
def digitalWrite (s : State) (pin : Pin) (level : Bool) : State :=
  match pin with
  | Pin.LED1_PIN => { s with led1 := level, log := s.log ++ [Event.digitalWrite pin level] }
  | Pin.LED2_PIN => { s with led2 := level, log := s.log ++ [Event.digitalWrite pin level] }
  | Pin.LED3_PIN => { s with led3 := level, log := s.log ++ [Event.digitalWrite pin level] }
  | Pin.DEBUG_LED_PIN =>
      { s with debugLed := level, log := s.log ++ [Event.digitalWrite pin level] }

/-- The function `cycleBLEDevice`: one beacon rotation. -/
def cycleBLEDevice (s : State) (rnd : BleDraw) : State :=
  if !s.bleInitialized || !s.pAdvertising then s
  else
    let dummy_addr : List Nat :=
      (List.range 6).map fun i =>
        let b := rnd.addr.getD i 0 % 256
        if i = 0 then b ||| 0xF0 else b
    let device_choice := rnd.device_choice % 4
    let index :=
      if device_choice = 0 then rnd.index % NUM_APPLE_DEVICES
      else if device_choice = 1 then rnd.index % NUM_APPLE_SETUP_DEVICES
      else if device_choice = 2 then rnd.index % NUM_SAMSUNG_DEVICES
      else rnd.index % NUM_ANDROID_DEVICES
    let adv_type_choice := rnd.adv_type_choice % 3
    let rand_val := rnd.rand_val % 100
    let belowMax : Nat :=
      if rand_val < 70 then 0
      else if rand_val < 85 then 1
      else if rand_val < 95 then 2
      else if rand_val < 99 then 3
      else 4
    { s with log := s.log ++
        [ Event.bleStop,
          Event.bleSetDeviceAddress dummy_addr,
          Event.bleSetAdvertisementType adv_type_choice,
          Event.bleSetAdvertisementData device_choice index,
          Event.bleStart,
          Event.bleSetTxPower belowMax ] }

/-- The body of the `if (currentState == STATE_IDLE)` branch of `handleButtonPress`:
a session starts at `now`. -/
def handleButtonPress_startOperation (s : State) (now : Nat) (rnd : BleDraw) : State :=
  let c : State :=
    { s with
      currentState := DeviceState.STATE_CHECKING_PRESS
      operationStartTime := now
      breathingActive := true
      breathingStartTime := now
      log := s.log ++
        [ Event.setCurrentState DeviceState.STATE_CHECKING_PRESS,
          Event.setBreathingActive true ] }
  if c.bleInitialized then
    cycleBLEDevice
      { c with lastBLESpoofTime := now, currentDeviceType := 0, currentDeviceIndex := 0 }
      rnd
  else c

/-- The body of the `if (currentButtonState && !lastButtonState)` branch of
`handleButtonPress`: a rising edge was accepted at `now`. -/
def handleButtonPress_risingEdge (s : State) (now : Nat) (rnd : BleDraw) : State :=
  let a : State := { s with lastButtonPressTime := now }
  let b : State :=
    if a.isOtaMode then { a with otaModeExitStartTime := now, otaExitInProgress := true }
    else a
  if b.currentState = DeviceState.STATE_IDLE then handleButtonPress_startOperation b now rnd
  else b

/-- The body of the `if (pressDuration >= 5000)` branch of `handleButtonPress`:
the exit from OTA mode. -/
def handleButtonPress_exitOta (s : State) (now : Nat) : State :=
  let a : State :=
    { s with log := s.log ++
        [ Event.otaEnd, Event.wifiSoftAPdisconnect, Event.wifiModeOff, Event.delay 500 ] }
  let b : State := { a with isOtaMode := false, log := a.log ++ [Event.setIsOtaMode false] }
  let c : State :=
    { b with
      currentState := DeviceState.STATE_IDLE
      breathingActive := false
      log := b.log ++
        [ Event.setCurrentState DeviceState.STATE_IDLE, Event.setBreathingActive false ] }
  let d : State :=
    if c.bleInitialized && c.pAdvertising then { c with log := c.log ++ [Event.bleStop] }
    else c
  let e : State :=
    digitalWrite
      (digitalWrite
        (digitalWrite (digitalWrite d Pin.LED1_PIN true) Pin.LED2_PIN true)
        Pin.LED3_PIN true)
      Pin.DEBUG_LED_PIN true
  { e with otaExitInProgress := false, lastButtonPressTime := now }

/-- The function `handleButtonPress`; `currentButtonState` is the level that
`digitalRead(BUTTON_PIN)` returns when the debounce window has elapsed. Its three nested
blocks are `handleButtonPress_risingEdge`, `handleButtonPress_startOperation` and
`handleButtonPress_exitOta`. -/
def handleButtonPress (s : State) (now : Nat) (currentButtonState : Bool) (rnd : BleDraw) :
    State :=
  if sub32 now s.lastButtonCheck ≥ BUTTON_DEBOUNCE_MS then
    let s1 : State :=
      if currentButtonState && !s.lastButtonState then handleButtonPress_risingEdge s now rnd
      else s
    let s2 : State :=
      if s1.isOtaMode && currentButtonState && s1.otaExitInProgress then
        let pressDuration := sub32 now s1.otaModeExitStartTime
        if pressDuration ≥ 5000 then handleButtonPress_exitOta s1 now else s1
      else s1
    let s3 : State :=
      if !currentButtonState && s2.otaExitInProgress then { s2 with otaExitInProgress := false }
      else s2
    { s3 with lastButtonState := currentButtonState, lastButtonCheck := now }
  else s

/-- The session-end block shared by both running states of `updateStateMachine`. -/
def endSession (s : State) : State :=
  let a : State :=
    { s with
      currentState := DeviceState.STATE_IDLE
      breathingActive := false
      log := s.log ++
        [ Event.setCurrentState DeviceState.STATE_IDLE, Event.setBreathingActive false ] }
  let b : State :=
    if a.bleInitialized && a.pAdvertising then { a with log := a.log ++ [Event.bleStop] } else a
  digitalWrite (digitalWrite (digitalWrite b Pin.LED1_PIN true) Pin.LED2_PIN true)
    Pin.LED3_PIN true

/-- The function `updateStateMachine`; `button` is the level that `digitalRead(BUTTON_PIN)`
returns in the states that read it. -/
def updateStateMachine (s : State) (now : Nat) (button : Bool) : State :=
  match s.currentState with
  | DeviceState.STATE_IDLE => s
  | DeviceState.STATE_CHECKING_PRESS =>
      if button then
        if sub32 now s.lastButtonPressTime ≥ LONG_PRESS_MS then
          { s with
            currentState := DeviceState.STATE_RUNNING_LONG
            log := s.log ++ [Event.setCurrentState DeviceState.STATE_RUNNING_LONG] }
        else s
      else
        { s with
          currentState := DeviceState.STATE_RUNNING_SHORT
          log := s.log ++ [Event.setCurrentState DeviceState.STATE_RUNNING_SHORT] }
  | DeviceState.STATE_RUNNING_SHORT =>
      if sub32 now s.operationStartTime ≥ SHORT_PRESS_DURATION_MS then endSession s else s
  | DeviceState.STATE_RUNNING_LONG =>
      if !button then endSession s else s

/-- The interrupt handler `onTimer`: one tick of the software PWM. -/
def onTimer (s : State) : State :=
  if s.breathingActive then
    let a : State := { s with pwmCounter := Int.tmod (s.pwmCounter + 1) 100 }
    let shouldBeOn : Bool := decide (a.pwmCounter < a.currentBrightness)
    digitalWrite
      (digitalWrite (digitalWrite a Pin.LED1_PIN (!shouldBeOn)) Pin.LED2_PIN (!shouldBeOn))
      Pin.LED3_PIN (!shouldBeOn)
  else s

/-- The function `handleMagicalGlow`. The locals `accelerationFactor`, `breathingPeriod`
and the published value are computed in single precision, each operation rounded by
`roundF32`; `sinTurn x` stands for the value of `sin(phase)` with
`phase = 2π·(now % period)/breathingPeriod` and `x = (now % period)/breathingPeriod`. -/
def handleMagicalGlow (sinTurn : ℚ → ℚ) (s : State) (now : Nat) : State :=
  if sub32 now s.lastUpdate ≥ 10 then
    let a : State := { s with lastUpdate := now }
    if a.breathingActive then
      let elapsedTime : Nat := sub32 now a.breathingStartTime
      let accelerationFactor : ℚ := min (roundF32 (roundF32 (elapsedTime : ℚ) / 10000)) 1
      let breathingPeriod : ℚ := roundF32 (4000 - roundF32 (3500 * accelerationFactor))
      let period : Nat := (truncToInt breathingPeriod).toNat
      let sineValue : ℚ := sinTurn (((now % 4294967296 % period : Nat) : ℚ) / breathingPeriod)
      { a with currentBrightness := truncToInt (roundF32 (roundF32 (sineValue + 1) * 50)) }
    else { a with currentBrightness := 0 }
  else s

/-- The function `sendNextIrCode`. The read `irCommands[currentCommandIndex]` has no defined
result outside the table: the model returns `none` there. -/
def sendNextIrCode (s : State) : Option State :=
  if 0 ≤ s.currentCommandIndex then
    match irCommands[s.currentCommandIndex.toNat]? with
    | some cmd =>
        some
          { s with
            log := s.log ++ [Event.irSend s.currentCommandIndex.toNat cmd]
            currentCommandIndex := Int.tmod (s.currentCommandIndex + 1) (numCommands : Int) }
    | none => none
  else none

/-- The function `handleBLESpoofing`. -/
def handleBLESpoofing (s : State) (now : Nat) (rnd : BleDraw) : State :=
  if !s.bleInitialized || s.currentState = DeviceState.STATE_IDLE then s
  else if sub32 now s.lastBLESpoofTime ≥ BLE_SPOOF_INTERVAL_MS then
    { cycleBLEDevice s rnd with lastBLESpoofTime := now }
  else s

/-- The `ArduinoOTA.onStart` callback installed by `optimizedOTASetup`. -/
def otaOnStart (s : State) : State :=
  let a : State :=
    { s with
      breathingActive := false
      currentState := DeviceState.STATE_IDLE
      log := s.log ++
        [ Event.setBreathingActive false, Event.setCurrentState DeviceState.STATE_IDLE ] }
  let b : State :=
    if a.timerOn then { a with timerOn := false, log := a.log ++ [Event.timerEnd] } else a
  let c : State :=
    if b.bleInitialized && b.pAdvertising then
      { b with bleInitialized := false, log := b.log ++ [Event.bleStop, Event.bleDeinit] }
    else b
  let d : State :=
    digitalWrite
      (digitalWrite (digitalWrite (digitalWrite c Pin.LED1_PIN true) Pin.LED2_PIN true)
        Pin.LED3_PIN true)
      Pin.DEBUG_LED_PIN false
  { d with log := d.log ++ [Event.wdtDelete] }

/-- The state at the end of `setup`: `switchLevel` and `buttonLevel` are the levels read from
`SWITCH_PIN` and `BUTTON_PIN`, `bleOk` tells whether `setupBLE` obtained the advertising
handle, `now` is the value of `millis()` stored in `lastButtonCheck`. The log holds the
pin writes and watchdog feeds of `setup`; the bring-up calls of the OTA, BLE and timer
collaborators are not recorded. -/
def setup (switchLevel buttonLevel bleOk : Bool) (now : Nat) : State :=
  { currentState := DeviceState.STATE_IDLE
    lastButtonPressTime := 0
    operationStartTime := 0
    lastButtonCheck := now
    lastButtonState := buttonLevel
    isOtaMode := switchLevel
    currentBrightness := 0
    breathingActive := false
    breathingStartTime := 0
    pwmCounter := 0
    timerOn := true
    bleInitialized := bleOk
    pAdvertising := bleOk
    lastBLESpoofTime := 0
    currentDeviceType := 0
    currentDeviceIndex := 0
    currentCommandIndex := 0
    otaModeExitStartTime := 0
    otaExitInProgress := false
    lastUpdate := 0
    lastDebugPrint := 0
    lastOtaHandle := 0
    lastWatchdogFeed := 0
    led1 := true
    led2 := true
    led3 := true
    debugLed := true
    log :=
      [ Event.digitalWrite Pin.LED1_PIN true,
        Event.digitalWrite Pin.LED2_PIN true,
        Event.digitalWrite Pin.LED3_PIN true,
        Event.digitalWrite Pin.DEBUG_LED_PIN true,
        Event.wdtReset,
        Event.wdtReset ] }

/-! ## Schedules of calls -/

/-- The two cooperative calls that write the session state. -/
inductive SessionCall
  | handleButtonPress (now : Nat) (level : Bool) (rnd : BleDraw)
  | updateStateMachine (now : Nat) (level : Bool)
  deriving DecidableEq, Repr

/-- Run one session call. -/
def SessionCall.run (c : SessionCall) (s : State) : State :=
  match c with
  | SessionCall.handleButtonPress now level rnd => MagicPedal.handleButtonPress s now level rnd
  | SessionCall.updateStateMachine now level => MagicPedal.updateStateMachine s now level

/-- The call is a `handleButtonPress` call that accepts a rising edge in state `s`: the
debounce window has elapsed, the sample is high and the last accepted level is low. -/
def SessionCall.acceptsRisingEdge (c : SessionCall) (s : State) : Prop :=
  match c with
  | SessionCall.handleButtonPress now level _ =>
      sub32 now s.lastButtonCheck ≥ BUTTON_DEBOUNCE_MS ∧ level = true ∧ s.lastButtonState = false
  | SessionCall.updateStateMachine _ _ => False

/-- Successive calls of `updateStateMachine`, each with its time and button level. -/
def updateStateMachineRun (s : State) : List (Nat × Bool) → State
  | [] => s
  | (now, button) :: rest => updateStateMachineRun (updateStateMachine s now button) rest

/-- The times of those calls, in a sequence of `handleButtonPress` calls, that change the
accepted button level `lastButtonState`. -/
def levelChangeTimes (s : State) : List (Nat × Bool × BleDraw) → List Nat
  | [] => []
  | (now, level, rnd) :: rest =>
      if (handleButtonPress s now level rnd).lastButtonState ≠ s.lastButtonState then
        now :: levelChangeTimes (handleButtonPress s now level rnd) rest
      else levelChangeTimes (handleButtonPress s now level rnd) rest

/-- One atomic step of the firmware after `setup`: a call of one of the functions reached
from `loop`, a tick of the hardware timer, or the OTA start callback. -/
inductive Step
  | handleButtonPress (now : Nat) (level : Bool) (rnd : BleDraw)
  | updateStateMachine (now : Nat) (level : Bool)
  | handleMagicalGlow (now : Nat)
  | sendNextIrCode
  | handleBLESpoofing (now : Nat) (rnd : BleDraw)
  | onTimer
  | otaOnStart
  deriving DecidableEq, Repr

/-- Run one step; `none` when `sendNextIrCode` reads outside the table. -/
def step (sinTurn : ℚ → ℚ) (s : State) : Step → Option State
  | Step.handleButtonPress now level rnd => some (handleButtonPress s now level rnd)
  | Step.updateStateMachine now level => some (updateStateMachine s now level)
  | Step.handleMagicalGlow now => some (handleMagicalGlow sinTurn s now)
  | Step.sendNextIrCode => sendNextIrCode s
  | Step.handleBLESpoofing now rnd => some (handleBLESpoofing s now rnd)
  | Step.onTimer => some (onTimer s)
  | Step.otaOnStart => some (otaOnStart s)

/-- Run a schedule of steps, in order. -/
def run (sinTurn : ℚ → ℚ) (s : State) : List Step → Option State
  | [] => some s
  | st :: rest =>
      match step sinTurn s st with
      | some s' => run sinTurn s' rest
      | none => none

/-- The IR transmissions recorded in a log: table index and pattern, in order. -/
def irSent : List Event → List (Nat × IRCommand)
  | [] => []
  | Event.irSend index cmd :: rest => (index, cmd) :: irSent rest
  | _ :: rest => irSent rest

/-- A fixed draw for `cycleBLEDevice`, used in concrete runs. -/
def sampleDraw : BleDraw :=
  { addr := [1, 2, 3, 4, 5, 6], device_choice := 2, index := 1, adv_type_choice := 0,
    rand_val := 10 }

/-- A short-press session: pressed 100 ms after boot, released at 200 ms. -/
def shortSession : State :=
  updateStateMachine (handleButtonPress
    (updateStateMachine (handleButtonPress (setup false false true 0) 100 true sampleDraw)
      100 true) 200 false sampleDraw) 200 false

/-- A long-press session: pressed 100 ms after boot and still held at 3100 ms. -/
def longSession : State :=
  updateStateMachine
    (updateStateMachine (handleButtonPress (setup false false true 0) 100 true sampleDraw)
      100 true) 3100 true

/-- Two states agree on what `updateStateMachine` reads and writes of the session: the
session state, the session start time, `breathingActive`, the three light outputs, and,
while the press is still being classified, the press start time. -/
def sessionAgree (a b : State) : Prop :=
  a.currentState = b.currentState ∧
  a.operationStartTime = b.operationStartTime ∧
  a.breathingActive = b.breathingActive ∧
  a.led1 = b.led1 ∧ a.led2 = b.led2 ∧ a.led3 = b.led3 ∧
  (a.currentState = DeviceState.STATE_CHECKING_PRESS →
    a.lastButtonPressTime = b.lastButtonPressTime)

/-- The running short session `shortSession` after `handleMagicalGlow` has published a
brightness at 210 ms, with a sine value of one half. -/
def glowingSession : State :=
  handleMagicalGlow (fun _ => 1 / 2) shortSession 210

/-- A schedule with 21 `sendNextIrCode` steps split across two sessions: a short press at
100 ms released at 200 ms, the session end at 10100 ms, and a new press at 11000 ms. -/
def cycleSchedule : List Step :=
  [Step.handleButtonPress 100 true sampleDraw, Step.updateStateMachine 100 true] ++
  List.replicate 10 Step.sendNextIrCode ++
  [Step.handleButtonPress 200 false sampleDraw, Step.updateStateMachine 200 false] ++
  List.replicate 5 Step.sendNextIrCode ++
  [Step.updateStateMachine 10100 false, Step.handleButtonPress 11000 true sampleDraw,
   Step.updateStateMachine 11000 true] ++
  List.replicate 6 Step.sendNextIrCode

/-! ## Definitions for the maintenance mode, the loop and the beacon -/

/-- The local `accelerationFactor` of `handleMagicalGlow` as a function of `elapsedTime`:
`min(elapsedTime / 10000.0f, 1.0f)`, in single precision (`elapsedTime` is converted to
`float` before the division). -/
def accelerationFactor (elapsedTime : Nat) : ℚ :=
  min (roundF32 (roundF32 (elapsedTime : ℚ) / 10000)) 1

/-- The local `breathingPeriod` of `handleMagicalGlow` as a function of `elapsedTime`:
`4000.0f - (3500.0f * accelerationFactor)`, in single precision. -/
def breathingPeriod (elapsedTime : Nat) : ℚ :=
  roundF32 (4000 - roundF32 (3500 * accelerationFactor elapsedTime))

/-- The value of `4000 - 3500 * min(elapsedTime / 10000, 1)` in exact arithmetic, the
formula of the specification for the period. -/
def referencePeriod (elapsedTime : Nat) : ℚ :=
  4000 - 3500 * min ((elapsedTime : ℚ) / 10000) 1

/-- A run that ends idle with the emission cursor at 3: a short press at 100 ms released at
200 ms, three transmissions, and the session end at 10100 ms. -/
def idleAfterThreeSends : Option State :=
  run (fun _ => 0) (setup false false true 0)
    [Step.handleButtonPress 100 true sampleDraw, Step.updateStateMachine 100 true,
     Step.sendNextIrCode, Step.handleButtonPress 200 false sampleDraw,
     Step.updateStateMachine 200 false, Step.sendNextIrCode, Step.sendNextIrCode,
     Step.updateStateMachine 10100 false]

/-- The update of the exit-gesture record by one step taken in state `s`. The record holds
the time of the last accepted rising edge of the button, as long as every sample accepted
since then read high: an accepted rising edge sets it to its time, an accepted low sample
clears it, everything else keeps it. -/
def heldSinceStep (s : State) (g : Option Nat) : Step → Option Nat
  | Step.handleButtonPress now level _ =>
      if sub32 now s.lastButtonCheck ≥ BUTTON_DEBOUNCE_MS then
        if level then
          if s.lastButtonState then g else some now
        else none
      else g
  | _ => g

/-- The exit-gesture record after a schedule of steps run from state `s` with record `g`. -/
def heldSince (sinTurn : ℚ → ℚ) : State → Option Nat → List Step → Option Nat
  | _, g, [] => g
  | s, g, st :: rest =>
      match step sinTurn s st with
      | some s' => heldSince sinTurn s' (heldSinceStep s g st) rest
      | none => g

/-- A boot in OTA mode with the button pressed at 100 ms and still held at 3100 ms. -/
def otaHeldSteps : List Step :=
  [Step.handleButtonPress 100 true sampleDraw, Step.updateStateMachine 100 true,
   Step.handleButtonPress 3100 true sampleDraw, Step.updateStateMachine 3100 true]

/-- The state after `otaHeldSteps`, written with the calls themselves. -/
def otaHeld : State :=
  updateStateMachine
    (handleButtonPress
      (updateStateMachine (handleButtonPress (setup true false true 0) 100 true sampleDraw)
        100 true)
      3100 true sampleDraw)
    3100 true

/-- What one pass of `loop` reads from outside: the value of `millis()` at the top of the
pass and in each function the pass calls, the button level read by `handleButtonPress` and
by `updateStateMachine`, and the draws of the two possible beacon rotations. -/
structure PassInput where
  now : Nat
  buttonNow : Nat
  buttonLevel : Bool
  buttonRnd : BleDraw
  updateNow : Nat
  updateLevel : Bool
  glowNow : Nat
  spoofNow : Nat
  spoofRnd : BleDraw
  deriving DecidableEq, Repr

/-- The watchdog block at the top of `loop`. -/
def loop_watchdog (s : State) (now : Nat) : State :=
  if sub32 now s.lastWatchdogFeed ≥ 5000 then
    { s with log := s.log ++ [Event.wdtReset], lastWatchdogFeed := now }
  else s

/-- The debug block of `loop`: every 5000 ms the debug output blinks, twice in OTA mode and
once in play mode. -/
def loop_debug (s : State) (now : Nat) : State :=
  if sub32 now s.lastDebugPrint ≥ 5000 then
    let a : State := { s with lastDebugPrint := now }
    if a.isOtaMode then
      let b := digitalWrite a Pin.DEBUG_LED_PIN false
      let c := digitalWrite { b with log := b.log ++ [Event.delay 50] } Pin.DEBUG_LED_PIN true
      let d := digitalWrite { c with log := c.log ++ [Event.delay 50] } Pin.DEBUG_LED_PIN false
      digitalWrite { d with log := d.log ++ [Event.delay 50] } Pin.DEBUG_LED_PIN true
    else
      let b := digitalWrite a Pin.DEBUG_LED_PIN false
      digitalWrite { b with log := b.log ++ [Event.delay 100] } Pin.DEBUG_LED_PIN true
  else s

/-- The state in which `loop` calls `handleButtonPress`. -/
def loop_head (s : State) (i : PassInput) : State :=
  loop_debug (loop_watchdog s i.now) i.now

/-- The state after the calls of `handleButtonPress` and `updateStateMachine` in `loop`. -/
def loop_stateMachine (s : State) (i : PassInput) : State :=
  updateStateMachine
    (handleButtonPress (loop_head s i) i.buttonNow i.buttonLevel i.buttonRnd)
    i.updateNow i.updateLevel

/-- The session-gated block of `loop`, entered with the state `s` left by the state
machine: glow, one IR transmission, beacon timing. -/
def loop_activities (sinTurn : ℚ → ℚ) (s : State) (i : PassInput) : Option State :=
  if s.currentState = DeviceState.STATE_CHECKING_PRESS ∨
      s.currentState = DeviceState.STATE_RUNNING_SHORT ∨
      s.currentState = DeviceState.STATE_RUNNING_LONG then
    match sendNextIrCode (handleMagicalGlow sinTurn s i.glowNow) with
    | some a => some (handleBLESpoofing a i.spoofNow i.spoofRnd)
    | none => none
  else some s

/-- The end of `loop`: the OTA service call, at most every 50 ms in OTA mode, and the
10 ms delay. The start of an update transfer inside `ArduinoOTA.handle()` is the separate
step `otaOnStart`. -/
def loop_tail (s : State) (now : Nat) : State :=
  let a : State :=
    if s.isOtaMode && decide (sub32 now s.lastOtaHandle ≥ 50) then
      { s with log := s.log ++ [Event.otaHandle], lastOtaHandle := now }
    else s
  { a with log := a.log ++ [Event.delay 10] }

/-- The function `loop`: one pass. -/
def loop (sinTurn : ℚ → ℚ) (s : State) (i : PassInput) : Option State :=
  match loop_activities sinTurn (loop_stateMachine s i) i with
  | some a => some (loop_tail a i.now)
  | none => none

/-- Successive passes of `loop`. -/
def loopRun (sinTurn : ℚ → ℚ) (s : State) : List PassInput → Option State
  | [] => some s
  | i :: rest => (loop sinTurn s i).bind fun s' => loopRun sinTurn s' rest

/-- The start times of those passes in which the watchdog is fed. -/
def feedTimes (sinTurn : ℚ → ℚ) (s : State) : List PassInput → List Nat
  | [] => []
  | i :: rest =>
      (loop sinTurn s i).elim [] fun s' =>
        if List.count Event.wdtReset s'.log ≠ List.count Event.wdtReset s.log then
          i.now :: feedTimes sinTurn s' rest
        else feedTimes sinTurn s' rest

/-- A pass all of whose clock reads return `t`, with the button at `level`. -/
def passAt (t : Nat) (level : Bool) : PassInput :=
  { now := t, buttonNow := t, buttonLevel := level, buttonRnd := sampleDraw, updateNow := t,
    updateLevel := level, glowNow := t, spoofNow := t, spoofRnd := sampleDraw }

/-- Idle passes every 15 ms, the first 4990 ms after boot: 340 of them. -/
def idlePasses : List PassInput :=
  (List.range 340).map fun k => passAt (4990 + 15 * k) false

/-- Idle passes every 1000 ms from 1000 ms to 11000 ms after boot. -/
def slowPasses : List PassInput :=
  (List.range 11).map fun k => passAt (1000 + 1000 * k) false

/-! ## Definitions for the beacon claims -/

/-- The event is a call into the beacon collaborator. -/
def Event.isBle : Event → Bool
  | Event.bleStop => true
  | Event.bleSetDeviceAddress _ => true
  | Event.bleSetAdvertisementType _ => true
  | Event.bleSetAdvertisementData _ _ => true
  | Event.bleStart => true
  | Event.bleSetTxPower _ => true
  | Event.bleDeinit => true
  | _ => false

/-- The beacon collaborator calls of a log, in order. -/
def bleCalls (log : List Event) : List Event :=
  log.filter Event.isBle

/-- A log without its beacon collaborator calls: the writes of the session state, of
`breathingActive` and of the mode flag, the pin writes and the other collaborator calls,
in order. -/
def withoutBle (log : List Event) : List Event :=
  log.filter fun e => !e.isBle

/-- The state with everything that belongs to the beacon blanked: `bleInitialized`,
`pAdvertising`, the beacon cursor (`lastBLESpoofTime`, `currentDeviceType`,
`currentDeviceIndex`) and the beacon calls of the log. Two states with the same image
agree on the session state, the session timestamps, `breathingActive`, the pin levels,
every other field, and on the sequence of non-beacon events. -/
def eraseBle (s : State) : State :=
  { s with
    bleInitialized := false
    pAdvertising := false
    lastBLESpoofTime := 0
    currentDeviceType := 0
    currentDeviceIndex := 0
    log := withoutBle s.log }

/-- The function `f` does the same outside the beacon whether the beacon is up or not:
blanking the beacon before `f` or not gives the same state once the beacon is blanked. -/
def BleBlind (f : State → State) : Prop :=
  ∀ s, eraseBle (f s) = eraseBle (f (eraseBle s))

/-- With the beacon not initialised, the function `f` leaves it so and makes no call into
the beacon collaborator. -/
def BleQuiet (f : State → State) : Prop :=
  ∀ s, s.bleInitialized = false →
    (f s).bleInitialized = false ∧ bleCalls (f s).log = bleCalls s.log

/-- The clock reads of a run of passes, in program order. -/
def passTimes : List PassInput → List Nat
  | [] => []
  | i :: rest => i.now :: i.buttonNow :: i.updateNow :: i.glowNow :: i.spoofNow :: passTimes rest

/-- The time of the beacon rotation performed by `handleButtonPress` in one pass of `loop`
from state `s`, if that call starts advertising: its clock read. -/
def buttonRotationTimes (s : State) (i : PassInput) : List Nat :=
  if List.count Event.bleStart
        (handleButtonPress (loop_head s i) i.buttonNow i.buttonLevel i.buttonRnd).log ≠
      List.count Event.bleStart (loop_head s i).log then [i.buttonNow] else []

/-- The time of the beacon rotation performed by `handleBLESpoofing` in one pass of `loop`
from state `s`, if that call is made and starts advertising: its clock read. -/
def spoofRotationTimes (sinTurn : ℚ → ℚ) (s : State) (i : PassInput) : List Nat :=
  if (loop_stateMachine s i).currentState = DeviceState.STATE_IDLE then []
  else
    (sendNextIrCode (handleMagicalGlow sinTurn (loop_stateMachine s i) i.glowNow)).elim []
      fun b =>
        if List.count Event.bleStart (handleBLESpoofing b i.spoofNow i.spoofRnd).log ≠
            List.count Event.bleStart b.log then [i.spoofNow] else []

/-- The times of the beacon rotations performed in one pass of `loop` from state `s`. -/
def passRotationTimes (sinTurn : ℚ → ℚ) (s : State) (i : PassInput) : List Nat :=
  buttonRotationTimes s i ++ spoofRotationTimes sinTurn s i

/-- The times of the beacon rotations of a run of passes, up to and including the pass
that leaves the session idle. -/
def sessionRotationTimes (sinTurn : ℚ → ℚ) (s : State) : List PassInput → List Nat
  | [] => []
  | i :: rest =>
      (loop sinTurn s i).elim [] fun s' =>
        passRotationTimes sinTurn s i ++
          (if s'.currentState = DeviceState.STATE_IDLE then []
           else sessionRotationTimes sinTurn s' rest)

/-- A pass that starts at `t` with the button at `level`, in which the IR transmission
takes 80 ms, so that `handleBLESpoofing` reads the clock at `t + 80`. -/
def busyPassAt (t : Nat) (level : Bool) : PassInput :=
  { now := t, buttonNow := t, buttonLevel := level, buttonRnd := sampleDraw, updateNow := t,
    updateLevel := level, glowNow := t, spoofNow := t + 80, spoofRnd := sampleDraw }

/-- A long-press session: the button is pressed at 100 ms, held during 32 passes 100 ms
apart, and read low in the pass at 3300 ms. -/
def longPressPasses : List PassInput :=
  ((List.range 32).map fun k => busyPassAt (100 + 100 * k) true) ++ [busyPassAt 3300 false]

/-! ## Successive ticks -/

/-- The states after each of `n` successive calls of `onTimer`, oldest first. -/
def tickStates (s : State) : Nat → List State
  | 0 => []
  | n + 1 => onTimer s :: tickStates (onTimer s) n

/-- All three light outputs are driven on (LOW, the LEDs are active-low). -/
def lightsOn (s : State) : Bool := !s.led1 && !s.led2 && !s.led3

/-- All three light outputs are at the off level (HIGH). -/
def lightsOff (s : State) : Bool := s.led1 && s.led2 && s.led3

/-- A schedule that starts a short-press session, lets it glow, tick and transmit, ends it
by the 10 s time-out and then takes the update-start callback. -/
def sessionThenUpdate : List Step :=
  [ Step.handleButtonPress 100 true sampleDraw,
    Step.onTimer,
    Step.updateStateMachine 200 false,
    Step.handleMagicalGlow 210,
    Step.onTimer,
    Step.sendNextIrCode,
    Step.updateStateMachine 10200 false,
    Step.onTimer,
    Step.otaOnStart ]

/-! ## The brightness curve and its reference formula -/

/-- The argument of the sine in `handleMagicalGlow`, in turns (the local `phase` divided
by 2π): `(now % (unsigned long)breathingPeriod) / breathingPeriod`, where the period is
taken at `elapsedTime = now - breathingStartTime`. -/
def phaseTurns (now breathingStartTime : Nat) : ℚ :=
  ((now % 4294967296 %
      (truncToInt (breathingPeriod (sub32 now breathingStartTime))).toNat : Nat) : ℚ) /
    breathingPeriod (sub32 now breathingStartTime)

/-- The reference formula of the specification for the brightness, written from its
words: `round((sin(phase) + 1) * 50)`, the scaled sine value rounded to the nearest
integer; `sineValue` is the value of the sine at the phase. -/
def referenceBrightness (sineValue : ℚ) : Int :=
  round ((sineValue + 1) * 50)

/-! ## Accesses to the variables shared with the timer interrupt -/

/-- The two variables read by `onTimer` and written by the cooperative side. -/
inductive SharedVar
  | currentBrightness
  | breathingActive
  deriving DecidableEq, Repr

/-- What a function does with the shared variables and with `timerMux`, in program order:
`enterCritical` is `portENTER_CRITICAL(&timerMux)` (or its `_ISR` form), `exitCritical` is
`portEXIT_CRITICAL(&timerMux)`. -/
inductive Access
  | enterCritical
  | exitCritical
  | read (v : SharedVar)
  | write (v : SharedVar)
  deriving DecidableEq, Repr

/-- Accesses of `onTimer`: the whole body lies between `portENTER_CRITICAL_ISR` and
`portEXIT_CRITICAL_ISR`; it reads `breathingActive` and, when that is set,
`currentBrightness`. -/
def onTimer_accesses (s : State) : List Access :=
  [Access.enterCritical, Access.read SharedVar.breathingActive] ++
    (if s.breathingActive then [Access.read SharedVar.currentBrightness] else []) ++
    [Access.exitCritical]

/-- Accesses of `handleMagicalGlow`: when the update is due it reads `breathingActive` in
the `if` condition, and either branch writes `currentBrightness` between
`portENTER_CRITICAL` and `portEXIT_CRITICAL`. -/
def handleMagicalGlow_accesses (s : State) (now : Nat) : List Access :=
  if sub32 now s.lastUpdate ≥ 10 then
    Access.read SharedVar.breathingActive ::
      (if s.breathingActive then
        [Access.enterCritical, Access.write SharedVar.currentBrightness, Access.exitCritical]
      else
        [Access.enterCritical, Access.write SharedVar.currentBrightness, Access.exitCritical])
  else []

/-- Accesses of `updateStateMachine`: the session-end block of either running state
assigns `breathingActive = false`; the function never takes `timerMux`. -/
def updateStateMachine_accesses (s : State) (now : Nat) (button : Bool) : List Access :=
  match s.currentState with
  | DeviceState.STATE_IDLE => []
  | DeviceState.STATE_CHECKING_PRESS => []
  | DeviceState.STATE_RUNNING_SHORT =>
      if sub32 now s.operationStartTime ≥ SHORT_PRESS_DURATION_MS then
        [Access.write SharedVar.breathingActive]
      else []
  | DeviceState.STATE_RUNNING_LONG =>
      if !button then [Access.write SharedVar.breathingActive] else []

/-- Accesses of `handleButtonPress`: the session start assigns `breathingActive = true`
and the OTA exit assigns `breathingActive = false`; the function never takes
`timerMux`. -/
def handleButtonPress_accesses (s : State) (now : Nat) (currentButtonState : Bool)
    (rnd : BleDraw) : List Access :=
  if sub32 now s.lastButtonCheck ≥ BUTTON_DEBOUNCE_MS then
    let started : List Access :=
      if currentButtonState && !s.lastButtonState then
        if s.currentState = DeviceState.STATE_IDLE then
          [Access.write SharedVar.breathingActive]
        else []
      else []
    let s1 : State :=
      if currentButtonState && !s.lastButtonState then handleButtonPress_risingEdge s now rnd
      else s
    let exited : List Access :=
      if s1.isOtaMode && currentButtonState && s1.otaExitInProgress then
        if sub32 now s1.otaModeExitStartTime ≥ 5000 then
          [Access.write SharedVar.breathingActive]
        else []
      else []
    started ++ exited
  else []

/-- The writes of `breathingActive` recorded in a log, in order. -/
def breathingWrites : List Event → List Access
  | [] => []
  | Event.setBreathingActive _ :: rest =>
      Access.write SharedVar.breathingActive :: breathingWrites rest
  | _ :: rest => breathingWrites rest

/-- Every read and write of a variable selected by `p` in the sequence happens between an
`enterCritical` and the next `exitCritical`; `inside` tells whether the sequence starts
inside the critical section. -/
def guardedFrom (p : SharedVar → Bool) (inside : Bool) : List Access → Bool
  | [] => true
  | Access.enterCritical :: rest => guardedFrom p true rest
  | Access.exitCritical :: rest => guardedFrom p false rest
  | Access.read v :: rest => (!p v || inside) && guardedFrom p inside rest
  | Access.write v :: rest => (!p v || inside) && guardedFrom p inside rest

/-- Every read and write of the shared variables in the sequence, which starts outside
the critical section, happens inside it. -/
def guarded (l : List Access) : Bool := guardedFrom (fun _ => true) false l

/-- The same for the accesses to `currentBrightness` alone. -/
def brightnessGuarded (l : List Access) : Bool :=
  guardedFrom (fun v => decide (v = SharedVar.currentBrightness)) false l

/-! ## Field-by-field effect of the blocks -/

/-- The function `cycleBLEDevice` writes nothing but the log. -/
@[simp]
theorem cycleBLEDevice_fields (s : State) (rnd : BleDraw) :
    (cycleBLEDevice s rnd).currentState = s.currentState ∧
    (cycleBLEDevice s rnd).lastButtonPressTime = s.lastButtonPressTime ∧
    (cycleBLEDevice s rnd).operationStartTime = s.operationStartTime ∧
    (cycleBLEDevice s rnd).lastButtonCheck = s.lastButtonCheck ∧
    (cycleBLEDevice s rnd).lastButtonState = s.lastButtonState ∧
    (cycleBLEDevice s rnd).isOtaMode = s.isOtaMode ∧
    (cycleBLEDevice s rnd).currentBrightness = s.currentBrightness ∧
    (cycleBLEDevice s rnd).breathingActive = s.breathingActive ∧
    (cycleBLEDevice s rnd).breathingStartTime = s.breathingStartTime ∧
    (cycleBLEDevice s rnd).pwmCounter = s.pwmCounter ∧
    (cycleBLEDevice s rnd).timerOn = s.timerOn ∧
    (cycleBLEDevice s rnd).bleInitialized = s.bleInitialized ∧
    (cycleBLEDevice s rnd).pAdvertising = s.pAdvertising ∧
    (cycleBLEDevice s rnd).lastBLESpoofTime = s.lastBLESpoofTime ∧
    (cycleBLEDevice s rnd).currentDeviceType = s.currentDeviceType ∧
    (cycleBLEDevice s rnd).currentDeviceIndex = s.currentDeviceIndex ∧
    (cycleBLEDevice s rnd).currentCommandIndex = s.currentCommandIndex ∧
    (cycleBLEDevice s rnd).otaModeExitStartTime = s.otaModeExitStartTime ∧
    (cycleBLEDevice s rnd).otaExitInProgress = s.otaExitInProgress ∧
    (cycleBLEDevice s rnd).lastUpdate = s.lastUpdate ∧
    (cycleBLEDevice s rnd).lastDebugPrint = s.lastDebugPrint ∧
    (cycleBLEDevice s rnd).lastOtaHandle = s.lastOtaHandle ∧
    (cycleBLEDevice s rnd).lastWatchdogFeed = s.lastWatchdogFeed ∧
    (cycleBLEDevice s rnd).led1 = s.led1 ∧
    (cycleBLEDevice s rnd).led2 = s.led2 ∧
    (cycleBLEDevice s rnd).led3 = s.led3 ∧
    (cycleBLEDevice s rnd).debugLed = s.debugLed := by
  unfold cycleBLEDevice
  split <;> simp

/-- Fields after the session-start block. -/
theorem startOperation_fields (s : State) (now : Nat) (rnd : BleDraw) :
    (handleButtonPress_startOperation s now rnd).currentState = DeviceState.STATE_CHECKING_PRESS ∧
    (handleButtonPress_startOperation s now rnd).lastButtonPressTime = s.lastButtonPressTime ∧
    (handleButtonPress_startOperation s now rnd).operationStartTime = now ∧
    (handleButtonPress_startOperation s now rnd).lastButtonCheck = s.lastButtonCheck ∧
    (handleButtonPress_startOperation s now rnd).lastButtonState = s.lastButtonState ∧
    (handleButtonPress_startOperation s now rnd).isOtaMode = s.isOtaMode ∧
    (handleButtonPress_startOperation s now rnd).currentBrightness = s.currentBrightness ∧
    (handleButtonPress_startOperation s now rnd).breathingActive = true ∧
    (handleButtonPress_startOperation s now rnd).breathingStartTime = now ∧
    (handleButtonPress_startOperation s now rnd).pwmCounter = s.pwmCounter ∧
    (handleButtonPress_startOperation s now rnd).timerOn = s.timerOn ∧
    (handleButtonPress_startOperation s now rnd).bleInitialized = s.bleInitialized ∧
    (handleButtonPress_startOperation s now rnd).pAdvertising = s.pAdvertising ∧
    (handleButtonPress_startOperation s now rnd).currentCommandIndex = s.currentCommandIndex ∧
    (handleButtonPress_startOperation s now rnd).otaModeExitStartTime = s.otaModeExitStartTime ∧
    (handleButtonPress_startOperation s now rnd).otaExitInProgress = s.otaExitInProgress ∧
    (handleButtonPress_startOperation s now rnd).lastUpdate = s.lastUpdate ∧
    (handleButtonPress_startOperation s now rnd).lastDebugPrint = s.lastDebugPrint ∧
    (handleButtonPress_startOperation s now rnd).lastOtaHandle = s.lastOtaHandle ∧
    (handleButtonPress_startOperation s now rnd).lastWatchdogFeed = s.lastWatchdogFeed ∧
    (handleButtonPress_startOperation s now rnd).led1 = s.led1 ∧
    (handleButtonPress_startOperation s now rnd).led2 = s.led2 ∧
    (handleButtonPress_startOperation s now rnd).led3 = s.led3 ∧
    (handleButtonPress_startOperation s now rnd).debugLed = s.debugLed := by
  unfold handleButtonPress_startOperation
  simp only []
  split <;> simp

/-- Fields after the rising-edge block. -/
theorem risingEdge_fields (s : State) (now : Nat) (rnd : BleDraw) :
    (handleButtonPress_risingEdge s now rnd).currentState = (if s.currentState = DeviceState.STATE_IDLE then DeviceState.STATE_CHECKING_PRESS
      else s.currentState) ∧
    (handleButtonPress_risingEdge s now rnd).lastButtonPressTime = now ∧
    (handleButtonPress_risingEdge s now rnd).operationStartTime = (if s.currentState = DeviceState.STATE_IDLE then now else s.operationStartTime) ∧
    (handleButtonPress_risingEdge s now rnd).lastButtonCheck = s.lastButtonCheck ∧
    (handleButtonPress_risingEdge s now rnd).lastButtonState = s.lastButtonState ∧
    (handleButtonPress_risingEdge s now rnd).isOtaMode = s.isOtaMode ∧
    (handleButtonPress_risingEdge s now rnd).currentBrightness = s.currentBrightness ∧
    (handleButtonPress_risingEdge s now rnd).breathingActive = (if s.currentState = DeviceState.STATE_IDLE then true else s.breathingActive) ∧
    (handleButtonPress_risingEdge s now rnd).breathingStartTime = (if s.currentState = DeviceState.STATE_IDLE then now else s.breathingStartTime) ∧
    (handleButtonPress_risingEdge s now rnd).pwmCounter = s.pwmCounter ∧
    (handleButtonPress_risingEdge s now rnd).timerOn = s.timerOn ∧
    (handleButtonPress_risingEdge s now rnd).bleInitialized = s.bleInitialized ∧
    (handleButtonPress_risingEdge s now rnd).pAdvertising = s.pAdvertising ∧
    (handleButtonPress_risingEdge s now rnd).currentCommandIndex = s.currentCommandIndex ∧
    (handleButtonPress_risingEdge s now rnd).otaModeExitStartTime = (if s.isOtaMode then now else s.otaModeExitStartTime) ∧
    (handleButtonPress_risingEdge s now rnd).otaExitInProgress = (s.isOtaMode || s.otaExitInProgress) ∧
    (handleButtonPress_risingEdge s now rnd).lastUpdate = s.lastUpdate ∧
    (handleButtonPress_risingEdge s now rnd).lastDebugPrint = s.lastDebugPrint ∧
    (handleButtonPress_risingEdge s now rnd).lastOtaHandle = s.lastOtaHandle ∧
    (handleButtonPress_risingEdge s now rnd).lastWatchdogFeed = s.lastWatchdogFeed ∧
    (handleButtonPress_risingEdge s now rnd).led1 = s.led1 ∧
    (handleButtonPress_risingEdge s now rnd).led2 = s.led2 ∧
    (handleButtonPress_risingEdge s now rnd).led3 = s.led3 ∧
    (handleButtonPress_risingEdge s now rnd).debugLed = s.debugLed := by
  unfold handleButtonPress_risingEdge
  cases h : s.isOtaMode <;> by_cases hi : s.currentState = DeviceState.STATE_IDLE <;>
    simp [h, hi, startOperation_fields]

/-- Fields after the OTA-exit block. -/
theorem exitOta_fields (s : State) (now : Nat) :
    (handleButtonPress_exitOta s now).currentState = DeviceState.STATE_IDLE ∧
    (handleButtonPress_exitOta s now).lastButtonPressTime = now ∧
    (handleButtonPress_exitOta s now).operationStartTime = s.operationStartTime ∧
    (handleButtonPress_exitOta s now).lastButtonCheck = s.lastButtonCheck ∧
    (handleButtonPress_exitOta s now).lastButtonState = s.lastButtonState ∧
    (handleButtonPress_exitOta s now).isOtaMode = false ∧
    (handleButtonPress_exitOta s now).currentBrightness = s.currentBrightness ∧
    (handleButtonPress_exitOta s now).breathingActive = false ∧
    (handleButtonPress_exitOta s now).breathingStartTime = s.breathingStartTime ∧
    (handleButtonPress_exitOta s now).pwmCounter = s.pwmCounter ∧
    (handleButtonPress_exitOta s now).timerOn = s.timerOn ∧
    (handleButtonPress_exitOta s now).bleInitialized = s.bleInitialized ∧
    (handleButtonPress_exitOta s now).pAdvertising = s.pAdvertising ∧
    (handleButtonPress_exitOta s now).lastBLESpoofTime = s.lastBLESpoofTime ∧
    (handleButtonPress_exitOta s now).currentDeviceType = s.currentDeviceType ∧
    (handleButtonPress_exitOta s now).currentDeviceIndex = s.currentDeviceIndex ∧
    (handleButtonPress_exitOta s now).currentCommandIndex = s.currentCommandIndex ∧
    (handleButtonPress_exitOta s now).otaModeExitStartTime = s.otaModeExitStartTime ∧
    (handleButtonPress_exitOta s now).otaExitInProgress = false ∧
    (handleButtonPress_exitOta s now).lastUpdate = s.lastUpdate ∧
    (handleButtonPress_exitOta s now).lastDebugPrint = s.lastDebugPrint ∧
    (handleButtonPress_exitOta s now).lastOtaHandle = s.lastOtaHandle ∧
    (handleButtonPress_exitOta s now).lastWatchdogFeed = s.lastWatchdogFeed ∧
    (handleButtonPress_exitOta s now).led1 = true ∧
    (handleButtonPress_exitOta s now).led2 = true ∧
    (handleButtonPress_exitOta s now).led3 = true ∧
    (handleButtonPress_exitOta s now).debugLed = true := by
  unfold handleButtonPress_exitOta
  simp only []
  split <;> simp [digitalWrite]

/-- Fields after the session-end block. -/
theorem endSession_fields (s : State) :
    (endSession s).currentState = DeviceState.STATE_IDLE ∧
    (endSession s).lastButtonPressTime = s.lastButtonPressTime ∧
    (endSession s).operationStartTime = s.operationStartTime ∧
    (endSession s).lastButtonCheck = s.lastButtonCheck ∧
    (endSession s).lastButtonState = s.lastButtonState ∧
    (endSession s).isOtaMode = s.isOtaMode ∧
    (endSession s).currentBrightness = s.currentBrightness ∧
    (endSession s).breathingActive = false ∧
    (endSession s).breathingStartTime = s.breathingStartTime ∧
    (endSession s).pwmCounter = s.pwmCounter ∧
    (endSession s).timerOn = s.timerOn ∧
    (endSession s).bleInitialized = s.bleInitialized ∧
    (endSession s).pAdvertising = s.pAdvertising ∧
    (endSession s).lastBLESpoofTime = s.lastBLESpoofTime ∧
    (endSession s).currentDeviceType = s.currentDeviceType ∧
    (endSession s).currentDeviceIndex = s.currentDeviceIndex ∧
    (endSession s).currentCommandIndex = s.currentCommandIndex ∧
    (endSession s).otaModeExitStartTime = s.otaModeExitStartTime ∧
    (endSession s).otaExitInProgress = s.otaExitInProgress ∧
    (endSession s).lastUpdate = s.lastUpdate ∧
    (endSession s).lastDebugPrint = s.lastDebugPrint ∧
    (endSession s).lastOtaHandle = s.lastOtaHandle ∧
    (endSession s).lastWatchdogFeed = s.lastWatchdogFeed ∧
    (endSession s).led1 = true ∧
    (endSession s).led2 = true ∧
    (endSession s).led3 = true ∧
    (endSession s).debugLed = s.debugLed := by
  unfold endSession
  simp only []
  split <;> simp [digitalWrite]

/-! ## Session state machine -/

/-- Where `handleButtonPress` can leave the session state: unchanged, or `ClassifyingPress`
from `Idle` on an accepted rising edge, or `Idle`. -/
theorem handleButtonPress_currentState (s : State) (now : Nat) (level : Bool) (rnd : BleDraw) :
    (handleButtonPress s now level rnd).currentState = s.currentState ∨
    ((handleButtonPress s now level rnd).currentState = DeviceState.STATE_CHECKING_PRESS ∧
      s.currentState = DeviceState.STATE_IDLE ∧
      sub32 now s.lastButtonCheck ≥ BUTTON_DEBOUNCE_MS ∧ level = true ∧
      s.lastButtonState = false) ∨
    (handleButtonPress s now level rnd).currentState = DeviceState.STATE_IDLE := by
  unfold handleButtonPress
  by_cases hd : sub32 now s.lastButtonCheck ≥ BUTTON_DEBOUNCE_MS
  · by_cases hi : s.currentState = DeviceState.STATE_IDLE <;>
      cases level <;> cases h1 : s.lastButtonState <;> cases h2 : s.isOtaMode <;>
      cases h3 : s.otaExitInProgress <;>
      simp [hd, hi, h1, h2, h3, risingEdge_fields, exitOta_fields] <;>
      split_ifs <;> simp_all [risingEdge_fields, exitOta_fields]
  · simp [hd]

/-- Where `updateStateMachine` can leave the session state. -/
theorem updateStateMachine_currentState (s : State) (now : Nat) (button : Bool) :
    (updateStateMachine s now button).currentState = s.currentState ∨
    (s.currentState = DeviceState.STATE_CHECKING_PRESS ∧
      ((updateStateMachine s now button).currentState = DeviceState.STATE_RUNNING_LONG ∨
       (updateStateMachine s now button).currentState = DeviceState.STATE_RUNNING_SHORT)) ∨
    (s.currentState ≠ DeviceState.STATE_IDLE ∧
      (updateStateMachine s now button).currentState = DeviceState.STATE_IDLE) := by
  unfold updateStateMachine
  split <;> rename_i h <;> simp only [h] <;> (try split_ifs) <;> simp_all [endSession_fields]

/-- C1: a step of `handleButtonPress` or `updateStateMachine` that enters `RunningShort` or
`RunningLong` starts in `ClassifyingPress`, and a step that leaves `Idle` ends in
`ClassifyingPress` and is a `handleButtonPress` call accepting a rising edge. -/
theorem running_only_via_classifying (s : State) (c : SessionCall) :
    (((c.run s).currentState = DeviceState.STATE_RUNNING_SHORT ∨
        (c.run s).currentState = DeviceState.STATE_RUNNING_LONG) →
      (c.run s).currentState ≠ s.currentState →
      s.currentState = DeviceState.STATE_CHECKING_PRESS) ∧
    (s.currentState = DeviceState.STATE_IDLE →
      (c.run s).currentState ≠ DeviceState.STATE_IDLE →
      (c.run s).currentState = DeviceState.STATE_CHECKING_PRESS ∧ c.acceptsRisingEdge s) := by
  cases c with
  | handleButtonPress now level rnd =>
    simp only [SessionCall.run, SessionCall.acceptsRisingEdge]
    rcases handleButtonPress_currentState s now level rnd with h | ⟨h, hi, hd, hl, hs⟩ | h
    · rw [h]; exact ⟨fun _ hne => absurd rfl hne, fun hi hn => absurd hi hn⟩
    · rw [h]; simp [hi, hd, hl, hs]
    · rw [h]; simp
  | updateStateMachine now level =>
    simp only [SessionCall.run, SessionCall.acceptsRisingEdge]
    rcases updateStateMachine_currentState s now level with h | ⟨hc, _⟩ | ⟨hn, h⟩
    · rw [h]; exact ⟨fun _ hne => absurd rfl hne, fun hi hn => absurd hi hn⟩
    · simp [hc]
    · rw [h]; simp [hn]

/-- C1 at concrete inputs: a press accepted 100 ms after boot leaves `Idle` for
`ClassifyingPress`, and the release seen by `updateStateMachine` enters `RunningShort`
from `ClassifyingPress`. -/
theorem running_only_via_classifying_witness :
    ((SessionCall.handleButtonPress 100 true sampleDraw).run
        (setup false false true 0)).currentState = DeviceState.STATE_CHECKING_PRESS ∧
    (SessionCall.handleButtonPress 100 true sampleDraw).acceptsRisingEdge
        (setup false false true 0) ∧
    (handleButtonPress (setup false false true 0) 100 true sampleDraw).currentState =
      DeviceState.STATE_CHECKING_PRESS :=
  ⟨((running_only_via_classifying (setup false false true 0)
        (SessionCall.handleButtonPress 100 true sampleDraw)).2 rfl (by decide)).1,
   ((running_only_via_classifying (setup false false true 0)
        (SessionCall.handleButtonPress 100 true sampleDraw)).2 rfl (by decide)).2,
   ((running_only_via_classifying
        (handleButtonPress (setup false false true 0) 100 true sampleDraw)
        (SessionCall.updateStateMachine 200 false)).1 (Or.inl (by decide)) (by decide))⟩

/-- C2: from `Idle`, an accepted rising edge (debounce window elapsed, sample high, last
accepted level low) moves to `ClassifyingPress`, stamps `lastButtonPressTime`,
`operationStartTime` and `breathingStartTime` with `now` and sets `breathingActive`. -/
theorem idle_rising_edge_starts_session (s : State) (now : Nat) (rnd : BleDraw)
    (hidle : s.currentState = DeviceState.STATE_IDLE)
    (hdebounce : sub32 now s.lastButtonCheck ≥ BUTTON_DEBOUNCE_MS)
    (hlow : s.lastButtonState = false) :
    (handleButtonPress s now true rnd).currentState = DeviceState.STATE_CHECKING_PRESS ∧
    (handleButtonPress s now true rnd).lastButtonPressTime = now ∧
    (handleButtonPress s now true rnd).operationStartTime = now ∧
    (handleButtonPress s now true rnd).breathingStartTime = now ∧
    (handleButtonPress s now true rnd).breathingActive = true := by
  have h0 : sub32 now now = 0 := by unfold sub32; omega
  unfold handleButtonPress
  cases h2 : s.isOtaMode <;> cases h3 : s.otaExitInProgress <;>
    simp [hdebounce, hidle, hlow, h2, h3, h0, risingEdge_fields]

/-- C2 at a concrete input: a press accepted 100 ms after boot, in play mode. -/
theorem idle_rising_edge_starts_session_witness :
    (handleButtonPress (setup false false true 0) 100 true sampleDraw).currentState =
      DeviceState.STATE_CHECKING_PRESS ∧
    (handleButtonPress (setup false false true 0) 100 true sampleDraw).lastButtonPressTime =
      100 ∧
    (handleButtonPress (setup false false true 0) 100 true sampleDraw).operationStartTime =
      100 ∧
    (handleButtonPress (setup false false true 0) 100 true sampleDraw).breathingStartTime =
      100 ∧
    (handleButtonPress (setup false false true 0) 100 true sampleDraw).breathingActive = true :=
  idle_rising_edge_starts_session (setup false false true 0) 100 sampleDraw rfl (by decide) rfl

/-- C3: in `RunningShort` the session ends exactly when `now - operationStartTime`
(32-bit) has reached 10000 ms, in `RunningLong` exactly when the button reads low; the
resulting state then has `breathingActive = false` and the three light outputs at the off
level (HIGH), and otherwise `updateStateMachine` changes nothing. -/
theorem session_end_conditions (s : State) (now : Nat) (button : Bool) :
    (s.currentState = DeviceState.STATE_RUNNING_SHORT →
      ((updateStateMachine s now button).currentState = DeviceState.STATE_IDLE ↔
        sub32 now s.operationStartTime ≥ SHORT_PRESS_DURATION_MS) ∧
      (sub32 now s.operationStartTime ≥ SHORT_PRESS_DURATION_MS →
        (updateStateMachine s now button).breathingActive = false ∧
        (updateStateMachine s now button).led1 = true ∧
        (updateStateMachine s now button).led2 = true ∧
        (updateStateMachine s now button).led3 = true) ∧
      (¬ sub32 now s.operationStartTime ≥ SHORT_PRESS_DURATION_MS →
        updateStateMachine s now button = s)) ∧
    (s.currentState = DeviceState.STATE_RUNNING_LONG →
      ((updateStateMachine s now button).currentState = DeviceState.STATE_IDLE ↔
        button = false) ∧
      (button = false →
        (updateStateMachine s now button).breathingActive = false ∧
        (updateStateMachine s now button).led1 = true ∧
        (updateStateMachine s now button).led2 = true ∧
        (updateStateMachine s now button).led3 = true) ∧
      (¬ button = false → updateStateMachine s now button = s)) := by
  constructor
  · intro h
    unfold updateStateMachine
    simp only [h]
    by_cases hc : sub32 now s.operationStartTime ≥ SHORT_PRESS_DURATION_MS
    · simp [hc, endSession_fields]
    · simp [hc, h]
  · intro h
    unfold updateStateMachine
    simp only [h]
    cases button
    · simp [endSession_fields]
    · simp [h]

/-- C3 at concrete inputs: the short session of `shortSession` (pressed at 100 ms) is
still running at 10099 ms and ends at 10100 ms; the long session of `longSession` ends
when the button reads low. -/
theorem session_end_conditions_witness :
    updateStateMachine shortSession 10099 false = shortSession ∧
    (updateStateMachine shortSession 10100 false).currentState = DeviceState.STATE_IDLE ∧
    (updateStateMachine shortSession 10100 false).breathingActive = false ∧
    (updateStateMachine longSession 5000 false).currentState = DeviceState.STATE_IDLE ∧
    (updateStateMachine longSession 5000 false).led1 = true :=
  ⟨((session_end_conditions shortSession 10099 false).1 (by decide)).2.2 (by decide),
   ((session_end_conditions shortSession 10100 false).1 (by decide)).1.mpr (by decide),
   (((session_end_conditions shortSession 10100 false).1 (by decide)).2.1 (by decide)).1,
   ((session_end_conditions longSession 5000 false).2 (by decide)).1.mpr rfl,
   (((session_end_conditions longSession 5000 false).2 (by decide)).2.1 rfl).2.1⟩

/-- C4: in `ClassifyingPress` with the button reading high, `updateStateMachine` moves to
`RunningLong` exactly when `now - lastButtonPressTime` (32-bit) has reached 3000 ms and
otherwise changes nothing; `operationStartTime` and `breathingStartTime` keep their value
in both cases. -/
theorem classifying_high_long_press (s : State) (now : Nat)
    (h : s.currentState = DeviceState.STATE_CHECKING_PRESS) :
    ((updateStateMachine s now true).currentState = DeviceState.STATE_RUNNING_LONG ↔
      sub32 now s.lastButtonPressTime ≥ LONG_PRESS_MS) ∧
    (¬ sub32 now s.lastButtonPressTime ≥ LONG_PRESS_MS →
      (updateStateMachine s now true).currentState = DeviceState.STATE_CHECKING_PRESS ∧
      updateStateMachine s now true = s) ∧
    (updateStateMachine s now true).operationStartTime = s.operationStartTime ∧
    (updateStateMachine s now true).breathingStartTime = s.breathingStartTime := by
  unfold updateStateMachine
  simp only [h]
  by_cases hc : sub32 now s.lastButtonPressTime ≥ LONG_PRESS_MS
  · simp [hc]
  · simp [hc, h]

/-- C4 at a concrete input: pressed at 100 ms, the state read at 3100 ms with the button
high is `RunningLong`, and the session start time is still 100. -/
theorem classifying_high_long_press_witness :
    (updateStateMachine
      (handleButtonPress (setup false false true 0) 100 true sampleDraw) 3100
      true).currentState = DeviceState.STATE_RUNNING_LONG ∧
    (updateStateMachine
      (handleButtonPress (setup false false true 0) 100 true sampleDraw) 3100
      true).operationStartTime = 100 :=
  ⟨(classifying_high_long_press
      (handleButtonPress (setup false false true 0) 100 true sampleDraw) 3100
      (by decide)).1.mpr (by decide),
   (classifying_high_long_press
      (handleButtonPress (setup false false true 0) 100 true sampleDraw) 3100
      (by decide)).2.2.1⟩

/-- C5 fails as stated: a press accepted at 100 ms whose release is first seen by
`updateStateMachine` at 3150 ms, which is 3050 ms after the press, moves from
`ClassifyingPress` to `RunningShort`. -/
theorem short_press_needs_threshold_counterexample :
    (handleButtonPress (setup false false true 0) 100 true sampleDraw).currentState =
      DeviceState.STATE_CHECKING_PRESS ∧
    (updateStateMachine (handleButtonPress (setup false false true 0) 100 true sampleDraw)
      3150 false).currentState = DeviceState.STATE_RUNNING_SHORT ∧
    ¬ sub32 3150
        (handleButtonPress (setup false false true 0) 100 true sampleDraw).lastButtonPressTime
      < LONG_PRESS_MS := by
  decide

/-- C5 as amended: in `ClassifyingPress`, `updateStateMachine` moves to `RunningShort`
exactly when the button reads low, whatever time has passed since the press; no field
other than `currentState` and the log changes. -/
theorem classifying_low_runs_short (s : State) (now : Nat) (button : Bool)
    (h : s.currentState = DeviceState.STATE_CHECKING_PRESS) :
    ((updateStateMachine s now button).currentState = DeviceState.STATE_RUNNING_SHORT ↔
      button = false) ∧
    (button = false →
      updateStateMachine s now button =
        { s with
          currentState := DeviceState.STATE_RUNNING_SHORT
          log := s.log ++ [Event.setCurrentState DeviceState.STATE_RUNNING_SHORT] }) := by
  unfold updateStateMachine
  simp only [h]
  cases button
  · simp
  · by_cases hc : sub32 now s.lastButtonPressTime ≥ LONG_PRESS_MS
    · simp [hc]
    · simp [hc, h]

/-- C5 as amended, at a concrete input: pressed at 100 ms and read low at 200 ms. -/
theorem classifying_low_runs_short_witness :
    (updateStateMachine (handleButtonPress (setup false false true 0) 100 true sampleDraw)
      200 false).currentState = DeviceState.STATE_RUNNING_SHORT :=
  (classifying_low_runs_short
    (handleButtonPress (setup false false true 0) 100 true sampleDraw) 200 false
    (by decide)).1.mpr rfl

/-- One call of `updateStateMachine` keeps two agreeing states in agreement. -/
theorem updateStateMachine_sessionAgree (a b : State) (now : Nat) (button : Bool)
    (h : sessionAgree a b) :
    sessionAgree (updateStateMachine a now button) (updateStateMachine b now button) := by
  obtain ⟨hc, ho, hb, h1, h2, h3, hp⟩ := h
  unfold sessionAgree updateStateMachine
  rw [← hc]
  cases hs : a.currentState with
  | STATE_IDLE => simp [hs, ← hc, ho, hb, h1, h2, h3]
  | STATE_CHECKING_PRESS =>
    have hp' := hp hs
    cases button
    · simp [hs, ← hc, ho, hb, h1, h2, h3]
    · simp only [if_true, ← hp']
      split_ifs <;> simp [hs, ← hc, ho, hb, h1, h2, h3, hp']
  | STATE_RUNNING_SHORT =>
    simp only [← ho]
    split_ifs <;> simp [hs, ← hc, ho, hb, h1, h2, h3, endSession_fields]
  | STATE_RUNNING_LONG =>
    cases button <;> simp [hs, ← hc, ho, hb, h1, h2, h3, endSession_fields]

/-- Any number of `updateStateMachine` calls keeps two agreeing states in agreement. -/
theorem updateStateMachineRun_sessionAgree (calls : List (Nat × Bool)) (a b : State)
    (h : sessionAgree a b) :
    sessionAgree (updateStateMachineRun a calls) (updateStateMachineRun b calls) := by
  induction calls generalizing a b with
  | nil => simpa [updateStateMachineRun] using h
  | cons c rest ih =>
    obtain ⟨now, button⟩ := c
    simp only [updateStateMachineRun]
    exact ih _ _ (updateStateMachine_sessionAgree a b now button h)

/-- C6 fails as stated: in the running short session `shortSession` (pressed at 100 ms,
released at 200 ms, play mode) a new press accepted at 1000 ms overwrites
`lastButtonPressTime`. -/
theorem reentrant_press_timestamp_counterexample :
    shortSession.isOtaMode = false ∧
    shortSession.currentState = DeviceState.STATE_RUNNING_SHORT ∧
    shortSession.lastButtonPressTime = 100 ∧
    (handleButtonPress shortSession 1000 true sampleDraw).lastButtonPressTime = 1000 := by
  decide

/-- C6 as amended: in play mode, with a session active, `handleButtonPress` leaves the
session state, `operationStartTime`, `breathingStartTime` and `breathingActive` unchanged
for every sample and time; `lastButtonPressTime` is unchanged unless a rising edge is
accepted; and when the session is in `RunningShort` or `RunningLong`, or no rising edge is
accepted, every later run of `updateStateMachine` calls goes through the same session
states, start time, `breathingActive` values and light levels as without the call. -/
theorem reentrant_press_ignored (s : State) (now : Nat) (level : Bool) (rnd : BleDraw)
    (hmode : s.isOtaMode = false) (hactive : s.currentState ≠ DeviceState.STATE_IDLE) :
    (handleButtonPress s now level rnd).currentState = s.currentState ∧
    (handleButtonPress s now level rnd).operationStartTime = s.operationStartTime ∧
    (handleButtonPress s now level rnd).breathingStartTime = s.breathingStartTime ∧
    (handleButtonPress s now level rnd).breathingActive = s.breathingActive ∧
    (¬ (sub32 now s.lastButtonCheck ≥ BUTTON_DEBOUNCE_MS ∧ level = true ∧
          s.lastButtonState = false) →
      (handleButtonPress s now level rnd).lastButtonPressTime = s.lastButtonPressTime) ∧
    ((s.currentState ≠ DeviceState.STATE_CHECKING_PRESS ∨
        ¬ (sub32 now s.lastButtonCheck ≥ BUTTON_DEBOUNCE_MS ∧ level = true ∧
          s.lastButtonState = false)) →
      ∀ calls : List (Nat × Bool),
        sessionAgree (updateStateMachineRun (handleButtonPress s now level rnd) calls)
          (updateStateMachineRun s calls)) := by
  have key :
      (handleButtonPress s now level rnd).currentState = s.currentState ∧
      (handleButtonPress s now level rnd).operationStartTime = s.operationStartTime ∧
      (handleButtonPress s now level rnd).breathingStartTime = s.breathingStartTime ∧
      (handleButtonPress s now level rnd).breathingActive = s.breathingActive ∧
      (handleButtonPress s now level rnd).led1 = s.led1 ∧
      (handleButtonPress s now level rnd).led2 = s.led2 ∧
      (handleButtonPress s now level rnd).led3 = s.led3 ∧
      (¬ (sub32 now s.lastButtonCheck ≥ BUTTON_DEBOUNCE_MS ∧ level = true ∧
            s.lastButtonState = false) →
        (handleButtonPress s now level rnd).lastButtonPressTime = s.lastButtonPressTime) := by
    unfold handleButtonPress
    by_cases hd : sub32 now s.lastButtonCheck ≥ BUTTON_DEBOUNCE_MS
    · cases level <;> cases h1 : s.lastButtonState <;> cases h3 : s.otaExitInProgress <;>
        simp [hd, hmode, hactive, h1, h3, risingEdge_fields]
    · simp [hd]
  obtain ⟨kc, ko, kbs, kb, k1, k2, k3, kp⟩ := key
  refine ⟨kc, ko, kbs, kb, kp, ?_⟩
  intro hcond calls
  apply updateStateMachineRun_sessionAgree
  refine ⟨kc, ko, kb, k1, k2, k3, ?_⟩
  intro hcp
  rcases hcond with hne | hno
  · exact absurd (kc ▸ hcp) hne
  · exact kp hno

/-- C6 as amended, at a concrete input: the new press accepted at 1000 ms in
`shortSession` leaves the session state and start time alone, and the session still ends
at 10100 ms. -/
theorem reentrant_press_ignored_witness :
    (handleButtonPress shortSession 1000 true sampleDraw).currentState =
      DeviceState.STATE_RUNNING_SHORT ∧
    (handleButtonPress shortSession 1000 true sampleDraw).operationStartTime = 100 ∧
    (updateStateMachineRun (handleButtonPress shortSession 1000 true sampleDraw)
      [(5000, true), (10100, true)]).currentState = DeviceState.STATE_IDLE :=
  ⟨(reentrant_press_ignored shortSession 1000 true sampleDraw (by decide) (by decide)).1,
   (reentrant_press_ignored shortSession 1000 true sampleDraw (by decide) (by decide)).2.1,
   ((reentrant_press_ignored shortSession 1000 true sampleDraw (by decide)
      (by decide)).2.2.2.2.2 (Or.inl (by decide)) [(5000, true), (10100, true)]).1.trans
      (by decide)⟩

/-! ## Debounce -/

/-- Inside the debounce window `handleButtonPress` returns the state it was given. -/
theorem handleButtonPress_inside_window (s : State) (now : Nat) (level : Bool) (rnd : BleDraw)
    (h : sub32 now s.lastButtonCheck < BUTTON_DEBOUNCE_MS) :
    handleButtonPress s now level rnd = s := by
  unfold handleButtonPress
  have h' : ¬ sub32 now s.lastButtonCheck ≥ BUTTON_DEBOUNCE_MS := by omega
  simp [h']

/-- Once the debounce window has elapsed the sample is accepted: it becomes the last
accepted level and `now` the last accepted sample time. -/
theorem handleButtonPress_accepts (s : State) (now : Nat) (level : Bool) (rnd : BleDraw)
    (h : sub32 now s.lastButtonCheck ≥ BUTTON_DEBOUNCE_MS) :
    (handleButtonPress s now level rnd).lastButtonCheck = now ∧
    (handleButtonPress s now level rnd).lastButtonState = level := by
  unfold handleButtonPress
  simp [h]

/-- Every level change in a run of calls at times from `lastButtonCheck` on comes at
least one debounce window after `lastButtonCheck`. -/
theorem levelChangeTimes_after_check (calls : List (Nat × Bool × BleDraw)) :
    ∀ s : State,
      (∀ c ∈ calls, s.lastButtonCheck ≤ c.1 ∧ c.1 < 4294967296) →
      (calls.map Prod.fst).Pairwise (fun a b => a ≤ b) →
      ∀ x ∈ levelChangeTimes s calls, s.lastButtonCheck + BUTTON_DEBOUNCE_MS ≤ x := by
  induction calls with
  | nil => intro s _ _ x hx; simp [levelChangeTimes] at hx
  | cons c rest ih =>
    obtain ⟨now, level, rnd⟩ := c
    intro s hr hm x hx
    have hnow := hr (now, level, rnd) (List.mem_cons_self _ _)
    simp only [List.map_cons, List.pairwise_cons] at hm
    by_cases hd : sub32 now s.lastButtonCheck ≥ BUTTON_DEBOUNCE_MS
    · obtain ⟨hc, _⟩ := handleButtonPress_accepts s now level rnd hd
      have hge : s.lastButtonCheck + BUTTON_DEBOUNCE_MS ≤ now := by
        have h1 := hnow.1
        have h2 := hnow.2
        unfold sub32 at hd
        simp only [BUTTON_DEBOUNCE_MS] at hd ⊢
        omega
      have hrest : ∀ y ∈ levelChangeTimes (handleButtonPress s now level rnd) rest,
          now + BUTTON_DEBOUNCE_MS ≤ y := by
        intro y hy
        have := ih (handleButtonPress s now level rnd) (by
          intro c hcm
          rw [hc]
          exact ⟨hm.1 c.1 (List.mem_map_of_mem _ hcm), (hr c (List.mem_cons_of_mem _ hcm)).2⟩)
          hm.2 y hy
        rw [hc] at this
        exact this
      simp only [levelChangeTimes] at hx
      split_ifs at hx
      · rcases List.mem_cons.mp hx with rfl | hx
        · exact hge
        · have := hrest x hx
          omega
      · have := hrest x hx
        omega
    · have hlt : sub32 now s.lastButtonCheck < BUTTON_DEBOUNCE_MS := by omega
      have hs := handleButtonPress_inside_window s now level rnd hlt
      simp only [levelChangeTimes, hs, ne_eq, not_true_eq_false, if_false] at hx
      exact ih s (fun c hcm => hr c (List.mem_cons_of_mem _ hcm)) hm.2 x hx

/-- C7: over any sequence of `handleButtonPress` calls at non-decreasing times (each a
32-bit `millis()` value) with arbitrary samples, any two calls that change the accepted
level `lastButtonState` are at least 50 ms apart; and a call made less than 50 ms after
the last accepted sample returns the state unchanged. -/
theorem debounce_spacing (s : State) (calls : List (Nat × Bool × BleDraw))
    (hmono : (calls.map Prod.fst).Pairwise (fun a b => a ≤ b))
    (hrange : ∀ c ∈ calls, c.1 < 4294967296) :
    (levelChangeTimes s calls).Pairwise (fun a b => a + BUTTON_DEBOUNCE_MS ≤ b) ∧
    (∀ (now : Nat) (level : Bool) (rnd : BleDraw),
      sub32 now s.lastButtonCheck < BUTTON_DEBOUNCE_MS →
      handleButtonPress s now level rnd = s) := by
  refine ⟨?_, fun now level rnd h => handleButtonPress_inside_window s now level rnd h⟩
  induction calls generalizing s with
  | nil => simp [levelChangeTimes]
  | cons c rest ih =>
    obtain ⟨now, level, rnd⟩ := c
    simp only [List.map_cons, List.pairwise_cons] at hmono
    have hr' : ∀ c ∈ rest, c.1 < 4294967296 := fun c hcm => hrange c (List.mem_cons_of_mem _ hcm)
    by_cases hd : sub32 now s.lastButtonCheck ≥ BUTTON_DEBOUNCE_MS
    · obtain ⟨hc, _⟩ := handleButtonPress_accepts s now level rnd hd
      have hrest : ∀ y ∈ levelChangeTimes (handleButtonPress s now level rnd) rest,
          now + BUTTON_DEBOUNCE_MS ≤ y := by
        intro y hy
        have := levelChangeTimes_after_check rest (handleButtonPress s now level rnd) (by
          intro c hcm
          rw [hc]
          exact ⟨hmono.1 c.1 (List.mem_map_of_mem _ hcm), hr' c hcm⟩) hmono.2 y hy
        rw [hc] at this
        exact this
      simp only [levelChangeTimes]
      split_ifs
      · exact List.pairwise_cons.mpr ⟨hrest, ih _ hmono.2 hr'⟩
      · exact ih _ hmono.2 hr'
    · have hlt : sub32 now s.lastButtonCheck < BUTTON_DEBOUNCE_MS := by omega
      have hs := handleButtonPress_inside_window s now level rnd hlt
      simp only [levelChangeTimes, hs, ne_eq, not_true_eq_false, if_false]
      exact ih s hmono.2 hr'

/-- C7 at a concrete input: samples high at 100, low at 120 (inside the window, dropped),
low at 160, high at 170 (dropped) and high at 230 give level changes at 100, 160 and 230. -/
theorem debounce_spacing_witness :
    levelChangeTimes (setup false false true 0)
        [(100, true, sampleDraw), (120, false, sampleDraw), (160, false, sampleDraw),
         (170, true, sampleDraw), (230, true, sampleDraw)] = [100, 160, 230] ∧
    (levelChangeTimes (setup false false true 0)
        [(100, true, sampleDraw), (120, false, sampleDraw), (160, false, sampleDraw),
         (170, true, sampleDraw), (230, true, sampleDraw)]).Pairwise
      (fun a b => a + BUTTON_DEBOUNCE_MS ≤ b) ∧
    handleButtonPress (setup false false true 0) 49 true sampleDraw =
      setup false false true 0 :=
  ⟨by decide,
   (debounce_spacing (setup false false true 0)
      [(100, true, sampleDraw), (120, false, sampleDraw), (160, false, sampleDraw),
       (170, true, sampleDraw), (230, true, sampleDraw)] (by decide) (by decide)).1,
   (debounce_spacing (setup false false true 0)
      [(100, true, sampleDraw), (120, false, sampleDraw), (160, false, sampleDraw),
       (170, true, sampleDraw), (230, true, sampleDraw)] (by decide) (by decide)).2
      49 true sampleDraw (by decide)⟩

/-! ## Single-precision rounding -/

/-- Rounding to the nearest integer moves a value by at most 1/2. -/
theorem roundHalfEven_near (q : ℚ) :
    q - 1 / 2 ≤ (roundHalfEven q : ℚ) ∧ (roundHalfEven q : ℚ) ≤ q + 1 / 2 := by
  have h0 := Int.floor_le q
  have h1 := Int.lt_floor_add_one q
  unfold roundHalfEven
  split_ifs <;> push_cast <;> constructor <;> linarith

/-- An integer is its own rounding. -/
theorem roundHalfEven_intCast (n : Int) : roundHalfEven (n : ℚ) = n := by
  unfold roundHalfEven
  simp

/-- The integer within less than 1/2 of `q` is the rounding of `q`. -/
theorem roundHalfEven_eval (q : ℚ) (n : Int) (h1 : (n : ℚ) - 1 / 2 < q)
    (h2 : q < (n : ℚ) + 1 / 2) : roundHalfEven q = n := by
  obtain ⟨a, b⟩ := roundHalfEven_near q
  have h3 : ((roundHalfEven q : Int) : ℚ) < (n : ℚ) + 1 := by linarith
  have h4 : (n : ℚ) - 1 < ((roundHalfEven q : Int) : ℚ) := by linarith
  have h5 : roundHalfEven q < n + 1 := by exact_mod_cast h3
  have h6 : n - 1 < roundHalfEven q := by exact_mod_cast h4
  omega

/-- Rounding to the nearest integer is monotone. -/
theorem roundHalfEven_mono (x y : ℚ) (h : x ≤ y) : roundHalfEven x ≤ roundHalfEven y := by
  have hf : ⌊x⌋ ≤ ⌊y⌋ := Int.floor_mono h
  have hx0 := Int.floor_le x
  have hx1 := Int.lt_floor_add_one x
  have hy0 := Int.floor_le y
  have hy1 := Int.lt_floor_add_one y
  rcases lt_or_eq_of_le hf with hlt | heq
  · have a : roundHalfEven x ≤ ⌊x⌋ + 1 := by
      unfold roundHalfEven
      split_ifs <;> omega
    have b : ⌊y⌋ ≤ roundHalfEven y := by
      unfold roundHalfEven
      split_ifs <;> omega
    omega
  · unfold roundHalfEven
    rw [← heq]
    split_ifs <;> first | omega | (exfalso; linarith)

/-- An integer below a value is below its rounding, and an integer above is above. -/
theorem roundHalfEven_bounds (q : ℚ) (n : Int) :
    ((n : ℚ) ≤ q → n ≤ roundHalfEven q) ∧ (q ≤ (n : ℚ) → roundHalfEven q ≤ n) := by
  constructor
  · intro h
    have := roundHalfEven_mono _ _ h
    rwa [roundHalfEven_intCast] at this
  · intro h
    have := roundHalfEven_mono _ _ h
    rwa [roundHalfEven_intCast] at this

/-- The exponent is at least -126. -/
theorem f32Exponent_ge (q : ℚ) : -126 ≤ f32Exponent q := by
  unfold f32Exponent
  exact le_max_right _ _

/-- The exponent of a value in the binade of `e`. -/
theorem f32Exponent_eq (q : ℚ) (e : Int) (he : -126 ≤ e) (h1 : (2 : ℚ) ^ e ≤ |q|)
    (h2 : |q| < (2 : ℚ) ^ (e + 1)) : f32Exponent q = e := by
  have hpos : (0 : ℚ) < |q| := lt_of_lt_of_le (by positivity) h1
  have a : e ≤ Int.log 2 |q| := by
    rw [← Int.zpow_le_iff_le_log (by norm_num) hpos]
    exact_mod_cast h1
  have b : Int.log 2 |q| < e + 1 := by
    rw [← Int.lt_zpow_iff_log_lt (by norm_num) hpos]
    exact_mod_cast h2
  unfold f32Exponent
  omega

/-- The exponent of a value below `2 ^ (k + 1)` is at most `k`. -/
theorem f32Exponent_le (q : ℚ) (k : Int) (hk : -126 ≤ k) (hq : q ≠ 0)
    (h : |q| < (2 : ℚ) ^ (k + 1)) : f32Exponent q ≤ k := by
  have hpos : (0 : ℚ) < |q| := abs_pos.mpr hq
  have b : Int.log 2 |q| < k + 1 := by
    rw [← Int.lt_zpow_iff_log_lt (by norm_num) hpos]
    exact_mod_cast h
  unfold f32Exponent
  omega

/-- A value other than zero lies below the top of its binade, and a value of the normal
range lies in its binade. -/
theorem f32Exponent_spec (q : ℚ) (hq : q ≠ 0) :
    |q| < (2 : ℚ) ^ (f32Exponent q + 1) ∧
    (-126 < f32Exponent q → (2 : ℚ) ^ f32Exponent q ≤ |q|) := by
  have hpos : (0 : ℚ) < |q| := abs_pos.mpr hq
  have a : ((2 : ℕ) : ℚ) ^ Int.log 2 |q| ≤ |q| := Int.zpow_log_le_self (by norm_num) hpos
  have b : |q| < ((2 : ℕ) : ℚ) ^ (Int.log 2 |q| + 1) :=
    Int.lt_zpow_succ_log_self (by norm_num) _
  have hle : Int.log 2 |q| ≤ f32Exponent q := le_max_left _ _
  constructor
  · refine lt_of_lt_of_le b ?_
    have : ((2 : ℕ) : ℚ) = 2 := by norm_num
    rw [this]
    exact zpow_le_zpow_right₀ (by norm_num) (by omega)
  · intro h
    have e : f32Exponent q = Int.log 2 |q| := by
      unfold f32Exponent at h ⊢
      omega
    rw [e]
    exact_mod_cast a

/-- The exponent is monotone on positive values. -/
theorem f32Exponent_mono (x y : ℚ) (hx : 0 < x) (h : x ≤ y) :
    f32Exponent x ≤ f32Exponent y := by
  have hy : 0 < y := lt_of_lt_of_le hx h
  unfold f32Exponent
  rw [abs_of_pos hx, abs_of_pos hy]
  exact max_le_max (Int.log_mono_right hx h) le_rfl

/-- Zero is a `float`. -/
theorem roundF32_zero : roundF32 0 = 0 := by
  unfold roundF32
  have : roundHalfEven (0 : ℚ) = 0 := by
    have := roundHalfEven_intCast 0
    simpa using this
  simp [this]

/-- The rounding of a value of known binade. -/
theorem roundF32_eval (q : ℚ) (e n : Int) (he : -126 ≤ e) (h1 : (2 : ℚ) ^ e ≤ |q|)
    (h2 : |q| < (2 : ℚ) ^ (e + 1))
    (h3 : (n : ℚ) - 1 / 2 < q / 2 ^ (e - 23)) (h4 : q / 2 ^ (e - 23) < (n : ℚ) + 1 / 2) :
    roundF32 q = (n : ℚ) * 2 ^ (e - 23) := by
  unfold roundF32
  rw [f32Exponent_eq q e he h1 h2, roundHalfEven_eval _ n h3 h4]

/-- A multiple of the unit of its binade is a `float`. -/
theorem roundF32_exact (q : ℚ) (e n : Int) (he : -126 ≤ e) (h1 : (2 : ℚ) ^ e ≤ |q|)
    (h2 : |q| < (2 : ℚ) ^ (e + 1)) (h3 : q = (n : ℚ) * 2 ^ (e - 23)) : roundF32 q = q := by
  have hu : (0 : ℚ) < 2 ^ (e - 23) := by positivity
  have hq : q / 2 ^ (e - 23) = (n : ℚ) := by
    rw [h3]
    field_simp
  rw [roundF32_eval q e n he h1 h2 (by rw [hq]; linarith) (by rw [hq]; linarith)]
  exact h3.symm

/-- The rounding of a value that is not negative is not negative. -/
theorem roundF32_nonneg (q : ℚ) (h : 0 ≤ q) : 0 ≤ roundF32 q := by
  unfold roundF32
  have hu : (0 : ℚ) < 2 ^ (f32Exponent q - 23) := by positivity
  have h0 : (0 : ℚ) ≤ q / 2 ^ (f32Exponent q - 23) := div_nonneg h hu.le
  have h1 : (0 : Int) ≤ roundHalfEven (q / 2 ^ (f32Exponent q - 23)) :=
    (roundHalfEven_bounds _ 0).1 (by simpa using h0)
  have h2 : (0 : ℚ) ≤ (roundHalfEven (q / 2 ^ (f32Exponent q - 23)) : ℚ) := by
    exact_mod_cast h1
  exact mul_nonneg h2 hu.le

/-- The rounding of a positive value stays within the closed binade of the value. -/
theorem roundF32_binade (q : ℚ) (hq : 0 < q) :
    roundF32 q ≤ 2 ^ (f32Exponent q + 1) ∧
    (-126 < f32Exponent q → (2 : ℚ) ^ f32Exponent q ≤ roundF32 q) := by
  obtain ⟨s1, s2⟩ := f32Exponent_spec q (ne_of_gt hq)
  rw [abs_of_pos hq] at s1 s2
  have hu : (0 : ℚ) < 2 ^ (f32Exponent q - 23) := by positivity
  have e1 : (2 : ℚ) ^ (f32Exponent q + 1) = 16777216 * 2 ^ (f32Exponent q - 23) := by
    have : f32Exponent q + 1 = 24 + (f32Exponent q - 23) := by ring
    rw [this, zpow_add₀ (by norm_num)]
    norm_num
  have e2 : (2 : ℚ) ^ f32Exponent q = 8388608 * 2 ^ (f32Exponent q - 23) := by
    have : f32Exponent q = 23 + (f32Exponent q - 23) := by ring
    nth_rewrite 1 [this]
    rw [zpow_add₀ (by norm_num)]
    norm_num
  unfold roundF32
  constructor
  · rw [e1]
    have h : q / 2 ^ (f32Exponent q - 23) ≤ ((16777216 : Int) : ℚ) := by
      rw [div_le_iff₀ hu]
      push_cast
      linarith
    have h2 := (roundHalfEven_bounds _ 16777216).2 h
    have h3 : (roundHalfEven (q / 2 ^ (f32Exponent q - 23)) : ℚ) ≤ 16777216 := by
      exact_mod_cast h2
    exact mul_le_mul_of_nonneg_right h3 hu.le
  · intro hn
    rw [e2]
    have h : ((8388608 : Int) : ℚ) ≤ q / 2 ^ (f32Exponent q - 23) := by
      rw [le_div_iff₀ hu]
      push_cast
      have := s2 hn
      linarith
    have h2 := (roundHalfEven_bounds _ 8388608).1 h
    have h3 : (8388608 : ℚ) ≤ (roundHalfEven (q / 2 ^ (f32Exponent q - 23)) : ℚ) := by
      exact_mod_cast h2
    exact mul_le_mul_of_nonneg_right h3 hu.le

/-- Single-precision rounding is monotone on the values that are not negative. -/
theorem roundF32_mono (x y : ℚ) (hx : 0 ≤ x) (h : x ≤ y) : roundF32 x ≤ roundF32 y := by
  rcases eq_or_lt_of_le hx with h0 | hpos
  · rw [← h0, roundF32_zero]
    exact roundF32_nonneg y (le_trans hx h)
  · have hy : 0 < y := lt_of_lt_of_le hpos h
    have he := f32Exponent_mono x y hpos h
    rcases eq_or_lt_of_le he with heq | hlt
    · unfold roundF32
      rw [heq]
      have hu : (0 : ℚ) < 2 ^ (f32Exponent y - 23) := by positivity
      have hdiv : x / 2 ^ (f32Exponent y - 23) ≤ y / 2 ^ (f32Exponent y - 23) :=
        div_le_div_of_nonneg_right h hu.le
      have := roundHalfEven_mono _ _ hdiv
      have hc : (roundHalfEven (x / 2 ^ (f32Exponent y - 23)) : ℚ) ≤
          (roundHalfEven (y / 2 ^ (f32Exponent y - 23)) : ℚ) := by exact_mod_cast this
      exact mul_le_mul_of_nonneg_right hc hu.le
    · have a := (roundF32_binade x hpos).1
      have b := (roundF32_binade y hy).2 (by have := f32Exponent_ge x; omega)
      have c : (2 : ℚ) ^ (f32Exponent x + 1) ≤ 2 ^ f32Exponent y :=
        zpow_le_zpow_right₀ (by norm_num) (by omega)
      linarith

/-- The rounding error of a value below `2 ^ (k + 1)` is at most `2 ^ (k - 24)`, half a
unit of the binade of `k`. -/
theorem roundF32_error (q : ℚ) (k : Int) (hk : -126 ≤ k) (h : |q| < (2 : ℚ) ^ (k + 1)) :
    |roundF32 q - q| ≤ 2 ^ (k - 24) := by
  by_cases hq : q = 0
  · rw [hq, roundF32_zero]
    simp only [sub_zero, abs_zero]
    positivity
  · have he := f32Exponent_le q k hk hq h
    have hu : (0 : ℚ) < 2 ^ (f32Exponent q - 23) := by positivity
    obtain ⟨n1, n2⟩ := roundHalfEven_near (q / 2 ^ (f32Exponent q - 23))
    have hq2 : q = q / 2 ^ (f32Exponent q - 23) * 2 ^ (f32Exponent q - 23) := by
      field_simp
    have hle : (2 : ℚ) ^ (f32Exponent q - 23) ≤ 2 ^ (k - 23) :=
      zpow_le_zpow_right₀ (by norm_num) (by omega)
    have hhalf : (2 : ℚ) ^ (k - 24) = 2 ^ (k - 23) / 2 := by
      have : k - 23 = (k - 24) + 1 := by ring
      rw [this, zpow_add₀ (by norm_num)]
      norm_num
    have hd : roundF32 q - q =
        ((roundHalfEven (q / 2 ^ (f32Exponent q - 23)) : ℚ) -
          q / 2 ^ (f32Exponent q - 23)) * 2 ^ (f32Exponent q - 23) := by
      unfold roundF32
      field_simp
    rw [hd, abs_mul, abs_of_pos hu, hhalf]
    have habs : |(roundHalfEven (q / 2 ^ (f32Exponent q - 23)) : ℚ) -
        q / 2 ^ (f32Exponent q - 23)| ≤ 1 / 2 := by
      rw [abs_le]
      constructor <;> linarith
    calc |(roundHalfEven (q / 2 ^ (f32Exponent q - 23)) : ℚ) -
            q / 2 ^ (f32Exponent q - 23)| * 2 ^ (f32Exponent q - 23)
        ≤ 1 / 2 * 2 ^ (f32Exponent q - 23) := mul_le_mul_of_nonneg_right habs hu.le
      _ ≤ 1 / 2 * 2 ^ (k - 23) := by linarith
      _ = 2 ^ (k - 23) / 2 := by ring

/-- A natural number below 2^24 is a `float`. -/
theorem roundF32_natCast (n : Nat) (h : n < 16777216) : roundF32 (n : ℚ) = n := by
  by_cases h0 : n = 0
  · rw [h0]
    simpa using roundF32_zero
  · have hq : ((n : ℚ)) ≠ 0 := by exact_mod_cast h0
    have hlt : |(n : ℚ)| < (2 : ℚ) ^ ((23 : Int) + 1) := by
      rw [abs_of_nonneg (by positivity)]
      norm_num
      exact_mod_cast h
    have he := f32Exponent_le (n : ℚ) 23 (by norm_num) hq hlt
    obtain ⟨m, hm⟩ := Int.eq_ofNat_of_zero_le (by omega : 0 ≤ 23 - f32Exponent (n : ℚ))
    have hexp : f32Exponent (n : ℚ) - 23 = -(m : Int) := by omega
    unfold roundF32
    rw [hexp, zpow_neg, zpow_natCast]
    have hdiv : (n : ℚ) / ((2 : ℚ) ^ m)⁻¹ = (((n * 2 ^ m : Nat) : Int) : ℚ) := by
      rw [div_inv_eq_mul]
      push_cast
      rfl
    rw [hdiv, roundHalfEven_intCast]
    push_cast
    field_simp

/-- The rounding of a value of known binade, from the rounding of its significand. -/
theorem roundF32_of_exponent (q : ℚ) (e n : Int) (he : -126 ≤ e) (h1 : (2 : ℚ) ^ e ≤ |q|)
    (h2 : |q| < (2 : ℚ) ^ (e + 1)) (h3 : roundHalfEven (q / 2 ^ (e - 23)) = n) :
    roundF32 q = (n : ℚ) * 2 ^ (e - 23) := by
  unfold roundF32
  rw [f32Exponent_eq q e he h1 h2, h3]

/-! ## Brightness -/

/-- Bounds of the published brightness for a sine value between -1 and 1. -/
theorem truncToInt_scaled_sine (q : ℚ) (hlo : -1 ≤ q) (hhi : q ≤ 1) :
    0 ≤ truncToInt (roundF32 (roundF32 (q + 1) * 50)) ∧
    truncToInt (roundF32 (roundF32 (q + 1) * 50)) ≤ 100 := by
  have e2 : roundF32 2 = 2 := by
    have := roundF32_natCast 2 (by norm_num)
    simpa using this
  have e100 : roundF32 100 = 100 := by
    have := roundF32_natCast 100 (by norm_num)
    simpa using this
  have y0 : 0 ≤ roundF32 (q + 1) := roundF32_nonneg _ (by linarith)
  have y2 : roundF32 (q + 1) ≤ 2 := by
    have := roundF32_mono (q + 1) 2 (by linarith) (by linarith)
    rwa [e2] at this
  have h0 : (0 : ℚ) ≤ roundF32 (roundF32 (q + 1) * 50) :=
    roundF32_nonneg _ (by linarith)
  have h1 : roundF32 (roundF32 (q + 1) * 50) ≤ 100 := by
    have := roundF32_mono (roundF32 (q + 1) * 50) 100 (by linarith) (by linarith)
    rwa [e100] at this
  unfold truncToInt
  rw [if_pos h0]
  refine ⟨Int.floor_nonneg.mpr h0, ?_⟩
  have h2 : ((⌊roundF32 (roundF32 (q + 1) * 50)⌋ : Int) : ℚ) ≤ 100 :=
    le_trans (Int.floor_le _) h1
  exact_mod_cast h2

/-- The value published for a sine value of one half is 75. -/
theorem published_at_half : truncToInt (roundF32 (roundF32 ((1 : ℚ) / 2 + 1) * 50)) = 75 := by
  have e1 : roundF32 ((1 : ℚ) / 2 + 1) = 3 / 2 := by
    have h : ((1 : ℚ) / 2 + 1) = 3 / 2 := by norm_num
    rw [h]
    exact roundF32_exact (3 / 2) 0 12582912 (by norm_num) (by norm_num [abs_of_pos])
      (by norm_num [abs_of_pos]) (by norm_num)
  have e2 : roundF32 ((3 : ℚ) / 2 * 50) = 75 := by
    have h : ((3 : ℚ) / 2 * 50) = ((75 : Nat) : ℚ) := by norm_num
    rw [h]
    exact roundF32_natCast 75 (by norm_num)
  rw [e1, e2]
  unfold truncToInt
  norm_num

/-- The function `handleButtonPress` does not write `currentBrightness`. -/
theorem handleButtonPress_currentBrightness (s : State) (now : Nat) (level : Bool)
    (rnd : BleDraw) :
    (handleButtonPress s now level rnd).currentBrightness = s.currentBrightness := by
  unfold handleButtonPress
  by_cases hd : sub32 now s.lastButtonCheck ≥ BUTTON_DEBOUNCE_MS
  · cases level <;> cases h1 : s.lastButtonState <;> cases h2 : s.isOtaMode <;>
      cases h3 : s.otaExitInProgress <;>
      simp [hd, h1, h2, h3, risingEdge_fields, exitOta_fields] <;>
      split_ifs <;> simp [risingEdge_fields, exitOta_fields]
  · simp [hd]

/-- The function `updateStateMachine` does not write `currentBrightness`. -/
theorem updateStateMachine_currentBrightness (s : State) (now : Nat) (button : Bool) :
    (updateStateMachine s now button).currentBrightness = s.currentBrightness := by
  unfold updateStateMachine
  split <;> (try split_ifs) <;> simp [endSession_fields]

/-- C8, the code at the failing input: neither `updateStateMachine` nor
`handleButtonPress` ever writes `currentBrightness`; in `glowingSession` (brightness 75
published) the session end at 10100 ms clears `breathingActive` and leaves the brightness
at 75, the next press at 11000 ms starts a session with brightness still 75, and the first
tick of that session drives the lights on from the left-over value. -/
theorem session_end_keeps_stale_brightness :
    (∀ (s : State) (now : Nat) (button : Bool),
      (updateStateMachine s now button).currentBrightness = s.currentBrightness) ∧
    (∀ (s : State) (now : Nat) (level : Bool) (rnd : BleDraw),
      (handleButtonPress s now level rnd).currentBrightness = s.currentBrightness) ∧
    glowingSession.currentState = DeviceState.STATE_RUNNING_SHORT ∧
    glowingSession.breathingActive = true ∧
    glowingSession.currentBrightness = 75 ∧
    (updateStateMachine glowingSession 10100 false).currentState = DeviceState.STATE_IDLE ∧
    (updateStateMachine glowingSession 10100 false).breathingActive = false ∧
    (updateStateMachine glowingSession 10100 false).currentBrightness = 75 ∧
    (handleButtonPress (updateStateMachine glowingSession 10100 false) 11000 true
      sampleDraw).breathingActive = true ∧
    (handleButtonPress (updateStateMachine glowingSession 10100 false) 11000 true
      sampleDraw).currentBrightness = 75 ∧
    (onTimer (handleButtonPress (updateStateMachine glowingSession 10100 false) 11000 true
      sampleDraw)).led1 = false := by
  have h75 := published_at_half
  have hdue : sub32 210 shortSession.lastUpdate ≥ 10 := by decide
  have hact : shortSession.breathingActive = true := by decide
  have hg : glowingSession =
      { shortSession with lastUpdate := 210, currentBrightness := 75 } := by
    unfold glowingSession handleMagicalGlow
    simp only [hdue, hact, if_true, h75]
  refine ⟨updateStateMachine_currentBrightness, handleButtonPress_currentBrightness, ?_⟩
  rw [hg]
  decide

/-- The function `handleMagicalGlow` keeps the brightness, stores 0, or publishes the
truncated scaled sine. -/
theorem handleMagicalGlow_currentBrightness (sinTurn : ℚ → ℚ) (s : State) (now : Nat) :
    (handleMagicalGlow sinTurn s now).currentBrightness = s.currentBrightness ∨
    (handleMagicalGlow sinTurn s now).currentBrightness = 0 ∨
    ∃ x : ℚ, (handleMagicalGlow sinTurn s now).currentBrightness =
      truncToInt (roundF32 (roundF32 (sinTurn x + 1) * 50)) := by
  unfold handleMagicalGlow
  by_cases hd : sub32 now s.lastUpdate ≥ 10
  · cases hb : s.breathingActive
    · right; left; simp [hd, hb]
    · right; right
      simp only [hd, hb, if_true]
      exact ⟨_, rfl⟩
  · left; simp [hd]

/-- Every step other than `handleMagicalGlow` leaves `currentBrightness` alone. -/
theorem step_currentBrightness (sinTurn : ℚ → ℚ) (s s' : State) (st : Step)
    (hst : ∀ now, st ≠ Step.handleMagicalGlow now) (h : step sinTurn s st = some s') :
    s'.currentBrightness = s.currentBrightness := by
  cases st with
  | handleButtonPress now level rnd =>
    simp only [step, Option.some.injEq] at h
    rw [← h]; exact handleButtonPress_currentBrightness s now level rnd
  | updateStateMachine now level =>
    simp only [step, Option.some.injEq] at h
    rw [← h]; exact updateStateMachine_currentBrightness s now level
  | handleMagicalGlow now => exact absurd rfl (hst now)
  | sendNextIrCode =>
    simp only [step, sendNextIrCode] at h
    split_ifs at h
    split at h
    · simp only [Option.some.injEq] at h
      rw [← h]
    · exact absurd h (by simp)
  | handleBLESpoofing now rnd =>
    simp only [step, Option.some.injEq] at h
    rw [← h]
    unfold handleBLESpoofing
    split_ifs <;> simp
  | onTimer =>
    simp only [step, Option.some.injEq] at h
    rw [← h]
    unfold onTimer
    split_ifs <;> simp [digitalWrite]
  | otaOnStart =>
    simp only [step, Option.some.injEq] at h
    rw [← h]
    unfold otaOnStart
    simp only []
    split_ifs <;> simp [digitalWrite]

/-- Every step keeps the brightness within 0..100 when the sine stays within -1..1. -/
theorem step_brightness_range (sinTurn : ℚ → ℚ)
    (hsin : ∀ x, -1 ≤ sinTurn x ∧ sinTurn x ≤ 1) (s s' : State) (st : Step)
    (h : step sinTurn s st = some s')
    (hs : 0 ≤ s.currentBrightness ∧ s.currentBrightness ≤ 100) :
    0 ≤ s'.currentBrightness ∧ s'.currentBrightness ≤ 100 := by
  by_cases hg : ∃ now, st = Step.handleMagicalGlow now
  · obtain ⟨now, rfl⟩ := hg
    simp only [step, Option.some.injEq] at h
    rw [← h]
    rcases handleMagicalGlow_currentBrightness sinTurn s now with e | e | ⟨x, e⟩
    · rw [e]; exact hs
    · rw [e]; decide
    · rw [e]; exact truncToInt_scaled_sine _ (hsin x).1 (hsin x).2
  · have hst : ∀ now, st ≠ Step.handleMagicalGlow now := fun now e => hg ⟨now, e⟩
    rw [step_currentBrightness sinTurn s s' st hst h]
    exact hs

/-- C9: for a sine with values in [-1,1], the value `handleMagicalGlow` publishes,
`(int)((s + 1) * 50)` computed in single precision, lies in 0..100; `handleMagicalGlow`
keeps the brightness, stores 0 or publishes that value; no other step writes the
brightness; hence in every state reached from `setup` by any schedule of steps the
brightness is within 0..100. -/
theorem brightness_within_range (sinTurn : ℚ → ℚ)
    (hsin : ∀ x, -1 ≤ sinTurn x ∧ sinTurn x ≤ 1) :
    (∀ q : ℚ, -1 ≤ q → q ≤ 1 →
      0 ≤ truncToInt (roundF32 (roundF32 (q + 1) * 50)) ∧
      truncToInt (roundF32 (roundF32 (q + 1) * 50)) ≤ 100) ∧
    (∀ (s : State) (now : Nat),
      (handleMagicalGlow sinTurn s now).currentBrightness = s.currentBrightness ∨
      (handleMagicalGlow sinTurn s now).currentBrightness = 0 ∨
      ∃ x : ℚ, (handleMagicalGlow sinTurn s now).currentBrightness =
        truncToInt (roundF32 (roundF32 (sinTurn x + 1) * 50))) ∧
    (∀ (s s' : State) (st : Step), (∀ now, st ≠ Step.handleMagicalGlow now) →
      step sinTurn s st = some s' → s'.currentBrightness = s.currentBrightness) ∧
    (∀ (switchLevel buttonLevel bleOk : Bool) (t0 : Nat) (steps : List Step) (s' : State),
      run sinTurn (setup switchLevel buttonLevel bleOk t0) steps = some s' →
      0 ≤ s'.currentBrightness ∧ s'.currentBrightness ≤ 100) := by
  refine ⟨truncToInt_scaled_sine,
    handleMagicalGlow_currentBrightness sinTurn, step_currentBrightness sinTurn, ?_⟩
  intro switchLevel buttonLevel bleOk t0 steps
  have hinv : ∀ (steps : List Step) (s s' : State),
      (0 ≤ s.currentBrightness ∧ s.currentBrightness ≤ 100) →
      run sinTurn s steps = some s' →
      0 ≤ s'.currentBrightness ∧ s'.currentBrightness ≤ 100 := by
    intro steps
    induction steps with
    | nil =>
      intro s s' hs h
      simp only [run, Option.some.injEq] at h
      rw [← h]; exact hs
    | cons st rest ih =>
      intro s s' hs h
      simp only [run] at h
      cases hstep : step sinTurn s st with
      | none => rw [hstep] at h; exact absurd h (by simp)
      | some s1 =>
        rw [hstep] at h
        exact ih s1 s' (step_brightness_range sinTurn hsin s s1 st hstep hs) h
  intro s' h
  exact hinv steps _ s' (by simp [setup]) h

/-- C9 at a concrete input: with the constant sine value one half, the run of a press
at 100 ms followed by `handleMagicalGlow` at 110 ms ends with a brightness in 0..100. -/
theorem brightness_within_range_witness :
    (∀ x : ℚ, -1 ≤ (fun _ : ℚ => (1 / 2 : ℚ)) x ∧ (fun _ : ℚ => (1 / 2 : ℚ)) x ≤ 1) ∧
    (0 ≤ (handleMagicalGlow (fun _ => 1 / 2)
        (handleButtonPress (setup false false true 0) 100 true sampleDraw)
        110).currentBrightness ∧
     (handleMagicalGlow (fun _ => 1 / 2)
        (handleButtonPress (setup false false true 0) 100 true sampleDraw)
        110).currentBrightness ≤ 100) :=
  ⟨fun _ => by norm_num,
   (brightness_within_range (fun _ => 1 / 2) (fun _ => by norm_num)).2.2.2
      false false true 0
      [Step.handleButtonPress 100 true sampleDraw, Step.handleMagicalGlow 110] _ rfl⟩

/-! ## Emission cursor -/

/-- The table has 21 entries. -/
theorem numCommands_eq : numCommands = 21 := rfl

/-- The IR transmissions of a concatenated log. -/
theorem irSent_append (a b : List Event) : irSent (a ++ b) = irSent a ++ irSent b := by
  induction a with
  | nil => rfl
  | cons e rest ih => cases e <;> simp [irSent, ih]

/-- The function `cycleBLEDevice` sends no IR pattern. -/
theorem cycleBLEDevice_irSent (s : State) (rnd : BleDraw) :
    irSent (cycleBLEDevice s rnd).log = irSent s.log := by
  unfold cycleBLEDevice
  split <;> simp [irSent_append, irSent]

/-- The session-start block sends no IR pattern. -/
theorem startOperation_irSent (s : State) (now : Nat) (rnd : BleDraw) :
    irSent (handleButtonPress_startOperation s now rnd).log = irSent s.log := by
  unfold handleButtonPress_startOperation
  simp only []
  split <;> simp [cycleBLEDevice_irSent, irSent_append, irSent]

/-- The rising-edge block sends no IR pattern. -/
theorem risingEdge_irSent (s : State) (now : Nat) (rnd : BleDraw) :
    irSent (handleButtonPress_risingEdge s now rnd).log = irSent s.log := by
  unfold handleButtonPress_risingEdge
  simp only []
  split_ifs <;> simp [startOperation_irSent]

/-- The OTA-exit block sends no IR pattern. -/
theorem exitOta_irSent (s : State) (now : Nat) :
    irSent (handleButtonPress_exitOta s now).log = irSent s.log := by
  unfold handleButtonPress_exitOta
  simp only []
  split <;> simp [digitalWrite, irSent_append, irSent]

/-- The session-end block sends no IR pattern. -/
theorem endSession_irSent (s : State) : irSent (endSession s).log = irSent s.log := by
  unfold endSession
  simp only []
  split <;> simp [digitalWrite, irSent_append, irSent]

/-- The function `handleButtonPress` neither moves the emission cursor nor sends a pattern. -/
theorem handleButtonPress_cursor (s : State) (now : Nat) (level : Bool) (rnd : BleDraw) :
    (handleButtonPress s now level rnd).currentCommandIndex = s.currentCommandIndex ∧
    irSent (handleButtonPress s now level rnd).log = irSent s.log := by
  unfold handleButtonPress
  by_cases hd : sub32 now s.lastButtonCheck ≥ BUTTON_DEBOUNCE_MS
  · cases level <;> cases h1 : s.lastButtonState <;> cases h2 : s.isOtaMode <;>
      cases h3 : s.otaExitInProgress <;>
      simp [hd, h1, h2, h3, risingEdge_fields, exitOta_fields, risingEdge_irSent] <;>
      split_ifs <;> simp [risingEdge_fields, exitOta_fields, risingEdge_irSent, exitOta_irSent]
  · simp [hd]

/-- Every step other than `sendNextIrCode` returns a state, keeps the emission cursor and
sends no pattern. -/
theorem step_keeps_cursor (sinTurn : ℚ → ℚ) (s : State) (st : Step)
    (hst : st ≠ Step.sendNextIrCode) :
    ∃ s1, step sinTurn s st = some s1 ∧ s1.currentCommandIndex = s.currentCommandIndex ∧
      irSent s1.log = irSent s.log := by
  cases st with
  | handleButtonPress now level rnd => exact ⟨_, rfl, handleButtonPress_cursor s now level rnd⟩
  | updateStateMachine now level =>
    refine ⟨_, rfl, ?_⟩
    unfold updateStateMachine
    split <;> (try split_ifs) <;>
      simp [endSession_fields, endSession_irSent, irSent_append, irSent]
  | handleMagicalGlow now =>
    refine ⟨_, rfl, ?_⟩
    unfold handleMagicalGlow
    by_cases hd : sub32 now s.lastUpdate ≥ 10 <;> cases hb : s.breathingActive <;>
      simp [hd, hb]
  | sendNextIrCode => exact absurd rfl hst
  | handleBLESpoofing now rnd =>
    refine ⟨_, rfl, ?_⟩
    unfold handleBLESpoofing
    split_ifs <;> simp [cycleBLEDevice_irSent]
  | onTimer =>
    refine ⟨_, rfl, ?_⟩
    unfold onTimer
    split_ifs <;> simp [digitalWrite, irSent_append, irSent]
  | otaOnStart =>
    refine ⟨_, rfl, ?_⟩
    unfold otaOnStart
    simp only []
    split_ifs <;> simp [digitalWrite, irSent_append, irSent]

/-- With the cursor at a table index `i`, `sendNextIrCode` returns a state, sends the
pattern at `i` and moves the cursor to `(i + 1) % 21`. -/
theorem sendNextIrCode_in_range (s : State) (i : Nat) (hi : i < numCommands)
    (hs : s.currentCommandIndex = (i : Int)) :
    ∃ s1 cmd, sendNextIrCode s = some s1 ∧ irCommands[i]? = some cmd ∧
      s1.currentCommandIndex = (((i + 1) % numCommands : Nat) : Int) ∧
      irSent s1.log = irSent s.log ++ [(i, cmd)] := by
  have hlen : i < irCommands.length := hi
  have hget : irCommands[i]? = some irCommands[i] := List.getElem?_eq_getElem hlen
  have h0 : (0 : Int) ≤ s.currentCommandIndex := by rw [hs]; exact Int.ofNat_nonneg i
  have ht : s.currentCommandIndex.toNat = i := by rw [hs]; exact Int.toNat_ofNat i
  have hsend : sendNextIrCode s = some
      { s with
        log := s.log ++ [Event.irSend i irCommands[i]]
        currentCommandIndex := Int.tmod (s.currentCommandIndex + 1) (numCommands : Int) } := by
    unfold sendNextIrCode
    simp only [h0, if_true, ht, hget]
  refine ⟨_, irCommands[i], hsend, hget, ?_, ?_⟩
  · simp only [hs, numCommands_eq]
    rw [Int.tmod_eq_emod (by omega) (by omega)]
    omega
  · simp [irSent_append, irSent]

/-- Along any schedule started with the cursor at a table index `i`, the run returns a
state; the patterns sent are, in order, those at `i`, `i + 1`, ... modulo 21, one per
`sendNextIrCode` step, and the cursor ends at `i` plus the number of such steps, modulo 21. -/
theorem run_cursor (sinTurn : ℚ → ℚ) (steps : List Step) :
    ∀ (s : State) (i : Nat), i < numCommands → s.currentCommandIndex = (i : Int) →
      ∃ s' sent, run sinTurn s steps = some s' ∧
        s'.currentCommandIndex =
          (((i + steps.count Step.sendNextIrCode) % numCommands : Nat) : Int) ∧
        irSent s'.log = irSent s.log ++ sent ∧
        sent.map Prod.fst =
          (List.range (steps.count Step.sendNextIrCode)).map (fun k => (i + k) % numCommands) ∧
        (∀ p ∈ sent, irCommands[p.1]? = some p.2) := by
  induction steps with
  | nil =>
    intro s i hi hs
    refine ⟨s, [], rfl, ?_, by simp, by simp, by simp⟩
    rw [hs]
    simp [Nat.mod_eq_of_lt hi]
  | cons st rest ih =>
    intro s i hi hs
    by_cases hst : st = Step.sendNextIrCode
    · subst hst
      obtain ⟨s1, cmd, hsend, hget, hc1, hlog1⟩ := sendNextIrCode_in_range s i hi hs
      have hi1 : (i + 1) % numCommands < numCommands :=
        Nat.mod_lt _ (by rw [numCommands_eq]; decide)
      obtain ⟨s', sent, hrun, hc, hlog, hidx, htab⟩ := ih s1 ((i + 1) % numCommands) hi1 hc1
      refine ⟨s', (i, cmd) :: sent, ?_, ?_, ?_, ?_, ?_⟩
      · simp only [run, step, hsend, hrun]
      · rw [hc, List.count_cons_self]
        simp only [numCommands_eq]
        congr 1
        omega
      · rw [hlog, hlog1]; simp
      · rw [List.count_cons_self, List.range_succ_eq_map, List.map_cons, List.map_cons, hidx,
          List.map_map]
        congr 1
        · simp [Nat.mod_eq_of_lt hi]
        · apply List.map_congr_left
          intro k _
          simp only [Function.comp, numCommands_eq]
          omega
      · intro p hp
        rcases List.mem_cons.mp hp with rfl | hp
        · exact hget
        · exact htab p hp
    · obtain ⟨s1, hstep, hc1, hlog1⟩ := step_keeps_cursor sinTurn s st hst
      obtain ⟨s', sent, hrun, hc, hlog, hidx, htab⟩ := ih s1 i hi (hc1.trans hs)
      refine ⟨s', sent, ?_, ?_, ?_, ?_, htab⟩
      · simp only [run, hstep, hrun]
      · rw [hc, List.count_cons_of_ne (Ne.symm hst)]
      · rw [hlog, hlog1]
      · rw [hidx, List.count_cons_of_ne (Ne.symm hst)]

/-- C10: with the cursor at a table index `i`, every schedule of steps returns a state
whose cursor is again a table index (no table read is out of bounds); and over any schedule
containing exactly 21 `sendNextIrCode` steps, however interleaved with button, state
machine, glow, beacon, tick and OTA-start steps, the patterns sent are those at
`i, i + 1, ...` modulo 21 in this order, each taken from the table at its index, these
indices are a rearrangement of `0..20`, and the cursor is back at `i`. -/
theorem emission_cursor_cycles (sinTurn : ℚ → ℚ) (s : State) (i : Nat)
    (hi : i < numCommands) (hs : s.currentCommandIndex = (i : Int)) (steps : List Step)
    (hcount : steps.count Step.sendNextIrCode = numCommands) :
    numCommands = 21 ∧
    (∃ s' sent, run sinTurn s steps = some s' ∧
      s'.currentCommandIndex = (i : Int) ∧
      irSent s'.log = irSent s.log ++ sent ∧
      sent.map Prod.fst = (List.range numCommands).map (fun k => (i + k) % numCommands) ∧
      (∀ p ∈ sent, irCommands[p.1]? = some p.2)) ∧
    ((List.range numCommands).map (fun k => (i + k) % numCommands)).Perm
      (List.range numCommands) ∧
    (∀ steps' : List Step, ∃ s'', run sinTurn s steps' = some s'' ∧
      0 ≤ s''.currentCommandIndex ∧ s''.currentCommandIndex < (numCommands : Int)) := by
  refine ⟨rfl, ?_, ?_, ?_⟩
  · obtain ⟨s', sent, hrun, hc, hlog, hidx, htab⟩ := run_cursor sinTurn steps s i hi hs
    refine ⟨s', sent, hrun, ?_, hlog, ?_, htab⟩
    · rw [hc, hcount, Nat.add_mod_right, Nat.mod_eq_of_lt hi]
    · rw [hidx, hcount]
  · have hperm : ∀ j, j < 21 →
        ((List.range 21).map (fun k => (j + k) % 21)).Perm (List.range 21) := by
      decide
    exact hperm i hi
  · intro steps'
    obtain ⟨s'', _, hrun, hc, _⟩ := run_cursor sinTurn steps' s i hi hs
    refine ⟨s'', hrun, ?_, ?_⟩
    · rw [hc]; exact Int.ofNat_nonneg _
    · rw [hc]
      exact_mod_cast Nat.mod_lt _ (by rw [numCommands_eq]; decide)

/-- C10 at a concrete input: from the cursor at index 19, the schedule `cycleSchedule`
(21 transmissions split across two sessions) sends the indices 19, 20, 0, ..., 18 and
returns the cursor to 19. -/
theorem emission_cursor_cycles_witness :
    cycleSchedule.count Step.sendNextIrCode = numCommands ∧
    ∃ s' sent,
      run (fun _ => 0) { setup false false true 0 with currentCommandIndex := 19 }
        cycleSchedule = some s' ∧
      s'.currentCommandIndex = ((19 : Nat) : Int) ∧
      irSent s'.log =
        irSent ({ setup false false true 0 with currentCommandIndex := 19 } : State).log ++
          sent ∧
      sent.map Prod.fst = (List.range numCommands).map (fun k => (19 + k) % numCommands) ∧
      (∀ p ∈ sent, irCommands[p.1]? = some p.2) :=
  ⟨by decide,
   (emission_cursor_cycles (fun _ => 0)
      { setup false false true 0 with currentCommandIndex := 19 } 19 (by decide) rfl
      cycleSchedule (by decide)).2.1⟩

/-! ## Breathing period -/

/-- The values 1, 3500, 4000 and 10000 are `float` values. -/
theorem roundF32_constants :
    roundF32 1 = 1 ∧ roundF32 500 = 500 ∧ roundF32 3500 = 3500 ∧ roundF32 4000 = 4000 ∧
    roundF32 10000 = 10000 := by
  have h1 := roundF32_natCast 1 (by norm_num)
  have h2 := roundF32_natCast 500 (by norm_num)
  have h3 := roundF32_natCast 3500 (by norm_num)
  have h4 := roundF32_natCast 4000 (by norm_num)
  have h5 := roundF32_natCast 10000 (by norm_num)
  push_cast at h1 h2 h3 h4 h5
  exact ⟨h1, h2, h3, h4, h5⟩

/-- The acceleration factor lies between 0 and 1. -/
theorem accelerationFactor_range (e : Nat) :
    0 ≤ accelerationFactor e ∧ accelerationFactor e ≤ 1 := by
  unfold accelerationFactor
  have h0 : (0 : ℚ) ≤ roundF32 (e : ℚ) := roundF32_nonneg _ (by positivity)
  have h1 : (0 : ℚ) ≤ roundF32 (roundF32 (e : ℚ) / 10000) :=
    roundF32_nonneg _ (by positivity)
  exact ⟨le_min h1 (by norm_num), min_le_right _ _⟩

/-- The acceleration factor does not decrease with the elapsed time. -/
theorem accelerationFactor_mono (e₁ e₂ : Nat) (h : e₁ ≤ e₂) :
    accelerationFactor e₁ ≤ accelerationFactor e₂ := by
  unfold accelerationFactor
  have hc : (e₁ : ℚ) ≤ (e₂ : ℚ) := by exact_mod_cast h
  have h1 : roundF32 (e₁ : ℚ) ≤ roundF32 (e₂ : ℚ) := roundF32_mono _ _ (by positivity) hc
  have h0 : (0 : ℚ) ≤ roundF32 (e₁ : ℚ) := roundF32_nonneg _ (by positivity)
  have h2 : roundF32 (e₁ : ℚ) / 10000 ≤ roundF32 (e₂ : ℚ) / 10000 :=
    div_le_div_of_nonneg_right h1 (by norm_num)
  exact min_le_min (roundF32_mono _ _ (by positivity) h2) le_rfl

/-- From 10000 ms on the acceleration factor is 1. -/
theorem accelerationFactor_late (e : Nat) (h : 10000 ≤ e) : accelerationFactor e = 1 := by
  obtain ⟨c1, _, _, _, c5⟩ := roundF32_constants
  unfold accelerationFactor
  have hc : (10000 : ℚ) ≤ (e : ℚ) := by exact_mod_cast h
  have h1 : (10000 : ℚ) ≤ roundF32 (e : ℚ) := by
    have := roundF32_mono 10000 (e : ℚ) (by norm_num) hc
    rwa [c5] at this
  have h2 : (1 : ℚ) ≤ roundF32 (e : ℚ) / 10000 := by
    rw [le_div_iff₀ (by norm_num)]
    linarith
  have h3 : (1 : ℚ) ≤ roundF32 (roundF32 (e : ℚ) / 10000) := by
    have := roundF32_mono 1 _ (by norm_num) h2
    rwa [c1] at this
  exact min_eq_right h3

/-- The product `3500.0f * accelerationFactor` lies between 0 and 3500. -/
theorem scaled_acceleration_range (e : Nat) :
    0 ≤ roundF32 (3500 * accelerationFactor e) ∧
    roundF32 (3500 * accelerationFactor e) ≤ 3500 := by
  obtain ⟨a0, a1⟩ := accelerationFactor_range e
  obtain ⟨_, _, c3, _, _⟩ := roundF32_constants
  refine ⟨roundF32_nonneg _ (by positivity), ?_⟩
  have := roundF32_mono (3500 * accelerationFactor e) 3500 (by positivity) (by linarith)
  rwa [c3] at this

/-- The period is at least 500. -/
theorem breathingPeriod_ge (e : Nat) : 500 ≤ breathingPeriod e := by
  obtain ⟨_, m1⟩ := scaled_acceleration_range e
  obtain ⟨_, c2, _, _, _⟩ := roundF32_constants
  unfold breathingPeriod
  have := roundF32_mono 500 (4000 - roundF32 (3500 * accelerationFactor e)) (by norm_num)
    (by linarith)
  rwa [c2] at this

/-- The period is at most 4000. -/
theorem breathingPeriod_le (e : Nat) : breathingPeriod e ≤ 4000 := by
  obtain ⟨m0, m1⟩ := scaled_acceleration_range e
  obtain ⟨_, _, _, c4, _⟩ := roundF32_constants
  unfold breathingPeriod
  have := roundF32_mono (4000 - roundF32 (3500 * accelerationFactor e)) 4000 (by linarith)
    (by linarith)
  rwa [c4] at this

/-- The truncated period, the modulus of `now`, is at least 500. -/
theorem truncated_breathingPeriod_ge (e : Nat) :
    500 ≤ (truncToInt (breathingPeriod e)).toNat := by
  have h := breathingPeriod_ge e
  have h0 : (0 : ℚ) ≤ breathingPeriod e := by linarith
  unfold truncToInt
  rw [if_pos h0]
  have h1 : (500 : Int) ≤ ⌊breathingPeriod e⌋ := Int.le_floor.mpr (by exact_mod_cast h)
  omega

/-- The period does not increase with the elapsed time. -/
theorem breathingPeriod_antitone (e₁ e₂ : Nat) (h : e₁ ≤ e₂) :
    breathingPeriod e₂ ≤ breathingPeriod e₁ := by
  have ha := accelerationFactor_mono e₁ e₂ h
  obtain ⟨a0, _⟩ := accelerationFactor_range e₁
  have hm : roundF32 (3500 * accelerationFactor e₁) ≤ roundF32 (3500 * accelerationFactor e₂) :=
    roundF32_mono _ _ (by positivity) (by linarith)
  obtain ⟨_, m1⟩ := scaled_acceleration_range e₂
  unfold breathingPeriod
  exact roundF32_mono _ _ (by linarith) (by linarith)

/-- The period is 500 from 10000 ms on. -/
theorem breathingPeriod_late (e : Nat) (h : 10000 ≤ e) : breathingPeriod e = 500 := by
  obtain ⟨_, c2, c3, _, _⟩ := roundF32_constants
  unfold breathingPeriod
  rw [accelerationFactor_late e h]
  norm_num
  rw [c3]
  norm_num
  exact c2

/-- The period is 4000 at elapsed time 0. -/
theorem breathingPeriod_zero : breathingPeriod 0 = 4000 := by
  obtain ⟨_, _, _, c4, _⟩ := roundF32_constants
  unfold breathingPeriod accelerationFactor
  simp [roundF32_zero, c4]

/-- The period in single precision is within 3/8192 of the exact value of the formula. -/
theorem breathingPeriod_near (e : Nat) :
    |breathingPeriod e - referencePeriod e| ≤ 3 / 8192 := by
  by_cases h : 10000 ≤ e
  · rw [breathingPeriod_late e h]
    unfold referencePeriod
    have h1 : (1 : ℚ) ≤ (e : ℚ) / 10000 := by
      rw [le_div_iff₀ (by norm_num)]
      exact_mod_cast (by omega : 1 * 10000 ≤ e)
    rw [min_eq_right h1]
    norm_num
  · have he : e < 10000 := by omega
    obtain ⟨c1, _, _, _, _⟩ := roundF32_constants
    have hq0 : (0 : ℚ) ≤ (e : ℚ) / 10000 := by positivity
    have hq1 : (e : ℚ) / 10000 < 1 := by
      rw [div_lt_iff₀ (by norm_num)]
      exact_mod_cast (by omega : e < 1 * 10000)
    have hfe : roundF32 (e : ℚ) = e := roundF32_natCast e (by omega)
    have ha1 : roundF32 ((e : ℚ) / 10000) ≤ 1 := by
      have := roundF32_mono ((e : ℚ) / 10000) 1 hq0 hq1.le
      rwa [c1] at this
    have hA : accelerationFactor e = roundF32 ((e : ℚ) / 10000) := by
      unfold accelerationFactor
      rw [hfe]
      exact min_eq_left ha1
    have hR : referencePeriod e = 4000 - 3500 * ((e : ℚ) / 10000) := by
      unfold referencePeriod
      rw [min_eq_left hq1.le]
    have err1 : |roundF32 ((e : ℚ) / 10000) - (e : ℚ) / 10000| ≤ 1 / 33554432 := by
      have := roundF32_error ((e : ℚ) / 10000) (-1) (by norm_num)
        (by rw [abs_of_nonneg hq0]; norm_num; exact hq1)
      norm_num at this
      exact this
    obtain ⟨m0, m1⟩ := scaled_acceleration_range e
    obtain ⟨a0, a1⟩ := accelerationFactor_range e
    have err2 : |roundF32 (3500 * accelerationFactor e) - 3500 * accelerationFactor e| ≤
        1 / 8192 := by
      have := roundF32_error (3500 * accelerationFactor e) 11 (by norm_num)
        (by rw [abs_of_nonneg (by positivity)]; norm_num; linarith)
      norm_num at this
      exact this
    have err3 : |roundF32 (4000 - roundF32 (3500 * accelerationFactor e)) -
        (4000 - roundF32 (3500 * accelerationFactor e))| ≤ 1 / 8192 := by
      have := roundF32_error (4000 - roundF32 (3500 * accelerationFactor e)) 11 (by norm_num)
        (by rw [abs_of_nonneg (by linarith)]; norm_num; linarith)
      norm_num at this
      exact this
    rw [hR]
    unfold breathingPeriod
    rw [hA] at err2 err3 ⊢
    rw [abs_le] at err1 err2 err3 ⊢
    constructor <;> linarith [err1.1, err1.2, err2.1, err2.2, err3.1, err3.2]

/-- The period computed at elapsed time 5720. -/
theorem breathingPeriod_5720 : breathingPeriod 5720 = 16367615 / 8192 := by
  have h1 : roundF32 ((5720 : Nat) : ℚ) = ((5720 : Nat) : ℚ) :=
    roundF32_natCast 5720 (by norm_num)
  have h2 : roundF32 ((5720 : ℚ) / 10000) = 1199571 / 2097152 := by
    rw [roundF32_eval (5720 / 10000) (-1) 9596568 (by norm_num) (by norm_num [abs_of_pos])
      (by norm_num [abs_of_pos]) (by norm_num) (by norm_num)]
    norm_num
  have h3 : roundF32 (3500 * ((1199571 : ℚ) / 2097152)) = 16400385 / 8192 := by
    rw [roundF32_eval (3500 * (1199571 / 2097152)) 10 16400385 (by norm_num)
      (by norm_num [abs_of_pos]) (by norm_num [abs_of_pos]) (by norm_num) (by norm_num)]
    norm_num
  have h4 : roundF32 (4000 - (16400385 : ℚ) / 8192) = 16367615 / 8192 := by
    have e : (4000 - (16400385 : ℚ) / 8192) = 16367615 / 8192 := by norm_num
    rw [e]
    exact roundF32_exact (16367615 / 8192) 10 16367615 (by norm_num)
      (by norm_num [abs_of_pos]) (by norm_num [abs_of_pos]) (by norm_num)
  unfold breathingPeriod accelerationFactor
  rw [h1]
  push_cast
  rw [h2, min_eq_left (by norm_num), h3, h4]

/-- What `handleMagicalGlow` does when the update is due and `breathingActive` is set: it
stores the time and publishes the scaled sine, computed in single precision and
truncated, for the phase `phaseTurns now breathingStartTime`. -/
theorem handleMagicalGlow_publishes (sinTurn : ℚ → ℚ) (s : State) (now : Nat)
    (hd : sub32 now s.lastUpdate ≥ 10) (hb : s.breathingActive = true) :
    handleMagicalGlow sinTurn s now =
      { s with
        lastUpdate := now
        currentBrightness :=
          truncToInt
            (roundF32 (roundF32 (sinTurn (phaseTurns now s.breathingStartTime) + 1) * 50)) } := by
  unfold handleMagicalGlow phaseTurns breathingPeriod accelerationFactor
  simp only [hd, hb, if_true]

/-- C20 fails as stated: at elapsed time 5720 the period computed in single precision is
16367615/8192 = 1997.99988, not 1998, the exact value of
`4000 - 3500 * min(elapsed / 10000, 1)`; its truncation, the modulus of `now`, is 1997 and
not 1998, so that in `shortSession` (session started at 100 ms) the update at 5820 ms
takes the sine at 1826/1997.99988 of a turn (5820 mod 1997 = 1826, while
5820 mod 1998 = 1824). -/
theorem breathing_period_float_counterexample :
    breathingPeriod 5720 = 16367615 / 8192 ∧
    referencePeriod 5720 = 1998 ∧
    breathingPeriod 5720 ≠ referencePeriod 5720 ∧
    (truncToInt (breathingPeriod 5720)).toNat = 1997 ∧
    (truncToInt (referencePeriod 5720)).toNat = 1998 ∧
    sub32 5820 shortSession.breathingStartTime = 5720 ∧
    phaseTurns 5820 shortSession.breathingStartTime = 1826 / (16367615 / 8192) ∧
    (∀ sinTurn : ℚ → ℚ,
      (handleMagicalGlow sinTurn shortSession 5820).currentBrightness =
        truncToInt (roundF32 (roundF32 (sinTurn (1826 / (16367615 / 8192)) + 1) * 50))) := by
  have hp := breathingPeriod_5720
  have hr : referencePeriod 5720 = 1998 := by
    unfold referencePeriod
    norm_num
  have ht : (truncToInt (breathingPeriod 5720)).toNat = 1997 := by
    rw [hp]
    unfold truncToInt
    rw [if_pos (by norm_num)]
    have : ⌊(16367615 : ℚ) / 8192⌋ = 1997 := by
      rw [Int.floor_eq_iff]
      norm_num
    rw [this]
    rfl
  have htr : (truncToInt (referencePeriod 5720)).toNat = 1998 := by
    rw [hr]
    unfold truncToInt
    norm_num
    rfl
  have hs : sub32 5820 shortSession.breathingStartTime = 5720 := by decide
  have hph : phaseTurns 5820 shortSession.breathingStartTime = 1826 / (16367615 / 8192) := by
    unfold phaseTurns
    rw [hs, ht, hp]
    norm_num
  refine ⟨hp, hr, ?_, ht, htr, hs, hph, ?_⟩
  · rw [hp, hr]
    norm_num
  · intro sinTurn
    rw [handleMagicalGlow_publishes sinTurn shortSession 5820 (by decide) (by decide), hph]

/-- C20 as amended: when `handleMagicalGlow` recomputes the curve, the period it uses is
`breathingPeriod (now - breathingStartTime)`, the value of
`4000 - 3500 * min(elapsed / 10000, 1)` computed in single precision; it lies within
3/8192 ms of the exact value of that formula, is exactly 4000 at elapsed 0, exactly 500
from elapsed 10000 on, non-increasing in elapsed, never below 500, and its truncation, the
modulus of `now`, is never zero. -/
theorem breathing_period_bounds :
    (∀ (sinTurn : ℚ → ℚ) (s : State) (now : Nat),
      sub32 now s.lastUpdate ≥ 10 → s.breathingActive = true →
      handleMagicalGlow sinTurn s now =
        { s with
          lastUpdate := now
          currentBrightness :=
            truncToInt (roundF32 (roundF32 (sinTurn
              (((now % 4294967296 %
                  (truncToInt (breathingPeriod (sub32 now s.breathingStartTime))).toNat : Nat) : ℚ)
                / breathingPeriod (sub32 now s.breathingStartTime)) + 1) * 50)) }) ∧
    (∀ e : Nat, |breathingPeriod e - referencePeriod e| ≤ 3 / 8192) ∧
    breathingPeriod 0 = 4000 ∧
    (∀ e : Nat, 10000 ≤ e → breathingPeriod e = 500) ∧
    (∀ e₁ e₂ : Nat, e₁ ≤ e₂ → breathingPeriod e₂ ≤ breathingPeriod e₁) ∧
    (∀ e : Nat, 500 ≤ breathingPeriod e) ∧
    (∀ e : Nat, (truncToInt (breathingPeriod e)).toNat ≠ 0) := by
  refine ⟨?_, breathingPeriod_near, breathingPeriod_zero, breathingPeriod_late,
    breathingPeriod_antitone, breathingPeriod_ge, ?_⟩
  · intro sinTurn s now hd hb
    exact handleMagicalGlow_publishes sinTurn s now hd hb
  · intro e
    have := truncated_breathingPeriod_ge e
    omega

/-- C20 as amended, at concrete inputs: 12000 ms into the session the period is 500 ms,
which is not above the period at 5720 ms, and the period at 5720 ms is within 3/8192 of
1998. -/
theorem breathing_period_bounds_witness :
    breathingPeriod 12000 = 500 ∧ breathingPeriod 12000 ≤ breathingPeriod 5720 ∧
    |breathingPeriod 5720 - referencePeriod 5720| ≤ 3 / 8192 :=
  ⟨breathing_period_bounds.2.2.2.1 12000 (by decide),
   breathing_period_bounds.2.2.2.2.1 5720 12000 (by decide),
   breathing_period_bounds.2.1 5720⟩

/-! ## Session start and the emission cursor -/

/-- C15 fails as stated: in the idle state reached by `idleAfterThreeSends` the cursor is
3, and the press accepted at 11000 ms starts a session with the cursor still at 3. -/
theorem session_start_cursor_counterexample :
    idleAfterThreeSends.map (fun s =>
      (s.currentState, s.currentCommandIndex,
       (handleButtonPress s 11000 true sampleDraw).currentState,
       (handleButtonPress s 11000 true sampleDraw).currentCommandIndex)) =
      some (DeviceState.STATE_IDLE, 3, DeviceState.STATE_CHECKING_PRESS, 3) := by
  decide

/-- C15 as amended: the accepted rising edge that starts a session leaves the emission
cursor where the previous transmission left it, and the first `sendNextIrCode` of the
session sends the pattern at that index. -/
theorem session_start_keeps_cursor (s : State) (now : Nat) (rnd : BleDraw) (i : Nat)
    (hidle : s.currentState = DeviceState.STATE_IDLE)
    (hdebounce : sub32 now s.lastButtonCheck ≥ BUTTON_DEBOUNCE_MS)
    (hlow : s.lastButtonState = false)
    (hi : i < numCommands) (hs : s.currentCommandIndex = (i : Int)) :
    (handleButtonPress s now true rnd).currentState = DeviceState.STATE_CHECKING_PRESS ∧
    (handleButtonPress s now true rnd).currentCommandIndex = s.currentCommandIndex ∧
    ∃ s1 cmd, sendNextIrCode (handleButtonPress s now true rnd) = some s1 ∧
      irCommands[i]? = some cmd ∧
      irSent s1.log = irSent s.log ++ [(i, cmd)] := by
  obtain ⟨hc, hl⟩ := handleButtonPress_cursor s now true rnd
  have hcp : (handleButtonPress s now true rnd).currentState =
      DeviceState.STATE_CHECKING_PRESS := by
    have h0 : sub32 now now = 0 := by unfold sub32; omega
    unfold handleButtonPress
    cases h2 : s.isOtaMode <;> cases h3 : s.otaExitInProgress <;>
      simp [hdebounce, hidle, hlow, h2, h3, h0, risingEdge_fields]
  obtain ⟨s1, cmd, hsend, hget, _, hlog⟩ :=
    sendNextIrCode_in_range (handleButtonPress s now true rnd) i hi (hc.trans hs)
  exact ⟨hcp, hc, s1, cmd, hsend, hget, by rw [hlog, hl]⟩

/-- C15 as amended, at a concrete input: boot state with the cursor at 3, press accepted
at 100 ms. -/
theorem session_start_keeps_cursor_witness :
    (handleButtonPress { setup false false true 0 with currentCommandIndex := 3 } 100 true
      sampleDraw).currentCommandIndex = 3 :=
  (session_start_keeps_cursor { setup false false true 0 with currentCommandIndex := 3 } 100
    sampleDraw 3 rfl (by decide) rfl (by decide) rfl).2.1

/-! ## Software PWM tick -/

/-- C16 fails as stated: with `breathingActive` false and the first light output driven
on (LOW), a tick leaves that output on. -/
theorem idle_tick_forces_off_counterexample :
    ({ setup false false true 0 with led1 := false } : State).breathingActive = false ∧
    (onTimer { setup false false true 0 with led1 := false }).led1 = false := by
  decide

/-- C16 as amended: with `breathingActive` false a tick changes nothing: the light outputs
keep the level they had and the PWM counter does not advance. -/
theorem idle_tick_changes_nothing (s : State) (h : s.breathingActive = false) :
    onTimer s = s ∧ (onTimer s).led1 = s.led1 ∧ (onTimer s).led2 = s.led2 ∧
    (onTimer s).led3 = s.led3 ∧ (onTimer s).pwmCounter = s.pwmCounter := by
  have : onTimer s = s := by
    unfold onTimer
    simp [h]
  rw [this]
  exact ⟨rfl, rfl, rfl, rfl, rfl⟩

/-- C16 as amended, at a concrete input: a tick in the boot state. -/
theorem idle_tick_changes_nothing_witness :
    onTimer (setup false false true 0) = setup false false true 0 :=
  (idle_tick_changes_nothing (setup false false true 0) rfl).1

/-- The function `handleButtonPress` does not write the PWM counter. -/
theorem handleButtonPress_pwmCounter (s : State) (now : Nat) (level : Bool) (rnd : BleDraw) :
    (handleButtonPress s now level rnd).pwmCounter = s.pwmCounter := by
  unfold handleButtonPress
  by_cases hd : sub32 now s.lastButtonCheck ≥ BUTTON_DEBOUNCE_MS
  · cases level <;> cases h1 : s.lastButtonState <;> cases h2 : s.isOtaMode <;>
      cases h3 : s.otaExitInProgress <;>
      simp [hd, h1, h2, h3, risingEdge_fields, exitOta_fields] <;>
      split_ifs <;> simp [risingEdge_fields, exitOta_fields]
  · simp [hd]

/-- Every step other than a tick leaves the PWM counter alone. -/
theorem step_pwmCounter (sinTurn : ℚ → ℚ) (s s' : State) (st : Step)
    (hst : st ≠ Step.onTimer) (h : step sinTurn s st = some s') :
    s'.pwmCounter = s.pwmCounter := by
  cases st with
  | handleButtonPress now level rnd =>
    simp only [step, Option.some.injEq] at h
    rw [← h]; exact handleButtonPress_pwmCounter s now level rnd
  | updateStateMachine now level =>
    simp only [step, Option.some.injEq] at h
    rw [← h]
    unfold updateStateMachine
    split <;> (try split_ifs) <;> simp [endSession_fields]
  | handleMagicalGlow now =>
    simp only [step, Option.some.injEq] at h
    rw [← h]
    unfold handleMagicalGlow
    by_cases hd : sub32 now s.lastUpdate ≥ 10 <;> cases hb : s.breathingActive <;>
      simp [hd, hb]
  | sendNextIrCode =>
    simp only [step, sendNextIrCode] at h
    split_ifs at h
    split at h
    · simp only [Option.some.injEq] at h
      rw [← h]
    · exact absurd h (by simp)
  | handleBLESpoofing now rnd =>
    simp only [step, Option.some.injEq] at h
    rw [← h]
    unfold handleBLESpoofing
    split_ifs <;> simp
  | onTimer => exact absurd rfl hst
  | otaOnStart =>
    simp only [step, Option.some.injEq] at h
    rw [← h]
    unfold otaOnStart
    simp only []
    split_ifs <;> simp [digitalWrite]

/-- A tick with `breathingActive` set, written out. -/
theorem onTimer_active (s : State) (hb : s.breathingActive = true) :
    onTimer s =
      { s with
        pwmCounter := Int.tmod (s.pwmCounter + 1) 100
        led1 := !decide (Int.tmod (s.pwmCounter + 1) 100 < s.currentBrightness)
        led2 := !decide (Int.tmod (s.pwmCounter + 1) 100 < s.currentBrightness)
        led3 := !decide (Int.tmod (s.pwmCounter + 1) 100 < s.currentBrightness)
        log := s.log ++
          [ Event.digitalWrite Pin.LED1_PIN
              (!decide (Int.tmod (s.pwmCounter + 1) 100 < s.currentBrightness)),
            Event.digitalWrite Pin.LED2_PIN
              (!decide (Int.tmod (s.pwmCounter + 1) 100 < s.currentBrightness)),
            Event.digitalWrite Pin.LED3_PIN
              (!decide (Int.tmod (s.pwmCounter + 1) 100 < s.currentBrightness)) ] } := by
  unfold onTimer
  simp [hb, digitalWrite]

/-- Every step keeps the PWM counter within 0..99. -/
theorem step_pwmCounter_range (sinTurn : ℚ → ℚ) (s s' : State) (st : Step)
    (h : step sinTurn s st = some s') (hc : 0 ≤ s.pwmCounter ∧ s.pwmCounter < 100) :
    0 ≤ s'.pwmCounter ∧ s'.pwmCounter < 100 := by
  by_cases hst : st = Step.onTimer
  · subst hst
    simp only [step, Option.some.injEq] at h
    rw [← h]
    cases hb : s.breathingActive
    · have : onTimer s = s := by unfold onTimer; simp [hb]
      rw [this]; exact hc
    · rw [onTimer_active s hb]
      simp only []
      rw [Int.tmod_eq_emod (by omega) (by omega)]
      omega
  · rw [step_pwmCounter sinTurn s s' st hst h]
    exact hc

/-- C17: with `breathingActive` set and the PWM counter `c` in 0..99, a tick sets the
counter to `(c + 1) % 100`, writes to all three light outputs the level LOW (on) when the
new counter is below the brightness and HIGH (off) otherwise, and changes nothing else;
and from such a state the counter is within 0..99 after every schedule of steps. -/
theorem tick_advances_pwm (sinTurn : ℚ → ℚ) (s : State) (hb : s.breathingActive = true)
    (hc : 0 ≤ s.pwmCounter ∧ s.pwmCounter < 100) :
    onTimer s =
      { s with
        pwmCounter := (s.pwmCounter + 1) % 100
        led1 := !decide ((s.pwmCounter + 1) % 100 < s.currentBrightness)
        led2 := !decide ((s.pwmCounter + 1) % 100 < s.currentBrightness)
        led3 := !decide ((s.pwmCounter + 1) % 100 < s.currentBrightness)
        log := s.log ++
          [ Event.digitalWrite Pin.LED1_PIN
              (!decide ((s.pwmCounter + 1) % 100 < s.currentBrightness)),
            Event.digitalWrite Pin.LED2_PIN
              (!decide ((s.pwmCounter + 1) % 100 < s.currentBrightness)),
            Event.digitalWrite Pin.LED3_PIN
              (!decide ((s.pwmCounter + 1) % 100 < s.currentBrightness)) ] } ∧
    ((onTimer s).led1 = false ↔ (s.pwmCounter + 1) % 100 < s.currentBrightness) ∧
    (onTimer s).led2 = (onTimer s).led1 ∧ (onTimer s).led3 = (onTimer s).led1 ∧
    (∀ (steps : List Step) (s' : State), run sinTurn s steps = some s' →
      0 ≤ s'.pwmCounter ∧ s'.pwmCounter < 100) := by
  have hmod : Int.tmod (s.pwmCounter + 1) 100 = (s.pwmCounter + 1) % 100 :=
    Int.tmod_eq_emod (by omega) (by omega)
  have heq := onTimer_active s hb
  rw [hmod] at heq
  refine ⟨heq, ?_, ?_, ?_, ?_⟩
  · rw [heq]; simp
  · rw [heq]
  · rw [heq]
  · intro steps
    have hinv : ∀ (steps : List Step) (a a' : State),
        (0 ≤ a.pwmCounter ∧ a.pwmCounter < 100) → run sinTurn a steps = some a' →
        0 ≤ a'.pwmCounter ∧ a'.pwmCounter < 100 := by
      intro steps
      induction steps with
      | nil =>
        intro a a' ha h
        simp only [run, Option.some.injEq] at h
        rw [← h]; exact ha
      | cons st rest ih =>
        intro a a' ha h
        simp only [run] at h
        cases hstep : step sinTurn a st with
        | none => rw [hstep] at h; exact absurd h (by simp)
        | some a1 =>
          rw [hstep] at h
          exact ih a1 a' (step_pwmCounter_range sinTurn a a1 st hstep ha) h
    exact fun s' h => hinv steps s s' hc h

/-- C17 at a concrete input: in `glowingSession` (brightness 75, counter 0) a tick moves
the counter to 1 and drives the lights on. -/
theorem tick_advances_pwm_witness :
    (onTimer glowingSession).pwmCounter = 1 ∧ (onTimer glowingSession).led1 = false ∧
    (onTimer glowingSession).led2 = false ∧ (onTimer glowingSession).led3 = false := by
  have hb : glowingSession.breathingActive = true := by
    unfold glowingSession handleMagicalGlow
    have hdue : sub32 210 shortSession.lastUpdate ≥ 10 := by decide
    have hact : shortSession.breathingActive = true := by decide
    simp only [hdue, hact, if_true]
  have hcv : glowingSession.pwmCounter = 0 := by
    unfold glowingSession handleMagicalGlow
    have hdue : sub32 210 shortSession.lastUpdate ≥ 10 := by decide
    have hact : shortSession.breathingActive = true := by decide
    simp only [hdue, hact, if_true]
    decide
  have hbr : glowingSession.currentBrightness = 75 := by
    have h75 := published_at_half
    unfold glowingSession handleMagicalGlow
    have hdue : sub32 210 shortSession.lastUpdate ≥ 10 := by decide
    have hact : shortSession.breathingActive = true := by decide
    simp only [hdue, hact, if_true, h75]
  have h := tick_advances_pwm (fun _ => 0) glowingSession hb (by rw [hcv]; decide)
  have h1 := h.2.1
  rw [hcv, hbr] at h1
  have hl1 : (onTimer glowingSession).led1 = false := h1.mpr (by decide)
  refine ⟨?_, hl1, h.2.2.1.trans hl1, h.2.2.2.1.trans hl1⟩
  rw [h.1, hcv]
  decide

/-! ## Maintenance mode exit -/

/-- The log written by the OTA-exit block. -/
theorem exitOta_log (s : State) (now : Nat) :
    (handleButtonPress_exitOta s now).log =
      s.log ++
        [ Event.otaEnd, Event.wifiSoftAPdisconnect, Event.wifiModeOff, Event.delay 500,
          Event.setIsOtaMode false,
          Event.setCurrentState DeviceState.STATE_IDLE, Event.setBreathingActive false ] ++
        (if s.bleInitialized && s.pAdvertising then [Event.bleStop] else []) ++
        [ Event.digitalWrite Pin.LED1_PIN true, Event.digitalWrite Pin.LED2_PIN true,
          Event.digitalWrite Pin.LED3_PIN true, Event.digitalWrite Pin.DEBUG_LED_PIN true ] := by
  unfold handleButtonPress_exitOta
  simp only []
  split <;> simp [digitalWrite]

/-- When `handleButtonPress` clears `isOtaMode`, the call is an accepted high sample
that is not a rising edge, the gesture is in progress and has lasted 5000 ms, and the
result is the OTA-exit block applied to the input state. -/
theorem handleButtonPress_exit_inv (s : State) (now : Nat) (level : Bool) (rnd : BleDraw)
    (hmode : s.isOtaMode = true)
    (hexit : (handleButtonPress s now level rnd).isOtaMode = false) :
    sub32 now s.lastButtonCheck ≥ BUTTON_DEBOUNCE_MS ∧ level = true ∧
    s.lastButtonState = true ∧ s.otaExitInProgress = true ∧
    sub32 now s.otaModeExitStartTime ≥ 5000 ∧
    handleButtonPress s now level rnd =
      { handleButtonPress_exitOta s now with lastButtonState := true, lastButtonCheck := now } := by
  have h0 : sub32 now now = 0 := by unfold sub32; omega
  revert hexit
  unfold handleButtonPress
  by_cases hd : sub32 now s.lastButtonCheck ≥ BUTTON_DEBOUNCE_MS
  · by_cases h5 : sub32 now s.otaModeExitStartTime ≥ 5000 <;>
      cases level <;> cases h1 : s.lastButtonState <;> cases h3 : s.otaExitInProgress <;>
      simp [hd, h5, h0, hmode, h1, h3, risingEdge_fields, exitOta_fields]
  · simp [hd, hmode]

/-- C11 fails as stated: in the exit performed at 5100 ms from `otaHeld` (OTA mode, button
held since 100 ms) the write of `isOtaMode = false` comes right after the teardown of the
update transport, before the session state, the beacon and the light outputs. -/
theorem ota_exit_order_counterexample :
    otaHeld.isOtaMode = true ∧
    (handleButtonPress otaHeld 5100 true sampleDraw).isOtaMode = false ∧
    (handleButtonPress otaHeld 5100 true sampleDraw).log =
      otaHeld.log ++
        [ Event.otaEnd, Event.wifiSoftAPdisconnect, Event.wifiModeOff, Event.delay 500,
          Event.setIsOtaMode false,
          Event.setCurrentState DeviceState.STATE_IDLE, Event.setBreathingActive false,
          Event.bleStop,
          Event.digitalWrite Pin.LED1_PIN true, Event.digitalWrite Pin.LED2_PIN true,
          Event.digitalWrite Pin.LED3_PIN true, Event.digitalWrite Pin.DEBUG_LED_PIN true ] := by
  decide

/-- C11 as amended: whenever `handleButtonPress` performs the exit from OTA mode, its
effects occur in this order: update transport torn down (OTA end, access point
disconnected, WiFi off, 500 ms delay), `isOtaMode` set to false, session state forced to
`Idle` and `breathingActive` set false, beacon advertising stopped if the beacon is up,
the three light outputs and the debug output written HIGH; and in the resulting state the
session is idle, `breathingActive` is false and the three light outputs are off. -/
theorem ota_exit_sequence (s : State) (now : Nat) (level : Bool) (rnd : BleDraw)
    (hmode : s.isOtaMode = true)
    (hexit : (handleButtonPress s now level rnd).isOtaMode = false) :
    (handleButtonPress s now level rnd).log =
      s.log ++
        [ Event.otaEnd, Event.wifiSoftAPdisconnect, Event.wifiModeOff, Event.delay 500,
          Event.setIsOtaMode false,
          Event.setCurrentState DeviceState.STATE_IDLE, Event.setBreathingActive false ] ++
        (if s.bleInitialized && s.pAdvertising then [Event.bleStop] else []) ++
        [ Event.digitalWrite Pin.LED1_PIN true, Event.digitalWrite Pin.LED2_PIN true,
          Event.digitalWrite Pin.LED3_PIN true, Event.digitalWrite Pin.DEBUG_LED_PIN true ] ∧
    (handleButtonPress s now level rnd).currentState = DeviceState.STATE_IDLE ∧
    (handleButtonPress s now level rnd).breathingActive = false ∧
    (handleButtonPress s now level rnd).led1 = true ∧
    (handleButtonPress s now level rnd).led2 = true ∧
    (handleButtonPress s now level rnd).led3 = true := by
  obtain ⟨_, _, _, _, _, heq⟩ := handleButtonPress_exit_inv s now level rnd hmode hexit
  rw [heq]
  simp [exitOta_log, exitOta_fields]

/-- C11 as amended, at a concrete input: the exit performed at 5100 ms from `otaHeld`
leaves the session idle with the lights off. -/
theorem ota_exit_sequence_witness :
    (handleButtonPress otaHeld 5100 true sampleDraw).currentState = DeviceState.STATE_IDLE ∧
    (handleButtonPress otaHeld 5100 true sampleDraw).breathingActive = false ∧
    (handleButtonPress otaHeld 5100 true sampleDraw).led1 = true :=
  ⟨(ota_exit_sequence otaHeld 5100 true sampleDraw (by decide) (by decide)).2.1,
   (ota_exit_sequence otaHeld 5100 true sampleDraw (by decide) (by decide)).2.2.1,
   (ota_exit_sequence otaHeld 5100 true sampleDraw (by decide) (by decide)).2.2.2.1⟩

/-! ## Mode flag -/

/-- The exit-gesture fields after `handleButtonPress`, by cases. -/
theorem handleButtonPress_gesture (s : State) (now : Nat) (level : Bool) (rnd : BleDraw)
    (g : Option Nat)
    (hinv : s.otaExitInProgress = true →
      g = some s.otaModeExitStartTime ∧ s.lastButtonState = true) :
    (handleButtonPress s now level rnd).otaExitInProgress = true →
      heldSinceStep s g (Step.handleButtonPress now level rnd) =
        some (handleButtonPress s now level rnd).otaModeExitStartTime ∧
      (handleButtonPress s now level rnd).lastButtonState = true := by
  have h0 : sub32 now now = 0 := by unfold sub32; omega
  unfold handleButtonPress heldSinceStep
  by_cases hd : sub32 now s.lastButtonCheck ≥ BUTTON_DEBOUNCE_MS
  · cases level <;> cases h1 : s.lastButtonState <;> cases h2 : s.isOtaMode <;>
      cases h3 : s.otaExitInProgress <;>
      simp [hd, h0, h1, h2, h3, risingEdge_fields, exitOta_fields] <;>
      (try split_ifs) <;> simp_all [exitOta_fields]
  · simpa [hd] using hinv

/-- Steps other than `handleButtonPress` leave the mode flag, the exit-gesture fields and
the accepted button level alone. -/
theorem step_mode_fields (sinTurn : ℚ → ℚ) (s s' : State) (st : Step)
    (hst : ∀ now level rnd, st ≠ Step.handleButtonPress now level rnd)
    (h : step sinTurn s st = some s') :
    s'.isOtaMode = s.isOtaMode ∧ s'.otaExitInProgress = s.otaExitInProgress ∧
    s'.otaModeExitStartTime = s.otaModeExitStartTime ∧
    s'.lastButtonState = s.lastButtonState := by
  cases st with
  | handleButtonPress now level rnd => exact absurd rfl (hst now level rnd)
  | updateStateMachine now level =>
    simp only [step, Option.some.injEq] at h
    rw [← h]
    unfold updateStateMachine
    split <;> (try split_ifs) <;> simp [endSession_fields]
  | handleMagicalGlow now =>
    simp only [step, Option.some.injEq] at h
    rw [← h]
    unfold handleMagicalGlow
    by_cases hd : sub32 now s.lastUpdate ≥ 10 <;> cases hb : s.breathingActive <;>
      simp [hd, hb]
  | sendNextIrCode =>
    simp only [step, sendNextIrCode] at h
    split_ifs at h
    split at h
    · simp only [Option.some.injEq] at h
      rw [← h]
      exact ⟨rfl, rfl, rfl, rfl⟩
    · exact absurd h (by simp)
  | handleBLESpoofing now rnd =>
    simp only [step, Option.some.injEq] at h
    rw [← h]
    unfold handleBLESpoofing
    split_ifs <;> simp
  | onTimer =>
    simp only [step, Option.some.injEq] at h
    rw [← h]
    unfold onTimer
    split_ifs <;> simp [digitalWrite]
  | otaOnStart =>
    simp only [step, Option.some.injEq] at h
    rw [← h]
    unfold otaOnStart
    simp only []
    split_ifs <;> simp [digitalWrite]

/-- The function `handleButtonPress` never sets the mode flag. -/
theorem handleButtonPress_isOtaMode (s : State) (now : Nat) (level : Bool) (rnd : BleDraw)
    (h : s.isOtaMode = false) : (handleButtonPress s now level rnd).isOtaMode = false := by
  unfold handleButtonPress
  by_cases hd : sub32 now s.lastButtonCheck ≥ BUTTON_DEBOUNCE_MS
  · cases level <;> cases h1 : s.lastButtonState <;> cases h3 : s.otaExitInProgress <;>
      simp [hd, h, h1, h3, risingEdge_fields]
  · simp [hd, h]

/-- One step keeps the exit-gesture record in line with the fields of the code: while
`otaExitInProgress` is set, the record is the stored gesture start time and the accepted
button level is high. -/
theorem step_gesture_inv (sinTurn : ℚ → ℚ) (s s1 : State) (g : Option Nat) (st : Step)
    (hinv : s.otaExitInProgress = true →
      g = some s.otaModeExitStartTime ∧ s.lastButtonState = true)
    (h : step sinTurn s st = some s1) :
    s1.otaExitInProgress = true →
      heldSinceStep s g st = some s1.otaModeExitStartTime ∧ s1.lastButtonState = true := by
  by_cases hb : ∃ now level rnd, st = Step.handleButtonPress now level rnd
  · obtain ⟨now, level, rnd, rfl⟩ := hb
    simp only [step, Option.some.injEq] at h
    rw [← h]
    exact handleButtonPress_gesture s now level rnd g hinv
  · have hst : ∀ now level rnd, st ≠ Step.handleButtonPress now level rnd :=
      fun now level rnd e => hb ⟨now, level, rnd, e⟩
    obtain ⟨_, h2, h3, h4⟩ := step_mode_fields sinTurn s s1 st hst h
    have hg : heldSinceStep s g st = g := by
      cases st <;> first | rfl | exact absurd rfl (hst _ _ _)
    rw [hg, h2, h3, h4]
    exact hinv

/-- The same along a whole schedule. -/
theorem run_gesture_inv (sinTurn : ℚ → ℚ) (steps : List Step) :
    ∀ (s s' : State) (g : Option Nat),
      (s.otaExitInProgress = true →
        g = some s.otaModeExitStartTime ∧ s.lastButtonState = true) →
      run sinTurn s steps = some s' →
      (s'.otaExitInProgress = true →
        heldSince sinTurn s g steps = some s'.otaModeExitStartTime ∧
        s'.lastButtonState = true) := by
  induction steps with
  | nil =>
    intro s s' g hinv h
    simp only [run, Option.some.injEq] at h
    subst h
    simpa [heldSince] using hinv
  | cons st rest ih =>
    intro s s' g hinv h
    simp only [run] at h
    cases hstep : step sinTurn s st with
    | none => rw [hstep] at h; exact absurd h (by simp)
    | some s1 =>
      rw [hstep] at h
      simp only [heldSince, hstep]
      exact ih s1 s' _ (step_gesture_inv sinTurn s s1 g st hinv hstep) h

/-- C12: in a state reached from `setup` by any schedule of steps, no step sets
`isOtaMode` from false to true; and a step that sets it from true to false is a
`handleButtonPress` call with an accepted high sample such that, since the last accepted
rising edge, every accepted sample read high and at least 5000 ms (32-bit) have passed. -/
theorem mode_flag_only_by_exit_gesture (sinTurn : ℚ → ℚ)
    (switchLevel buttonLevel bleOk : Bool) (t0 : Nat) (steps : List Step) (s : State)
    (hrun : run sinTurn (setup switchLevel buttonLevel bleOk t0) steps = some s)
    (st : Step) (s' : State) (hstep : step sinTurn s st = some s') :
    (s.isOtaMode = false → s'.isOtaMode = false) ∧
    (s.isOtaMode = true → s'.isOtaMode = false →
      ∃ now rnd tEdge, st = Step.handleButtonPress now true rnd ∧
        sub32 now s.lastButtonCheck ≥ BUTTON_DEBOUNCE_MS ∧
        heldSince sinTurn (setup switchLevel buttonLevel bleOk t0) none steps = some tEdge ∧
        sub32 now tEdge ≥ 5000) := by
  by_cases hb : ∃ now level rnd, st = Step.handleButtonPress now level rnd
  · obtain ⟨now, level, rnd, rfl⟩ := hb
    simp only [step, Option.some.injEq] at hstep
    subst hstep
    refine ⟨handleButtonPress_isOtaMode s now level rnd, ?_⟩
    intro hmode hexit
    obtain ⟨hd, hl, _, hprog, h5, _⟩ := handleButtonPress_exit_inv s now level rnd hmode hexit
    have hinv := run_gesture_inv sinTurn steps (setup switchLevel buttonLevel bleOk t0) s none
      (by simp [setup]) hrun hprog
    subst hl
    exact ⟨now, rnd, s.otaModeExitStartTime, rfl, hd, hinv.1, h5⟩
  · have hst : ∀ now level rnd, st ≠ Step.handleButtonPress now level rnd :=
      fun now level rnd e => hb ⟨now, level, rnd, e⟩
    obtain ⟨h1, _⟩ := step_mode_fields sinTurn s s' st hst hstep
    rw [h1]
    exact ⟨id, fun hm hf => absurd (hm.symm.trans hf) (by decide)⟩

/-- C12 at a concrete input: after `otaHeldSteps` (OTA mode, rising edge accepted at
100 ms, high sample accepted at 3100 ms) the call at 5100 ms clears the mode flag, and
the gesture started at the rising edge at 100 ms. -/
theorem mode_flag_only_by_exit_gesture_witness :
    run (fun _ => 0) (setup true false true 0) otaHeldSteps = some otaHeld ∧
    otaHeld.isOtaMode = true ∧
    (handleButtonPress otaHeld 5100 true sampleDraw).isOtaMode = false ∧
    ∃ now rnd tEdge,
      Step.handleButtonPress 5100 true sampleDraw = Step.handleButtonPress now true rnd ∧
      sub32 now otaHeld.lastButtonCheck ≥ BUTTON_DEBOUNCE_MS ∧
      heldSince (fun _ => 0) (setup true false true 0) none otaHeldSteps = some tEdge ∧
      sub32 now tEdge ≥ 5000 :=
  ⟨rfl, by decide, by decide,
   (mode_flag_only_by_exit_gesture (fun _ => 0) true false true 0 otaHeldSteps otaHeld rfl
      (Step.handleButtonPress 5100 true sampleDraw)
      (handleButtonPress otaHeld 5100 true sampleDraw) rfl).2 (by decide) (by decide)⟩

/-! ## The loop and the watchdog -/

/-- No block of `handleButtonPress`, and none of the functions called by `loop`, feeds
the watchdog. -/
theorem cycleBLEDevice_wdt (s : State) (rnd : BleDraw) :
    List.count Event.wdtReset (cycleBLEDevice s rnd).log = List.count Event.wdtReset s.log := by
  unfold cycleBLEDevice
  split <;> simp

/-- The session-start block does not feed the watchdog. -/
theorem startOperation_wdt (s : State) (now : Nat) (rnd : BleDraw) :
    List.count Event.wdtReset (handleButtonPress_startOperation s now rnd).log =
      List.count Event.wdtReset s.log := by
  unfold handleButtonPress_startOperation
  simp only []
  split <;> simp [cycleBLEDevice_wdt]

/-- The rising-edge block does not feed the watchdog. -/
theorem risingEdge_wdt (s : State) (now : Nat) (rnd : BleDraw) :
    List.count Event.wdtReset (handleButtonPress_risingEdge s now rnd).log =
      List.count Event.wdtReset s.log := by
  unfold handleButtonPress_risingEdge
  simp only []
  split_ifs <;> simp [startOperation_wdt]

/-- The OTA-exit block does not feed the watchdog. -/
theorem exitOta_wdt (s : State) (now : Nat) :
    List.count Event.wdtReset (handleButtonPress_exitOta s now).log =
      List.count Event.wdtReset s.log := by
  rw [exitOta_log]
  split <;> simp

/-- The session-end block does not feed the watchdog. -/
theorem endSession_wdt (s : State) :
    List.count Event.wdtReset (endSession s).log = List.count Event.wdtReset s.log := by
  unfold endSession
  simp only []
  split <;> simp [digitalWrite]

/-- The function `handleButtonPress` neither feeds the watchdog nor writes the feed time. -/
theorem handleButtonPress_wdt (s : State) (now : Nat) (level : Bool) (rnd : BleDraw) :
    List.count Event.wdtReset (handleButtonPress s now level rnd).log =
      List.count Event.wdtReset s.log ∧
    (handleButtonPress s now level rnd).lastWatchdogFeed = s.lastWatchdogFeed := by
  unfold handleButtonPress
  by_cases hd : sub32 now s.lastButtonCheck ≥ BUTTON_DEBOUNCE_MS
  · cases level <;> cases h1 : s.lastButtonState <;> cases h2 : s.isOtaMode <;>
      cases h3 : s.otaExitInProgress <;>
      simp [hd, h1, h2, h3, risingEdge_fields, exitOta_fields, risingEdge_wdt] <;>
      split_ifs <;> simp [risingEdge_fields, exitOta_fields, risingEdge_wdt, exitOta_wdt]
  · simp [hd]

/-- The function `updateStateMachine` neither feeds the watchdog nor writes the feed time. -/
theorem updateStateMachine_wdt (s : State) (now : Nat) (button : Bool) :
    List.count Event.wdtReset (updateStateMachine s now button).log =
      List.count Event.wdtReset s.log ∧
    (updateStateMachine s now button).lastWatchdogFeed = s.lastWatchdogFeed := by
  unfold updateStateMachine
  split <;> (try split_ifs) <;> simp [endSession_fields, endSession_wdt]

/-- The session-gated block neither feeds the watchdog nor writes the feed time. -/
theorem loop_activities_wdt (sinTurn : ℚ → ℚ) (s a : State) (i : PassInput)
    (h : loop_activities sinTurn s i = some a) :
    List.count Event.wdtReset a.log = List.count Event.wdtReset s.log ∧
    a.lastWatchdogFeed = s.lastWatchdogFeed := by
  unfold loop_activities at h
  split_ifs at h
  · cases hsend : sendNextIrCode (handleMagicalGlow sinTurn s i.glowNow) with
    | none => rw [hsend] at h; exact absurd h (by simp)
    | some b =>
      rw [hsend] at h
      simp only [Option.some.injEq] at h
      have hb : List.count Event.wdtReset b.log = List.count Event.wdtReset s.log ∧
          b.lastWatchdogFeed = s.lastWatchdogFeed := by
        unfold sendNextIrCode at hsend
        split_ifs at hsend
        split at hsend
        · simp only [Option.some.injEq] at hsend
          rw [← hsend]
          unfold handleMagicalGlow
          by_cases hd : sub32 i.glowNow s.lastUpdate ≥ 10 <;> cases hbr : s.breathingActive <;>
            simp [hd, hbr]
        · exact absurd hsend (by simp)
      rw [← h, ← hb.1, ← hb.2]
      unfold handleBLESpoofing
      split_ifs <;> simp [cycleBLEDevice_wdt]
  · simp only [Option.some.injEq] at h
    rw [← h]
    exact ⟨rfl, rfl⟩

/-- One pass feeds the watchdog exactly when its start time is at least 5000 ms (32-bit)
past the stored feed time, and then stores the start time. -/
theorem loop_watchdog_effect (sinTurn : ℚ → ℚ) (s s' : State) (i : PassInput)
    (h : loop sinTurn s i = some s') :
    (sub32 i.now s.lastWatchdogFeed ≥ 5000 →
      List.count Event.wdtReset s'.log = List.count Event.wdtReset s.log + 1 ∧
      s'.lastWatchdogFeed = i.now) ∧
    (¬ sub32 i.now s.lastWatchdogFeed ≥ 5000 →
      List.count Event.wdtReset s'.log = List.count Event.wdtReset s.log ∧
      s'.lastWatchdogFeed = s.lastWatchdogFeed) := by
  unfold loop at h
  cases hact : loop_activities sinTurn (loop_stateMachine s i) i with
  | none => rw [hact] at h; exact absurd h (by simp)
  | some a =>
    rw [hact] at h
    simp only [Option.some.injEq] at h
    obtain ⟨ha1, ha2⟩ := loop_activities_wdt sinTurn _ a i hact
    have hsm : List.count Event.wdtReset (loop_stateMachine s i).log =
          List.count Event.wdtReset (loop_head s i).log ∧
        (loop_stateMachine s i).lastWatchdogFeed = (loop_head s i).lastWatchdogFeed := by
      unfold loop_stateMachine
      rw [(updateStateMachine_wdt _ _ _).1, (updateStateMachine_wdt _ _ _).2,
        (handleButtonPress_wdt _ _ _ _).1, (handleButtonPress_wdt _ _ _ _).2]
      exact ⟨rfl, rfl⟩
    have hdbg : List.count Event.wdtReset (loop_head s i).log =
          List.count Event.wdtReset (loop_watchdog s i.now).log ∧
        (loop_head s i).lastWatchdogFeed = (loop_watchdog s i.now).lastWatchdogFeed := by
      unfold loop_head loop_debug
      simp only []
      split_ifs <;> simp [digitalWrite]
    have htail : List.count Event.wdtReset s'.log = List.count Event.wdtReset a.log ∧
        s'.lastWatchdogFeed = a.lastWatchdogFeed := by
      rw [← h]
      unfold loop_tail
      simp only []
      split_ifs <;> simp
    rw [htail.1, htail.2, ha1, ha2, hsm.1, hsm.2, hdbg.1, hdbg.2]
    unfold loop_watchdog
    constructor
    · intro hg
      simp [hg]
    · intro hg
      simp [hg]

/-- The watchdog and debug blocks neither move the emission cursor nor send a pattern. -/
theorem loop_head_cursor (s : State) (i : PassInput) :
    (loop_head s i).currentCommandIndex = s.currentCommandIndex ∧
    irSent (loop_head s i).log = irSent s.log := by
  unfold loop_head loop_debug loop_watchdog
  simp only []
  split_ifs <;> simp [digitalWrite, irSent_append, irSent]

/-- The end of the pass neither moves the emission cursor nor sends a pattern. -/
theorem loop_tail_cursor (s : State) (now : Nat) :
    (loop_tail s now).currentCommandIndex = s.currentCommandIndex ∧
    irSent (loop_tail s now).log = irSent s.log := by
  unfold loop_tail
  simp only []
  split_ifs <;> simp [irSent_append, irSent]

/-- The state machine part of the pass neither moves the emission cursor nor sends a
pattern. -/
theorem loop_stateMachine_cursor (s : State) (i : PassInput) :
    (loop_stateMachine s i).currentCommandIndex = s.currentCommandIndex ∧
    irSent (loop_stateMachine s i).log = irSent s.log := by
  unfold loop_stateMachine
  obtain ⟨s1, h1, hc1, hl1⟩ := step_keeps_cursor (fun _ => 0)
    (handleButtonPress (loop_head s i) i.buttonNow i.buttonLevel i.buttonRnd)
    (Step.updateStateMachine i.updateNow i.updateLevel) (by simp)
  simp only [step, Option.some.injEq] at h1
  subst h1
  rw [hc1, hl1, (handleButtonPress_cursor _ _ _ _).1, (handleButtonPress_cursor _ _ _ _).2]
  exact loop_head_cursor s i

/-- The session-gated block, with the cursor at a table index `c`: outside a session it
returns its input state; inside it returns a state, has sent the pattern at `c` and has
moved the cursor to `(c + 1) % 21`. -/
theorem loop_activities_cursor (sinTurn : ℚ → ℚ) (s : State) (i : PassInput) (c : Nat)
    (hc : c < numCommands) (hs : s.currentCommandIndex = (c : Int)) :
    (s.currentState = DeviceState.STATE_IDLE → loop_activities sinTurn s i = some s) ∧
    (s.currentState ≠ DeviceState.STATE_IDLE →
      ∃ a cmd, loop_activities sinTurn s i = some a ∧ irCommands[c]? = some cmd ∧
        a.currentCommandIndex = (((c + 1) % numCommands : Nat) : Int) ∧
        irSent a.log = irSent s.log ++ [(c, cmd)]) := by
  constructor
  · intro hidle
    unfold loop_activities
    simp [hidle]
  · intro hact
    have hcond : s.currentState = DeviceState.STATE_CHECKING_PRESS ∨
        s.currentState = DeviceState.STATE_RUNNING_SHORT ∨
        s.currentState = DeviceState.STATE_RUNNING_LONG := by
      cases hcs : s.currentState <;> simp_all
    obtain ⟨g, hg, hgc, hgl⟩ := step_keeps_cursor sinTurn s (Step.handleMagicalGlow i.glowNow)
      (by simp)
    simp only [step, Option.some.injEq] at hg
    subst hg
    obtain ⟨b, cmd, hsend, hget, hbc, hbl⟩ :=
      sendNextIrCode_in_range (handleMagicalGlow sinTurn s i.glowNow) c hc (hgc.trans hs)
    obtain ⟨e, he, hec, hel⟩ := step_keeps_cursor sinTurn b
      (Step.handleBLESpoofing i.spoofNow i.spoofRnd) (by simp)
    simp only [step, Option.some.injEq] at he
    subst he
    refine ⟨_, cmd, ?_, hget, hec.trans hbc, ?_⟩
    · unfold loop_activities
      simp only [hcond, if_true, hsend]
    · rw [hel, hbl, hgl]

/-- With the cursor at a table index, a pass of `loop` returns a state whose cursor is
again a table index. -/
theorem loop_returns (sinTurn : ℚ → ℚ) (s : State) (i : PassInput) (c : Nat)
    (hc : c < numCommands) (hs : s.currentCommandIndex = (c : Int)) :
    ∃ s' c', loop sinTurn s i = some s' ∧ c' < numCommands ∧
      s'.currentCommandIndex = (c' : Int) := by
  have hsm := (loop_stateMachine_cursor s i).1.trans hs
  obtain ⟨hidle, hact⟩ := loop_activities_cursor sinTurn (loop_stateMachine s i) i c hc hsm
  by_cases h : (loop_stateMachine s i).currentState = DeviceState.STATE_IDLE
  · refine ⟨loop_tail (loop_stateMachine s i) i.now, c, ?_, hc, ?_⟩
    · unfold loop
      rw [hidle h]
    · rw [(loop_tail_cursor _ _).1]; exact hsm
  · obtain ⟨a, cmd, ha, _, hac, _⟩ := hact h
    refine ⟨loop_tail a i.now, (c + 1) % numCommands, ?_,
      Nat.mod_lt _ (by rw [numCommands_eq]; decide), ?_⟩
    · unfold loop
      rw [ha]
    · rw [(loop_tail_cursor _ _).1]; exact hac

/-- With the cursor at a table index, every run of passes returns a state. -/
theorem loopRun_returns (sinTurn : ℚ → ℚ) (passes : List PassInput) :
    ∀ (s : State) (c : Nat), c < numCommands → s.currentCommandIndex = (c : Int) →
      ∃ s', loopRun sinTurn s passes = some s' := by
  induction passes with
  | nil => intro s c _ _; exact ⟨s, rfl⟩
  | cons i rest ih =>
    intro s c hc hs
    obtain ⟨s1, c1, h1, hc1, hs1⟩ := loop_returns sinTurn s i c hc hs
    obtain ⟨s', h'⟩ := ih s1 c1 hc1 hs1
    exact ⟨s', by rw [loopRun, h1]; exact h'⟩

/-- The feeds of a run of passes are spaced by at least 5000 ms and by less than
5000 ms plus the largest gap `d` between passes. -/
theorem feedTimes_chain (sinTurn : ℚ → ℚ) (d : Nat) (passes : List PassInput) :
    ∀ s : State,
      (∀ i ∈ passes, i.now < 4294967296) →
      (∀ i ∈ passes.head?, s.lastWatchdogFeed ≤ i.now ∧
        i.now < s.lastWatchdogFeed + 5000 + d) →
      List.Chain' (fun a b => a ≤ b ∧ b ≤ a + d) (passes.map PassInput.now) →
      List.Chain (fun a b => a + 5000 ≤ b ∧ b < a + 5000 + d) s.lastWatchdogFeed
        (feedTimes sinTurn s passes) := by
  induction passes with
  | nil => intro s _ _ _; exact List.Chain.nil
  | cons i rest ih =>
    intro s hrange hfirst hchain
    have hi := hfirst i (by simp)
    have hir := hrange i (List.mem_cons_self _ _)
    have hrange' : ∀ j ∈ rest, j.now < 4294967296 :=
      fun j hj => hrange j (List.mem_cons_of_mem _ hj)
    have hchain' : List.Chain' (fun a b => a ≤ b ∧ b ≤ a + d) (rest.map PassInput.now) := by
      simp only [List.map_cons] at hchain
      exact hchain.tail
    have hnext : ∀ j ∈ rest.head?, i.now ≤ j.now ∧ j.now ≤ i.now + d := by
      intro j hj
      cases rest with
      | nil => simp at hj
      | cons j' rest' =>
        simp only [List.head?_cons, Option.mem_def, Option.some.injEq] at hj
        subst hj
        simp only [List.map_cons, List.chain'_cons] at hchain
        exact hchain.1
    cases hloop : loop sinTurn s i with
    | none => rw [feedTimes, hloop]; exact List.Chain.nil
    | some s' =>
      rw [feedTimes, hloop]
      simp only [Option.elim]
      obtain ⟨hyes, hno⟩ := loop_watchdog_effect sinTurn s s' i hloop
      by_cases hg : sub32 i.now s.lastWatchdogFeed ≥ 5000
      · obtain ⟨hcnt, hlwf⟩ := hyes hg
        have hge : s.lastWatchdogFeed + 5000 ≤ i.now := by
          unfold sub32 at hg
          omega
        rw [if_pos (by omega)]
        refine List.Chain.cons ⟨hge, hi.2⟩ ?_
        have := ih s' hrange' (by
          intro j hj
          rw [hlwf]
          have := hnext j hj
          omega) hchain'
        rw [hlwf] at this
        exact this
      · obtain ⟨hcnt, hlwf⟩ := hno hg
        have hlt : i.now < s.lastWatchdogFeed + 5000 := by
          unfold sub32 at hg
          omega
        rw [if_neg (by omega)]
        have := ih s' hrange' (by
          intro j hj
          rw [hlwf]
          have := hnext j hj
          omega) hchain'
        rw [hlwf] at this
        exact this

set_option maxRecDepth 1000000 in
/-- C13 fails as stated: with idle passes every 15 ms from 4990 ms after boot, the
watchdog is fed in the passes starting at 5005 ms and at 10015 ms, which is 5010 ms
later. -/
theorem watchdog_feed_gap_counterexample :
    feedTimes (fun _ => 0) (setup false false true 0) idlePasses = [5005, 10015] ∧
    ¬ (10015 - 5005 ≤ 5000) := by
  decide

/-- C13 as amended: a pass of `loop` feeds the watchdog exactly when it starts at least
5000 ms (32-bit) after the stored feed time, which is 0 at boot and the start of the
feeding pass afterwards. Hence, for passes with non-decreasing 32-bit start times, the
first less than `5000 + d` ms after the stored feed time and consecutive ones at most
`d` ms apart, the run returns a state, and the time from the stored feed time to the first
feed and between any two consecutive feeds is at least 5000 ms and less than
`5000 + d` ms. -/
theorem watchdog_feed_spacing (sinTurn : ℚ → ℚ) (s : State) (passes : List PassInput)
    (d c : Nat) (hc : c < numCommands) (hs : s.currentCommandIndex = (c : Int))
    (hrange : ∀ i ∈ passes, i.now < 4294967296)
    (hfirst : ∀ i ∈ passes.head?, s.lastWatchdogFeed ≤ i.now ∧
      i.now < s.lastWatchdogFeed + 5000 + d)
    (hchain : List.Chain' (fun a b => a ≤ b ∧ b ≤ a + d) (passes.map PassInput.now)) :
    (∃ s', loopRun sinTurn s passes = some s') ∧
    List.Chain (fun a b => a + 5000 ≤ b ∧ b < a + 5000 + d) s.lastWatchdogFeed
      (feedTimes sinTurn s passes) ∧
    (∀ (a a' : State) (i : PassInput), loop sinTurn a i = some a' →
      (sub32 i.now a.lastWatchdogFeed ≥ 5000 →
        List.count Event.wdtReset a'.log = List.count Event.wdtReset a.log + 1 ∧
        a'.lastWatchdogFeed = i.now) ∧
      (¬ sub32 i.now a.lastWatchdogFeed ≥ 5000 →
        List.count Event.wdtReset a'.log = List.count Event.wdtReset a.log ∧
        a'.lastWatchdogFeed = a.lastWatchdogFeed)) :=
  ⟨loopRun_returns sinTurn passes s c hc hs,
   feedTimes_chain sinTurn d passes s hrange hfirst hchain,
   fun a a' i h => loop_watchdog_effect sinTurn a a' i h⟩

/-- C13 as amended, at a concrete input: idle passes every 1000 ms from 1000 ms after
boot feed the watchdog at 5000 ms and at 10000 ms. -/
theorem watchdog_feed_spacing_witness :
    feedTimes (fun _ => 0) (setup false false true 0) slowPasses = [5000, 10000] ∧
    List.Chain (fun a b => a + 5000 ≤ b ∧ b < a + 5000 + 1000) 0
      (feedTimes (fun _ => 0) (setup false false true 0) slowPasses) :=
  ⟨by decide,
   (watchdog_feed_spacing (fun _ => 0) (setup false false true 0) slowPasses 1000 0
      (by decide) rfl (by decide) (by decide)
      (by simp [slowPasses, passAt, List.range, List.range.loop])).2.1⟩

/-! ## Session-gated activities of a pass -/

/-- One call of `cycleBLEDevice` with the beacon up starts advertising once. -/
theorem cycleBLEDevice_rotations (s : State) (rnd : BleDraw) :
    List.count Event.bleStart (cycleBLEDevice s rnd).log =
      List.count Event.bleStart s.log +
        (if s.bleInitialized = true ∧ s.pAdvertising = true then 1 else 0) := by
  unfold cycleBLEDevice
  cases hb : s.bleInitialized <;> cases hp : s.pAdvertising <;> simp

/-- The session-start block performs one rotation when the beacon is up. -/
theorem startOperation_rotations (s : State) (now : Nat) (rnd : BleDraw) :
    List.count Event.bleStart (handleButtonPress_startOperation s now rnd).log =
      List.count Event.bleStart s.log +
        (if s.bleInitialized = true ∧ s.pAdvertising = true then 1 else 0) := by
  unfold handleButtonPress_startOperation
  cases hb : s.bleInitialized <;> cases hp : s.pAdvertising <;>
    simp [hb, hp, cycleBLEDevice_rotations]

/-- The rising-edge block performs a rotation only when it starts a session. -/
theorem risingEdge_rotations (s : State) (now : Nat) (rnd : BleDraw) :
    List.count Event.bleStart (handleButtonPress_risingEdge s now rnd).log =
      List.count Event.bleStart s.log +
        (if s.currentState = DeviceState.STATE_IDLE ∧ s.bleInitialized = true ∧
            s.pAdvertising = true then 1 else 0) := by
  unfold handleButtonPress_risingEdge
  by_cases hi : s.currentState = DeviceState.STATE_IDLE <;> cases h2 : s.isOtaMode <;>
    simp [hi, h2, startOperation_rotations]

/-- The OTA-exit block performs no rotation. -/
theorem exitOta_rotations (s : State) (now : Nat) :
    List.count Event.bleStart (handleButtonPress_exitOta s now).log =
      List.count Event.bleStart s.log := by
  rw [exitOta_log]
  split <;> simp

/-- The session-end block performs no rotation. -/
theorem endSession_rotations (s : State) :
    List.count Event.bleStart (endSession s).log = List.count Event.bleStart s.log := by
  unfold endSession
  simp only []
  split <;> simp [digitalWrite]

/-- The function `handleButtonPress` performs one rotation when it starts a session with
the beacon up, and none otherwise. -/
theorem handleButtonPress_rotations (s : State) (now : Nat) (level : Bool) (rnd : BleDraw) :
    List.count Event.bleStart (handleButtonPress s now level rnd).log =
      List.count Event.bleStart s.log +
        (if sub32 now s.lastButtonCheck ≥ BUTTON_DEBOUNCE_MS ∧ level = true ∧
            s.lastButtonState = false ∧ s.currentState = DeviceState.STATE_IDLE ∧
            s.bleInitialized = true ∧ s.pAdvertising = true then 1 else 0) := by
  unfold handleButtonPress
  by_cases hd : sub32 now s.lastButtonCheck ≥ BUTTON_DEBOUNCE_MS
  · cases level <;> cases h1 : s.lastButtonState <;> cases h2 : s.isOtaMode <;>
      cases h3 : s.otaExitInProgress <;>
      simp [hd, h1, h2, h3, risingEdge_fields, exitOta_fields, risingEdge_rotations] <;>
      split_ifs <;>
      simp_all [risingEdge_fields, exitOta_fields, risingEdge_rotations, exitOta_rotations]
  · simp [hd]

/-- The function `updateStateMachine` performs no rotation. -/
theorem updateStateMachine_rotations (s : State) (now : Nat) (button : Bool) :
    List.count Event.bleStart (updateStateMachine s now button).log =
      List.count Event.bleStart s.log := by
  unfold updateStateMachine
  split <;> (try split_ifs) <;> simp [endSession_rotations]

/-- The watchdog and debug blocks leave the session state alone and perform no rotation. -/
theorem loop_head_session (s : State) (i : PassInput) :
    (loop_head s i).currentState = s.currentState ∧
    List.count Event.bleStart (loop_head s i).log = List.count Event.bleStart s.log := by
  unfold loop_head loop_debug loop_watchdog
  simp only []
  split_ifs <;> simp [digitalWrite]

/-- The end of the pass leaves the session state alone and performs no rotation. -/
theorem loop_tail_session (s : State) (now : Nat) :
    (loop_tail s now).currentState = s.currentState ∧
    List.count Event.bleStart (loop_tail s now).log = List.count Event.bleStart s.log := by
  unfold loop_tail
  simp only []
  split_ifs <;> simp

/-- From `ClassifyingPress`, `updateStateMachine` never goes to `Idle`. -/
theorem updateStateMachine_classifying (s : State) (now : Nat) (button : Bool)
    (h : s.currentState = DeviceState.STATE_CHECKING_PRESS) :
    (updateStateMachine s now button).currentState ≠ DeviceState.STATE_IDLE := by
  unfold updateStateMachine
  simp only [h]
  cases button <;> (try split_ifs) <;> simp [h]

/-- C18: with the cursor at a table index `c`, a pass of `loop` returns a state; it sends
a pattern exactly when the session state left by its `handleButtonPress` and
`updateStateMachine` calls is not `Idle`, and then exactly one, the pattern at `c`; a pass
in which the session ends sends nothing and performs no beacon rotation; a pass in which
`handleButtonPress` starts a session sends one pattern. -/
theorem loop_emission_gated (sinTurn : ℚ → ℚ) (s : State) (i : PassInput) (c : Nat)
    (hc : c < numCommands) (hs : s.currentCommandIndex = (c : Int)) :
    ∃ s', loop sinTurn s i = some s' ∧
      ((loop_stateMachine s i).currentState ≠ DeviceState.STATE_IDLE →
        ∃ cmd, irCommands[c]? = some cmd ∧ irSent s'.log = irSent s.log ++ [(c, cmd)]) ∧
      ((loop_stateMachine s i).currentState = DeviceState.STATE_IDLE →
        irSent s'.log = irSent s.log) ∧
      (s.currentState ≠ DeviceState.STATE_IDLE →
        (loop_stateMachine s i).currentState = DeviceState.STATE_IDLE →
        irSent s'.log = irSent s.log ∧
        List.count Event.bleStart s'.log = List.count Event.bleStart s.log) ∧
      (s.currentState = DeviceState.STATE_IDLE →
        (handleButtonPress (loop_head s i) i.buttonNow i.buttonLevel
          i.buttonRnd).currentState ≠ DeviceState.STATE_IDLE →
        ∃ cmd, irCommands[c]? = some cmd ∧ irSent s'.log = irSent s.log ++ [(c, cmd)]) := by
  have hsm := loop_stateMachine_cursor s i
  obtain ⟨hidle, hact⟩ :=
    loop_activities_cursor sinTurn (loop_stateMachine s i) i c hc (hsm.1.trans hs)
  by_cases h : (loop_stateMachine s i).currentState = DeviceState.STATE_IDLE
  · have hloop : loop sinTurn s i = some (loop_tail (loop_stateMachine s i) i.now) := by
      unfold loop
      rw [hidle h]
    have hir : irSent (loop_tail (loop_stateMachine s i) i.now).log = irSent s.log := by
      rw [(loop_tail_cursor _ _).2, hsm.2]
    refine ⟨_, hloop, fun hne => absurd h hne, fun _ => hir, ?_, ?_⟩
    · intro hne _
      refine ⟨hir, ?_⟩
      rw [(loop_tail_session _ _).2]
      unfold loop_stateMachine
      rw [updateStateMachine_rotations, handleButtonPress_rotations, (loop_head_session s i).1,
        (loop_head_session s i).2]
      simp [hne]
    · intro hi hstart
      exfalso
      rcases handleButtonPress_currentState (loop_head s i) i.buttonNow i.buttonLevel
        i.buttonRnd with e | ⟨e, _⟩ | e
      · exact hstart (e.trans ((loop_head_session s i).1.trans hi))
      · exact updateStateMachine_classifying _ i.updateNow i.updateLevel e h
      · exact hstart e
  · obtain ⟨a, cmd, ha, hget, _, hal⟩ := hact h
    have hloop : loop sinTurn s i = some (loop_tail a i.now) := by
      unfold loop
      rw [ha]
    have hir : irSent (loop_tail a i.now).log = irSent s.log ++ [(c, cmd)] := by
      rw [(loop_tail_cursor _ _).2, hal, hsm.2]
    exact ⟨_, hloop, fun _ => ⟨cmd, hget, hir⟩, fun e => absurd e h,
      fun _ e => absurd e h, fun _ _ => ⟨cmd, hget, hir⟩⟩

/-- C18 at concrete inputs: the pass at 100 ms in which the press starts a session sends
the pattern at index 0; the pass at 10100 ms in which the short session of `shortSession`
ends sends nothing. -/
theorem loop_emission_gated_witness :
    (∃ s', loop (fun _ => 0) (setup false false true 0) (passAt 100 true) = some s' ∧
      irSent s'.log = [(0, ⟨Protocol.SAMSUNG, 0xE0E040BF, 32⟩)]) ∧
    (∃ s', loop (fun _ => 0) shortSession (passAt 10100 false) = some s' ∧
      irSent s'.log = irSent shortSession.log) := by
  obtain ⟨a, ha, _, _, _, hstart⟩ := loop_emission_gated (fun _ => 0)
    (setup false false true 0) (passAt 100 true) 0 (by decide) rfl
  obtain ⟨b, hb, _, _, hend, _⟩ := loop_emission_gated (fun _ => 0)
    shortSession (passAt 10100 false) 0 (by decide) rfl
  refine ⟨⟨a, ha, ?_⟩, ⟨b, hb, (hend (by decide) (by decide)).1⟩⟩
  obtain ⟨cmd, hget, hlog⟩ := hstart rfl (by decide)
  have hcmd : cmd = ⟨Protocol.SAMSUNG, 0xE0E040BF, 32⟩ := by
    have : irCommands[0]? = some ⟨Protocol.SAMSUNG, 0xE0E040BF, 32⟩ := rfl
    rw [this] at hget
    exact (Option.some.inj hget).symm
  rw [hlog, hcmd]
  decide

/-! ## Beacon bring-up failure -/

/-- Removing the beacon calls of a concatenated log. -/
theorem withoutBle_append (a b : List Event) :
    withoutBle (a ++ b) = withoutBle a ++ withoutBle b := by
  simp [withoutBle]

/-- Removing the beacon calls twice. -/
theorem withoutBle_idem (a : List Event) : withoutBle (withoutBle a) = withoutBle a := by
  simp [withoutBle, List.filter_filter]

/-- Blanking the beacon twice. -/
theorem eraseBle_idem (s : State) : eraseBle (eraseBle s) = eraseBle s := by
  simp [eraseBle, withoutBle_idem]

/-- A rotation changes nothing outside the beacon. -/
theorem cycleBLEDevice_eraseBle (s : State) (rnd : BleDraw) :
    eraseBle (cycleBLEDevice s rnd) = eraseBle s := by
  unfold cycleBLEDevice
  split <;> simp [eraseBle, withoutBle, Event.isBle]

/-- The session-start block does the same outside the beacon whether the beacon is up
or not. -/
theorem startOperation_eraseBle (s : State) (now : Nat) (rnd : BleDraw) :
    eraseBle (handleButtonPress_startOperation s now rnd) =
      eraseBle (handleButtonPress_startOperation (eraseBle s) now rnd) := by
  unfold handleButtonPress_startOperation
  cases hb : s.bleInitialized
  · simp [hb, eraseBle, withoutBle_append, withoutBle_idem]
  · simp only [hb, if_true]
    rw [cycleBLEDevice_eraseBle]
    simp [eraseBle, withoutBle_append, withoutBle_idem]

/-- The identity is blind to the beacon. -/
theorem bleBlind_id : BleBlind (fun s => s) :=
  fun s => (eraseBle_idem s).symm

/-- Two blind functions in sequence are blind. -/
theorem bleBlind_comp {f g : State → State} (hf : BleBlind f) (hg : BleBlind g) :
    BleBlind (fun s => g (f s)) := by
  intro s
  show eraseBle (g (f s)) = eraseBle (g (f (eraseBle s)))
  rw [hg (f s), hf s, ← hg (f (eraseBle s))]

/-- A choice between two blind functions on a condition that does not read the beacon
is blind. -/
theorem bleBlind_cond {f g : State → State} (c : State → Prop) [∀ s, Decidable (c s)]
    (hc : ∀ s, c (eraseBle s) ↔ c s) (hf : BleBlind f) (hg : BleBlind g) :
    BleBlind (fun s => if c s then f s else g s) := by
  intro s
  show eraseBle (if c s then f s else g s) =
    eraseBle (if c (eraseBle s) then f (eraseBle s) else g (eraseBle s))
  by_cases h : c s
  · rw [if_pos h, if_pos ((hc s).mpr h)]; exact hf s
  · rw [if_neg h, if_neg (fun h' => h ((hc s).mp h'))]; exact hg s

/-- The rising-edge block is blind to the beacon. -/
theorem risingEdge_bleBlind (now : Nat) (rnd : BleDraw) :
    BleBlind (fun s => handleButtonPress_risingEdge s now rnd) := by
  intro s
  show eraseBle (handleButtonPress_risingEdge s now rnd) =
    eraseBle (handleButtonPress_risingEdge (eraseBle s) now rnd)
  unfold handleButtonPress_risingEdge
  have h1 : (eraseBle s).isOtaMode = s.isOtaMode := rfl
  have h2 : (eraseBle s).currentState = s.currentState := rfl
  by_cases hi : s.currentState = DeviceState.STATE_IDLE <;> cases ho : s.isOtaMode
  · simp only [h1, h2, ho, hi, if_true, Bool.false_eq_true, if_false]
    rw [startOperation_eraseBle]
    congr 1
  · simp only [h1, h2, ho, hi, if_true]
    rw [startOperation_eraseBle]
    congr 1
  · simp [h1, h2, ho, hi, eraseBle, withoutBle_idem]
  · simp [h1, h2, ho, hi, eraseBle, withoutBle_idem]

/-- The OTA-exit block is blind to the beacon. -/
theorem exitOta_bleBlind (now : Nat) : BleBlind (fun s => handleButtonPress_exitOta s now) := by
  intro s
  show eraseBle (handleButtonPress_exitOta s now) =
    eraseBle (handleButtonPress_exitOta (eraseBle s) now)
  unfold handleButtonPress_exitOta
  cases hb : s.bleInitialized <;> cases hp : s.pAdvertising <;>
    simp [hb, hp, eraseBle, digitalWrite, withoutBle, Event.isBle, List.filter_filter]

/-- The session-end block is blind to the beacon. -/
theorem endSession_bleBlind : BleBlind endSession := by
  intro s
  unfold endSession
  cases hb : s.bleInitialized <;> cases hp : s.pAdvertising <;>
    simp [hb, hp, eraseBle, digitalWrite, withoutBle, Event.isBle, List.filter_filter]

/-- The function `handleButtonPress` is blind to the beacon. -/
theorem handleButtonPress_bleBlind (now : Nat) (level : Bool) (rnd : BleDraw) :
    BleBlind (fun s => handleButtonPress s now level rnd) := by
  have hstage1 : BleBlind (fun x : State =>
      if (level && !x.lastButtonState) = true then handleButtonPress_risingEdge x now rnd
      else x) :=
    bleBlind_cond (fun x : State => (level && !x.lastButtonState) = true)
      (fun _ => Iff.rfl) (risingEdge_bleBlind now rnd) bleBlind_id
  have hstage2 : BleBlind (fun x : State =>
      if (x.isOtaMode && level && x.otaExitInProgress) = true then
        (if sub32 now x.otaModeExitStartTime ≥ 5000 then handleButtonPress_exitOta x now
          else x)
      else x) :=
    bleBlind_cond (fun x : State => (x.isOtaMode && level && x.otaExitInProgress) = true)
      (fun _ => Iff.rfl)
      (bleBlind_cond (fun x : State => sub32 now x.otaModeExitStartTime ≥ 5000)
        (fun _ => Iff.rfl) (exitOta_bleBlind now) bleBlind_id)
      bleBlind_id
  have hstage3 : BleBlind (fun x : State =>
      if (!level && x.otaExitInProgress) = true then { x with otaExitInProgress := false }
      else x) :=
    bleBlind_cond (fun x : State => (!level && x.otaExitInProgress) = true)
      (fun _ => Iff.rfl)
      (fun x => by simp [eraseBle, withoutBle_idem]) bleBlind_id
  have hstage4 : BleBlind (fun x : State =>
      { x with lastButtonState := level, lastButtonCheck := now }) :=
    fun x => by simp [eraseBle, withoutBle_idem]
  exact bleBlind_cond (fun x : State => sub32 now x.lastButtonCheck ≥ BUTTON_DEBOUNCE_MS)
    (fun _ => Iff.rfl)
    (bleBlind_comp (bleBlind_comp (bleBlind_comp hstage1 hstage2) hstage3) hstage4)
    bleBlind_id

/-- The function `updateStateMachine` is blind to the beacon. -/
theorem updateStateMachine_bleBlind (now : Nat) (button : Bool) :
    BleBlind (fun s => updateStateMachine s now button) := by
  intro s
  show eraseBle (updateStateMachine s now button) =
    eraseBle (updateStateMachine (eraseBle s) now button)
  have h2 : (eraseBle s).currentState = s.currentState := rfl
  have h3 : (eraseBle s).lastButtonPressTime = s.lastButtonPressTime := rfl
  have h4 : (eraseBle s).operationStartTime = s.operationStartTime := rfl
  unfold updateStateMachine
  rw [h2, h3, h4]
  cases hcs : s.currentState
  · exact (eraseBle_idem s).symm
  · simp only []
    split_ifs <;> simp [eraseBle, withoutBle, Event.isBle, List.filter_filter]
  · simp only []
    split_ifs
    · exact endSession_bleBlind s
    · exact (eraseBle_idem s).symm
  · simp only []
    split_ifs
    · exact endSession_bleBlind s
    · exact (eraseBle_idem s).symm

/-- The function `handleMagicalGlow` is blind to the beacon. -/
theorem handleMagicalGlow_bleBlind (sinTurn : ℚ → ℚ) (now : Nat) :
    BleBlind (fun s => handleMagicalGlow sinTurn s now) := by
  intro s
  show eraseBle (handleMagicalGlow sinTurn s now) =
    eraseBle (handleMagicalGlow sinTurn (eraseBle s) now)
  unfold handleMagicalGlow
  by_cases hd : sub32 now s.lastUpdate ≥ 10 <;> cases hb : s.breathingActive <;>
    simp [hd, hb, eraseBle, withoutBle_idem]

/-- The function `handleBLESpoofing` changes nothing outside the beacon. -/
theorem handleBLESpoofing_eraseBle (s : State) (now : Nat) (rnd : BleDraw) :
    eraseBle (handleBLESpoofing s now rnd) = eraseBle s := by
  unfold handleBLESpoofing
  split_ifs
  · rfl
  · have h := cycleBLEDevice_eraseBle s rnd
    simp only [eraseBle, State.mk.injEq] at h ⊢
    simp [h]
  · rfl

/-- The interrupt handler `onTimer` is blind to the beacon. -/
theorem onTimer_bleBlind : BleBlind onTimer := by
  intro s
  unfold onTimer
  cases hb : s.breathingActive <;>
    simp [hb, eraseBle, digitalWrite, withoutBle, Event.isBle, List.filter_filter]

/-- The OTA start callback is blind to the beacon. -/
theorem otaOnStart_bleBlind : BleBlind otaOnStart := by
  intro s
  unfold otaOnStart
  cases ht : s.timerOn <;> cases hb : s.bleInitialized <;> cases hp : s.pAdvertising <;>
    simp [ht, hb, hp, eraseBle, digitalWrite, withoutBle, Event.isBle, List.filter_filter]

/-- The function `sendNextIrCode` is blind to the beacon. -/
theorem sendNextIrCode_eraseBle (s : State) :
    (sendNextIrCode s).map eraseBle = (sendNextIrCode (eraseBle s)).map eraseBle := by
  have h1 : (eraseBle s).currentCommandIndex = s.currentCommandIndex := rfl
  unfold sendNextIrCode
  rw [h1]
  split_ifs
  · cases irCommands[s.currentCommandIndex.toNat]? with
    | none => rfl
    | some cmd =>
      simp [eraseBle, withoutBle, Event.isBle, List.filter_filter]
  · rfl

/-- The identity is quiet. -/
theorem bleQuiet_id : BleQuiet (fun s => s) :=
  fun _ h => ⟨h, rfl⟩

/-- Two quiet functions in sequence are quiet. -/
theorem bleQuiet_comp {f g : State → State} (hf : BleQuiet f) (hg : BleQuiet g) :
    BleQuiet (fun s => g (f s)) := by
  intro s h
  obtain ⟨h1, h2⟩ := hf s h
  obtain ⟨h3, h4⟩ := hg (f s) h1
  exact ⟨h3, h4.trans h2⟩

/-- A choice between two quiet functions is quiet. -/
theorem bleQuiet_cond {f g : State → State} (c : State → Prop) [∀ s, Decidable (c s)]
    (hf : BleQuiet f) (hg : BleQuiet g) : BleQuiet (fun s => if c s then f s else g s) := by
  intro s h
  show (if c s then f s else g s).bleInitialized = false ∧
    bleCalls (if c s then f s else g s).log = bleCalls s.log
  by_cases hc : c s
  · rw [if_pos hc]; exact hf s h
  · rw [if_neg hc]; exact hg s h

/-- The rising-edge block is quiet. -/
theorem risingEdge_bleQuiet (now : Nat) (rnd : BleDraw) :
    BleQuiet (fun s => handleButtonPress_risingEdge s now rnd) := by
  intro s h
  show (handleButtonPress_risingEdge s now rnd).bleInitialized = false ∧
    bleCalls (handleButtonPress_risingEdge s now rnd).log = bleCalls s.log
  unfold handleButtonPress_risingEdge handleButtonPress_startOperation
  by_cases hi : s.currentState = DeviceState.STATE_IDLE <;> cases ho : s.isOtaMode <;>
    simp [hi, ho, h, bleCalls, Event.isBle]

/-- The OTA-exit block is quiet. -/
theorem exitOta_bleQuiet (now : Nat) : BleQuiet (fun s => handleButtonPress_exitOta s now) := by
  intro s h
  show (handleButtonPress_exitOta s now).bleInitialized = false ∧
    bleCalls (handleButtonPress_exitOta s now).log = bleCalls s.log
  rw [exitOta_log, (exitOta_fields s now).2.2.2.2.2.2.2.2.2.2.2.1]
  simp [h, bleCalls, Event.isBle]

/-- The session-end block is quiet. -/
theorem endSession_bleQuiet : BleQuiet endSession := by
  intro s h
  unfold endSession
  simp [h, digitalWrite, bleCalls, Event.isBle]

/-- The function `handleButtonPress` is quiet. -/
theorem handleButtonPress_bleQuiet (now : Nat) (level : Bool) (rnd : BleDraw) :
    BleQuiet (fun s => handleButtonPress s now level rnd) := by
  have hstage1 : BleQuiet (fun x : State =>
      if (level && !x.lastButtonState) = true then handleButtonPress_risingEdge x now rnd
      else x) :=
    bleQuiet_cond (fun x : State => (level && !x.lastButtonState) = true)
      (risingEdge_bleQuiet now rnd) bleQuiet_id
  have hstage2 : BleQuiet (fun x : State =>
      if (x.isOtaMode && level && x.otaExitInProgress) = true then
        (if sub32 now x.otaModeExitStartTime ≥ 5000 then handleButtonPress_exitOta x now
          else x)
      else x) :=
    bleQuiet_cond (fun x : State => (x.isOtaMode && level && x.otaExitInProgress) = true)
      (bleQuiet_cond (fun x : State => sub32 now x.otaModeExitStartTime ≥ 5000)
        (exitOta_bleQuiet now) bleQuiet_id)
      bleQuiet_id
  have hstage3 : BleQuiet (fun x : State =>
      if (!level && x.otaExitInProgress) = true then { x with otaExitInProgress := false }
      else x) :=
    bleQuiet_cond (fun x : State => (!level && x.otaExitInProgress) = true)
      (fun _ h => ⟨h, rfl⟩) bleQuiet_id
  have hstage4 : BleQuiet (fun x : State =>
      { x with lastButtonState := level, lastButtonCheck := now }) :=
    fun _ h => ⟨h, rfl⟩
  exact bleQuiet_cond (fun x : State => sub32 now x.lastButtonCheck ≥ BUTTON_DEBOUNCE_MS)
    (bleQuiet_comp (bleQuiet_comp (bleQuiet_comp hstage1 hstage2) hstage3) hstage4)
    bleQuiet_id

/-- The function `updateStateMachine` is quiet. -/
theorem updateStateMachine_bleQuiet (now : Nat) (button : Bool) :
    BleQuiet (fun s => updateStateMachine s now button) := by
  intro s h
  show (updateStateMachine s now button).bleInitialized = false ∧
    bleCalls (updateStateMachine s now button).log = bleCalls s.log
  unfold updateStateMachine
  cases hcs : s.currentState
  · exact ⟨h, rfl⟩
  · simp only []
    split_ifs <;> simp [h, bleCalls, Event.isBle]
  · simp only []
    split_ifs
    · exact endSession_bleQuiet s h
    · exact ⟨h, rfl⟩
  · simp only []
    split_ifs
    · exact endSession_bleQuiet s h
    · exact ⟨h, rfl⟩

/-- The function `handleMagicalGlow` is quiet. -/
theorem handleMagicalGlow_bleQuiet (sinTurn : ℚ → ℚ) (now : Nat) :
    BleQuiet (fun s => handleMagicalGlow sinTurn s now) := by
  intro s h
  show (handleMagicalGlow sinTurn s now).bleInitialized = false ∧
    bleCalls (handleMagicalGlow sinTurn s now).log = bleCalls s.log
  unfold handleMagicalGlow
  by_cases hd : sub32 now s.lastUpdate ≥ 10 <;> cases hb : s.breathingActive <;>
    simp [hd, hb, h]

/-- The function `handleBLESpoofing` is quiet. -/
theorem handleBLESpoofing_bleQuiet (now : Nat) (rnd : BleDraw) :
    BleQuiet (fun s => handleBLESpoofing s now rnd) := by
  intro s h
  show (handleBLESpoofing s now rnd).bleInitialized = false ∧
    bleCalls (handleBLESpoofing s now rnd).log = bleCalls s.log
  unfold handleBLESpoofing
  simp [h]

/-- The interrupt handler `onTimer` is quiet. -/
theorem onTimer_bleQuiet : BleQuiet onTimer := by
  intro s h
  unfold onTimer
  cases hb : s.breathingActive <;> simp [hb, h, digitalWrite, bleCalls, Event.isBle]

/-- The OTA start callback is quiet. -/
theorem otaOnStart_bleQuiet : BleQuiet otaOnStart := by
  intro s h
  unfold otaOnStart
  cases ht : s.timerOn <;> simp [ht, h, digitalWrite, bleCalls, Event.isBle]

/-- The function `sendNextIrCode` is quiet. -/
theorem sendNextIrCode_bleQuiet (s a : State) (h : s.bleInitialized = false)
    (hsend : sendNextIrCode s = some a) :
    a.bleInitialized = false ∧ bleCalls a.log = bleCalls s.log := by
  unfold sendNextIrCode at hsend
  split_ifs at hsend
  split at hsend
  · simp only [Option.some.injEq] at hsend
    rw [← hsend]
    simp [h, bleCalls, Event.isBle]
  · exact absurd hsend (by simp)

/-- A blind function maps states that agree outside the beacon to states that agree
outside the beacon. -/
theorem bleBlind_congr {f : State → State} (hf : BleBlind f) {x y : State}
    (h : eraseBle x = eraseBle y) : eraseBle (f x) = eraseBle (f y) := by
  rw [hf x, hf y, h]

/-- The function `sendNextIrCode` on states that agree outside the beacon. -/
theorem sendNextIrCode_congr {x y : State} (h : eraseBle x = eraseBle y) :
    (sendNextIrCode x).map eraseBle = (sendNextIrCode y).map eraseBle := by
  rw [sendNextIrCode_eraseBle x, sendNextIrCode_eraseBle y, h]

/-- The watchdog and debug blocks are blind to the beacon. -/
theorem loop_head_bleBlind (i : PassInput) : BleBlind (fun s => loop_head s i) := by
  intro s
  show eraseBle (loop_head s i) = eraseBle (loop_head (eraseBle s) i)
  have h1 : (eraseBle s).lastWatchdogFeed = s.lastWatchdogFeed := rfl
  unfold loop_head loop_debug loop_watchdog
  rw [h1]
  by_cases hw : sub32 i.now s.lastWatchdogFeed ≥ 5000 <;>
    by_cases hd : sub32 i.now s.lastDebugPrint ≥ 5000 <;> cases ho : s.isOtaMode <;>
    simp [hw, hd, ho, eraseBle, digitalWrite, withoutBle, Event.isBle, List.filter_filter]

/-- The end of the pass is blind to the beacon. -/
theorem loop_tail_bleBlind (now : Nat) : BleBlind (fun s => loop_tail s now) := by
  intro s
  show eraseBle (loop_tail s now) = eraseBle (loop_tail (eraseBle s) now)
  unfold loop_tail
  by_cases hd : sub32 now s.lastOtaHandle ≥ 50 <;> cases ho : s.isOtaMode <;>
    simp [hd, ho, eraseBle, withoutBle, Event.isBle, List.filter_filter]

/-- The state machine part of the pass is blind to the beacon. -/
theorem loop_stateMachine_bleBlind (i : PassInput) :
    BleBlind (fun s => loop_stateMachine s i) :=
  bleBlind_comp
    (bleBlind_comp (loop_head_bleBlind i)
      (handleButtonPress_bleBlind i.buttonNow i.buttonLevel i.buttonRnd))
    (updateStateMachine_bleBlind i.updateNow i.updateLevel)

/-- The session-gated block on states that agree outside the beacon. -/
theorem loop_activities_congr (sinTurn : ℚ → ℚ) (i : PassInput) {x y : State}
    (h : eraseBle x = eraseBle y) :
    (loop_activities sinTurn x i).map eraseBle = (loop_activities sinTurn y i).map eraseBle := by
  have hcs' : (eraseBle x).currentState = (eraseBle y).currentState := by rw [h]
  have hcs : x.currentState = y.currentState := hcs'
  have hg := bleBlind_congr (handleMagicalGlow_bleBlind sinTurn i.glowNow) h
  have hsend := sendNextIrCode_congr hg
  unfold loop_activities
  rw [hcs]
  split_ifs
  · cases hx : sendNextIrCode (handleMagicalGlow sinTurn x i.glowNow) with
    | none =>
      rw [hx] at hsend
      cases hy : sendNextIrCode (handleMagicalGlow sinTurn y i.glowNow) with
      | none => rfl
      | some b => rw [hy] at hsend; exact absurd hsend (by simp)
    | some a =>
      rw [hx] at hsend
      cases hy : sendNextIrCode (handleMagicalGlow sinTurn y i.glowNow) with
      | none => rw [hy] at hsend; exact absurd hsend (by simp)
      | some b =>
        rw [hy] at hsend
        simp only [Option.map_some', Option.some.injEq] at hsend ⊢
        rw [handleBLESpoofing_eraseBle, handleBLESpoofing_eraseBle, hsend]
  · simp only [Option.map_some', Option.some.injEq]
    exact h

/-- A pass of `loop` on states that agree outside the beacon. -/
theorem loop_congr (sinTurn : ℚ → ℚ) (i : PassInput) {x y : State}
    (h : eraseBle x = eraseBle y) :
    (loop sinTurn x i).map eraseBle = (loop sinTurn y i).map eraseBle := by
  have hact := loop_activities_congr sinTurn i (bleBlind_congr (loop_stateMachine_bleBlind i) h)
  unfold loop
  cases hx : loop_activities sinTurn (loop_stateMachine x i) i with
  | none =>
    rw [hx] at hact
    cases hy : loop_activities sinTurn (loop_stateMachine y i) i with
    | none => rfl
    | some b => rw [hy] at hact; exact absurd hact (by simp)
  | some a =>
    rw [hx] at hact
    cases hy : loop_activities sinTurn (loop_stateMachine y i) i with
    | none => rw [hy] at hact; exact absurd hact (by simp)
    | some b =>
      rw [hy] at hact
      simp only [Option.map_some', Option.some.injEq] at hact ⊢
      exact bleBlind_congr (loop_tail_bleBlind i.now) hact

/-- A run of passes on states that agree outside the beacon. -/
theorem loopRun_congr (sinTurn : ℚ → ℚ) (passes : List PassInput) :
    ∀ x y : State, eraseBle x = eraseBle y →
      (loopRun sinTurn x passes).map eraseBle = (loopRun sinTurn y passes).map eraseBle := by
  induction passes with
  | nil => intro x y h; simp only [loopRun, Option.map_some', h]
  | cons i rest ih =>
    intro x y h
    have hl := loop_congr sinTurn i h
    rw [loopRun, loopRun]
    cases hx : loop sinTurn x i with
    | none =>
      rw [hx] at hl
      cases hy : loop sinTurn y i with
      | none => rfl
      | some b => rw [hy] at hl; exact absurd hl (by simp)
    | some a =>
      rw [hx] at hl
      cases hy : loop sinTurn y i with
      | none => rw [hy] at hl; exact absurd hl (by simp)
      | some b =>
        rw [hy] at hl
        simp only [Option.map_some', Option.some.injEq] at hl
        exact ih a b hl

/-- One step on states that agree outside the beacon. -/
theorem step_congr (sinTurn : ℚ → ℚ) (st : Step) {x y : State}
    (h : eraseBle x = eraseBle y) :
    (step sinTurn x st).map eraseBle = (step sinTurn y st).map eraseBle := by
  cases st with
  | handleButtonPress now level rnd =>
    simp only [step, Option.map_some', Option.some.injEq]
    exact bleBlind_congr (handleButtonPress_bleBlind now level rnd) h
  | updateStateMachine now level =>
    simp only [step, Option.map_some', Option.some.injEq]
    exact bleBlind_congr (updateStateMachine_bleBlind now level) h
  | handleMagicalGlow now =>
    simp only [step, Option.map_some', Option.some.injEq]
    exact bleBlind_congr (handleMagicalGlow_bleBlind sinTurn now) h
  | sendNextIrCode => exact sendNextIrCode_congr h
  | handleBLESpoofing now rnd =>
    simp only [step, Option.map_some', Option.some.injEq]
    rw [handleBLESpoofing_eraseBle, handleBLESpoofing_eraseBle, h]
  | onTimer =>
    simp only [step, Option.map_some', Option.some.injEq]
    exact bleBlind_congr onTimer_bleBlind h
  | otaOnStart =>
    simp only [step, Option.map_some', Option.some.injEq]
    exact bleBlind_congr otaOnStart_bleBlind h

/-- A schedule of steps on states that agree outside the beacon. -/
theorem run_congr (sinTurn : ℚ → ℚ) (steps : List Step) :
    ∀ x y : State, eraseBle x = eraseBle y →
      (run sinTurn x steps).map eraseBle = (run sinTurn y steps).map eraseBle := by
  induction steps with
  | nil => intro x y h; simp only [run, Option.map_some', h]
  | cons st rest ih =>
    intro x y h
    have hl := step_congr sinTurn st h
    simp only [run]
    cases hx : step sinTurn x st with
    | none =>
      rw [hx] at hl
      cases hy : step sinTurn y st with
      | none => rfl
      | some b => rw [hy] at hl; exact absurd hl (by simp)
    | some a =>
      rw [hx] at hl
      cases hy : step sinTurn y st with
      | none => rw [hy] at hl; exact absurd hl (by simp)
      | some b =>
        rw [hy] at hl
        simp only [Option.map_some', Option.some.injEq] at hl
        exact ih a b hl

/-- The watchdog and debug blocks are quiet. -/
theorem loop_head_bleQuiet (i : PassInput) : BleQuiet (fun s => loop_head s i) := by
  intro s h
  show (loop_head s i).bleInitialized = false ∧ bleCalls (loop_head s i).log = bleCalls s.log
  unfold loop_head loop_debug loop_watchdog
  by_cases hw : sub32 i.now s.lastWatchdogFeed ≥ 5000 <;>
    by_cases hd : sub32 i.now s.lastDebugPrint ≥ 5000 <;> cases ho : s.isOtaMode <;>
    simp [hw, hd, ho, h, digitalWrite, bleCalls, Event.isBle]

/-- The end of the pass is quiet. -/
theorem loop_tail_bleQuiet (now : Nat) : BleQuiet (fun s => loop_tail s now) := by
  intro s h
  show (loop_tail s now).bleInitialized = false ∧ bleCalls (loop_tail s now).log = bleCalls s.log
  unfold loop_tail
  by_cases hd : sub32 now s.lastOtaHandle ≥ 50 <;> cases ho : s.isOtaMode <;>
    simp [hd, ho, h, bleCalls, Event.isBle]

/-- A pass of `loop` is quiet. -/
theorem loop_bleQuiet (sinTurn : ℚ → ℚ) (s s' : State) (i : PassInput)
    (h : s.bleInitialized = false) (hloop : loop sinTurn s i = some s') :
    s'.bleInitialized = false ∧ bleCalls s'.log = bleCalls s.log := by
  have hsm : (loop_stateMachine s i).bleInitialized = false ∧
      bleCalls (loop_stateMachine s i).log = bleCalls s.log :=
    (bleQuiet_comp
      (bleQuiet_comp (loop_head_bleQuiet i)
        (handleButtonPress_bleQuiet i.buttonNow i.buttonLevel i.buttonRnd))
      (updateStateMachine_bleQuiet i.updateNow i.updateLevel)) s h
  unfold loop at hloop
  cases hact : loop_activities sinTurn (loop_stateMachine s i) i with
  | none => rw [hact] at hloop; exact absurd hloop (by simp)
  | some a =>
    rw [hact] at hloop
    simp only [Option.some.injEq] at hloop
    have ha : a.bleInitialized = false ∧ bleCalls a.log = bleCalls s.log := by
      unfold loop_activities at hact
      split_ifs at hact
      · cases hsend : sendNextIrCode
            (handleMagicalGlow sinTurn (loop_stateMachine s i) i.glowNow) with
        | none => rw [hsend] at hact; exact absurd hact (by simp)
        | some b =>
          rw [hsend] at hact
          simp only [Option.some.injEq] at hact
          obtain ⟨hg1, hg2⟩ := handleMagicalGlow_bleQuiet sinTurn i.glowNow _ hsm.1
          obtain ⟨hb1, hb2⟩ := sendNextIrCode_bleQuiet _ b hg1 hsend
          obtain ⟨hs1, hs2⟩ := handleBLESpoofing_bleQuiet i.spoofNow i.spoofRnd b hb1
          rw [← hact]
          exact ⟨hs1, hs2.trans (hb2.trans (hg2.trans hsm.2))⟩
      · simp only [Option.some.injEq] at hact
        rw [← hact]
        exact hsm
    obtain ⟨ht1, ht2⟩ := loop_tail_bleQuiet i.now a ha.1
    rw [← hloop]
    exact ⟨ht1, ht2.trans ha.2⟩

/-- A run of passes is quiet. -/
theorem loopRun_bleQuiet (sinTurn : ℚ → ℚ) (passes : List PassInput) :
    ∀ s s' : State, s.bleInitialized = false → loopRun sinTurn s passes = some s' →
      s'.bleInitialized = false ∧ bleCalls s'.log = bleCalls s.log := by
  induction passes with
  | nil =>
    intro s s' h hrun
    simp only [loopRun, Option.some.injEq] at hrun
    rw [← hrun]
    exact ⟨h, rfl⟩
  | cons i rest ih =>
    intro s s' h hrun
    rw [loopRun] at hrun
    cases hl : loop sinTurn s i with
    | none => rw [hl] at hrun; exact absurd hrun (by simp)
    | some a =>
      rw [hl] at hrun
      obtain ⟨h1, h2⟩ := loop_bleQuiet sinTurn s a i h hl
      obtain ⟨h3, h4⟩ := ih a s' h1 hrun
      exact ⟨h3, h4.trans h2⟩

/-- One step is quiet. -/
theorem step_bleQuiet (sinTurn : ℚ → ℚ) (s s' : State) (st : Step)
    (h : s.bleInitialized = false) (hstep : step sinTurn s st = some s') :
    s'.bleInitialized = false ∧ bleCalls s'.log = bleCalls s.log := by
  cases st with
  | handleButtonPress now level rnd =>
    simp only [step, Option.some.injEq] at hstep
    rw [← hstep]; exact handleButtonPress_bleQuiet now level rnd s h
  | updateStateMachine now level =>
    simp only [step, Option.some.injEq] at hstep
    rw [← hstep]; exact updateStateMachine_bleQuiet now level s h
  | handleMagicalGlow now =>
    simp only [step, Option.some.injEq] at hstep
    rw [← hstep]; exact handleMagicalGlow_bleQuiet sinTurn now s h
  | sendNextIrCode => exact sendNextIrCode_bleQuiet s s' h hstep
  | handleBLESpoofing now rnd =>
    simp only [step, Option.some.injEq] at hstep
    rw [← hstep]; exact handleBLESpoofing_bleQuiet now rnd s h
  | onTimer =>
    simp only [step, Option.some.injEq] at hstep
    rw [← hstep]; exact onTimer_bleQuiet s h
  | otaOnStart =>
    simp only [step, Option.some.injEq] at hstep
    rw [← hstep]; exact otaOnStart_bleQuiet s h

/-- A schedule of steps is quiet. -/
theorem run_bleQuiet (sinTurn : ℚ → ℚ) (steps : List Step) :
    ∀ s s' : State, s.bleInitialized = false → run sinTurn s steps = some s' →
      s'.bleInitialized = false ∧ bleCalls s'.log = bleCalls s.log := by
  induction steps with
  | nil =>
    intro s s' h hrun
    simp only [run, Option.some.injEq] at hrun
    rw [← hrun]
    exact ⟨h, rfl⟩
  | cons st rest ih =>
    intro s s' h hrun
    simp only [run] at hrun
    cases hl : step sinTurn s st with
    | none => rw [hl] at hrun; exact absurd hrun (by simp)
    | some a =>
      rw [hl] at hrun
      obtain ⟨h1, h2⟩ := step_bleQuiet sinTurn s a st h hl
      obtain ⟨h3, h4⟩ := ih a s' h1 hrun
      exact ⟨h3, h4.trans h2⟩

/-- C14: two runs from boot, fed the same passes of `loop` (or the same schedule of
steps), one with the beacon initialised and one without, agree after every run on
everything outside the beacon: the session state, the session timestamps,
`breathingActive`, the pin levels, every other field, and the sequence of session-state
writes, `breathingActive` writes, pin writes and non-beacon collaborator calls; and the run
without the beacon makes no beacon collaborator call. -/
theorem beacon_failure_degrades_gracefully (sinTurn : ℚ → ℚ)
    (switchLevel buttonLevel : Bool) (t0 : Nat) :
    (∀ passes : List PassInput,
      (loopRun sinTurn (setup switchLevel buttonLevel true t0) passes).map eraseBle =
        (loopRun sinTurn (setup switchLevel buttonLevel false t0) passes).map eraseBle) ∧
    (∀ steps : List Step,
      (run sinTurn (setup switchLevel buttonLevel true t0) steps).map eraseBle =
        (run sinTurn (setup switchLevel buttonLevel false t0) steps).map eraseBle) ∧
    (∀ (passes : List PassInput) (s' : State),
      loopRun sinTurn (setup switchLevel buttonLevel false t0) passes = some s' →
      bleCalls s'.log = []) ∧
    (∀ (steps : List Step) (s' : State),
      run sinTurn (setup switchLevel buttonLevel false t0) steps = some s' →
      bleCalls s'.log = []) := by
  have h0 : eraseBle (setup switchLevel buttonLevel true t0) =
      eraseBle (setup switchLevel buttonLevel false t0) := rfl
  have hq : bleCalls (setup switchLevel buttonLevel false t0).log = [] := rfl
  refine ⟨fun passes => loopRun_congr sinTurn passes _ _ h0,
    fun steps => run_congr sinTurn steps _ _ h0, ?_, ?_⟩
  · intro passes s' h
    rw [(loopRun_bleQuiet sinTurn passes _ s' rfl h).2, hq]
  · intro steps s' h
    rw [(run_bleQuiet sinTurn steps _ s' rfl h).2, hq]

/-- C14 at a concrete input: a press at 100 ms released at 200 ms, with the beacon not
initialised, starts a short session and makes no beacon call. -/
theorem beacon_failure_degrades_gracefully_witness :
    ∃ s', loopRun (fun _ => 0) (setup false false false 0)
        [passAt 100 true, passAt 200 false] = some s' ∧
      s'.currentState = DeviceState.STATE_RUNNING_SHORT ∧ bleCalls s'.log = [] :=
  ⟨_, rfl, by decide,
   (beacon_failure_degrades_gracefully (fun _ => 0) false false 0).2.2.1
     [passAt 100 true, passAt 200 false] _ rfl⟩

/-! ## Beacon rotation cadence -/

/-- The beacon fields after the session-start block. -/
theorem startOperation_beacon (s : State) (now : Nat) (rnd : BleDraw) :
    (handleButtonPress_startOperation s now rnd).lastBLESpoofTime =
      (if s.bleInitialized = true then now else s.lastBLESpoofTime) := by
  unfold handleButtonPress_startOperation
  cases hb : s.bleInitialized <;> simp [hb]

/-- The beacon fields after the rising-edge block. -/
theorem risingEdge_beacon (s : State) (now : Nat) (rnd : BleDraw) :
    (handleButtonPress_risingEdge s now rnd).lastBLESpoofTime =
      (if s.currentState = DeviceState.STATE_IDLE ∧ s.bleInitialized = true then now
       else s.lastBLESpoofTime) := by
  unfold handleButtonPress_risingEdge
  by_cases hi : s.currentState = DeviceState.STATE_IDLE <;> cases h2 : s.isOtaMode <;>
    simp [hi, h2, startOperation_beacon]

/-- The beacon fields after `handleButtonPress`: the rotation time is written exactly when
a session starts with the beacon initialised. -/
theorem handleButtonPress_beacon (s : State) (now : Nat) (level : Bool) (rnd : BleDraw) :
    (handleButtonPress s now level rnd).bleInitialized = s.bleInitialized ∧
    (handleButtonPress s now level rnd).pAdvertising = s.pAdvertising ∧
    (handleButtonPress s now level rnd).lastBLESpoofTime =
      (if sub32 now s.lastButtonCheck ≥ BUTTON_DEBOUNCE_MS ∧ level = true ∧
          s.lastButtonState = false ∧ s.currentState = DeviceState.STATE_IDLE ∧
          s.bleInitialized = true then now else s.lastBLESpoofTime) := by
  unfold handleButtonPress
  by_cases hd : sub32 now s.lastButtonCheck ≥ BUTTON_DEBOUNCE_MS
  · cases level <;> cases h1 : s.lastButtonState <;> cases h2 : s.isOtaMode <;>
      cases h3 : s.otaExitInProgress <;>
      simp [hd, h1, h2, h3, risingEdge_fields, exitOta_fields, risingEdge_beacon] <;>
      split_ifs <;>
      simp_all [risingEdge_fields, exitOta_fields, risingEdge_beacon]
  · simp [hd]

/-- The function `updateStateMachine` writes no beacon field. -/
theorem updateStateMachine_beacon (s : State) (now : Nat) (button : Bool) :
    (updateStateMachine s now button).bleInitialized = s.bleInitialized ∧
    (updateStateMachine s now button).pAdvertising = s.pAdvertising ∧
    (updateStateMachine s now button).lastBLESpoofTime = s.lastBLESpoofTime := by
  unfold updateStateMachine
  split <;> (try split_ifs) <;> simp [endSession_fields]

/-- The watchdog and debug blocks write neither a beacon field nor a debounce field. -/
theorem loop_head_beacon (s : State) (i : PassInput) :
    (loop_head s i).bleInitialized = s.bleInitialized ∧
    (loop_head s i).pAdvertising = s.pAdvertising ∧
    (loop_head s i).lastBLESpoofTime = s.lastBLESpoofTime ∧
    (loop_head s i).lastButtonCheck = s.lastButtonCheck ∧
    (loop_head s i).lastButtonState = s.lastButtonState := by
  unfold loop_head loop_debug loop_watchdog
  simp only []
  split_ifs <;> simp [digitalWrite]

/-- The end of the pass writes no beacon field. -/
theorem loop_tail_beacon (s : State) (now : Nat) :
    (loop_tail s now).bleInitialized = s.bleInitialized ∧
    (loop_tail s now).pAdvertising = s.pAdvertising ∧
    (loop_tail s now).lastBLESpoofTime = s.lastBLESpoofTime := by
  unfold loop_tail
  simp only []
  split_ifs <;> simp

/-- Glow and IR transmission leave the session state and the beacon fields alone and
perform no rotation. -/
theorem glow_send_beacon (sinTurn : ℚ → ℚ) (s b : State) (now : Nat)
    (h : sendNextIrCode (handleMagicalGlow sinTurn s now) = some b) :
    b.currentState = s.currentState ∧ b.bleInitialized = s.bleInitialized ∧
    b.pAdvertising = s.pAdvertising ∧ b.lastBLESpoofTime = s.lastBLESpoofTime ∧
    List.count Event.bleStart b.log = List.count Event.bleStart s.log := by
  unfold sendNextIrCode at h
  split_ifs at h
  split at h
  · simp only [Option.some.injEq] at h
    rw [← h]
    unfold handleMagicalGlow
    by_cases hd : sub32 now s.lastUpdate ≥ 10 <;> cases hbr : s.breathingActive <;>
      simp [hd, hbr]
  · exact absurd h (by simp)

/-- With the beacon up and a session active, `handleBLESpoofing` performs one rotation
and stores its clock read exactly when that read is at least 30 ms (32-bit) past the
stored rotation time. -/
theorem handleBLESpoofing_beacon (s : State) (now : Nat) (rnd : BleDraw)
    (hb : s.bleInitialized = true) (hp : s.pAdvertising = true)
    (hact : s.currentState ≠ DeviceState.STATE_IDLE) :
    (handleBLESpoofing s now rnd).currentState = s.currentState ∧
    (handleBLESpoofing s now rnd).bleInitialized = true ∧
    (handleBLESpoofing s now rnd).pAdvertising = true ∧
    (sub32 now s.lastBLESpoofTime ≥ BLE_SPOOF_INTERVAL_MS →
      (handleBLESpoofing s now rnd).lastBLESpoofTime = now ∧
      List.count Event.bleStart (handleBLESpoofing s now rnd).log =
        List.count Event.bleStart s.log + 1) ∧
    (¬ sub32 now s.lastBLESpoofTime ≥ BLE_SPOOF_INTERVAL_MS →
      (handleBLESpoofing s now rnd).lastBLESpoofTime = s.lastBLESpoofTime ∧
      List.count Event.bleStart (handleBLESpoofing s now rnd).log =
        List.count Event.bleStart s.log) := by
  unfold handleBLESpoofing
  by_cases hd : sub32 now s.lastBLESpoofTime ≥ BLE_SPOOF_INTERVAL_MS
  · simp [hb, hp, hact, hd, cycleBLEDevice_rotations]
  · simp [hb, hp, hact, hd]

/-- The rotation of `handleButtonPress` in a pass: none while a session is active. -/
theorem buttonRotationTimes_active (s : State) (i : PassInput)
    (hact : s.currentState ≠ DeviceState.STATE_IDLE) :
    buttonRotationTimes s i = [] ∧
    (handleButtonPress (loop_head s i) i.buttonNow i.buttonLevel
      i.buttonRnd).lastBLESpoofTime = s.lastBLESpoofTime := by
  have hh := loop_head_session s i
  have hb := loop_head_beacon s i
  constructor
  · unfold buttonRotationTimes
    rw [handleButtonPress_rotations, hh.1]
    simp [hact]
  · rw [(handleButtonPress_beacon _ _ _ _).2.2, hh.1, hb.2.2.1]
    simp [hact]

/-- The rotation of `handleButtonPress` in a pass that starts a session with the beacon
up: one, at the clock read of the call, which becomes the stored rotation time; and the
state machine leaves the session active. -/
theorem buttonRotationTimes_start (s : State) (i : PassInput)
    (hidle : s.currentState = DeviceState.STATE_IDLE)
    (hble : s.bleInitialized = true) (hadv : s.pAdvertising = true)
    (hd : sub32 i.buttonNow s.lastButtonCheck ≥ BUTTON_DEBOUNCE_MS)
    (hlevel : i.buttonLevel = true) (hlow : s.lastButtonState = false) :
    buttonRotationTimes s i = [i.buttonNow] ∧
    (handleButtonPress (loop_head s i) i.buttonNow i.buttonLevel
      i.buttonRnd).lastBLESpoofTime = i.buttonNow ∧
    (loop_stateMachine s i).currentState ≠ DeviceState.STATE_IDLE := by
  have hh := loop_head_session s i
  have hb := loop_head_beacon s i
  refine ⟨?_, ?_, ?_⟩
  · unfold buttonRotationTimes
    rw [handleButtonPress_rotations, hh.1, hb.1, hb.2.1, hb.2.2.2.1, hb.2.2.2.2]
    simp [hidle, hble, hadv, hd, hlevel, hlow]
  · rw [(handleButtonPress_beacon _ _ _ _).2.2, hh.1, hb.1, hb.2.2.2.1, hb.2.2.2.2]
    simp [hidle, hble, hd, hlevel, hlow]
  · unfold loop_stateMachine
    apply updateStateMachine_classifying
    rcases handleButtonPress_currentState (loop_head s i) i.buttonNow i.buttonLevel
      i.buttonRnd with e | ⟨e, _⟩ | e
    · exfalso
      have h0 : sub32 i.buttonNow i.buttonNow = 0 := by unfold sub32; omega
      have hi' : (loop_head s i).currentState = DeviceState.STATE_IDLE := hh.1.trans hidle
      have hd' : sub32 i.buttonNow (loop_head s i).lastButtonCheck ≥ BUTTON_DEBOUNCE_MS := by
        rw [hb.2.2.2.1]; exact hd
      have hl' : (loop_head s i).lastButtonState = false := hb.2.2.2.2.trans hlow
      rw [hi'] at e
      revert e
      rw [hlevel]
      unfold handleButtonPress
      cases h2 : (loop_head s i).isOtaMode <;> cases h3 : (loop_head s i).otaExitInProgress <;>
        simp [hd', hi', hl', h2, h3, h0, risingEdge_fields]
    · exact e
    · exfalso
      have h0 : sub32 i.buttonNow i.buttonNow = 0 := by unfold sub32; omega
      have hi' : (loop_head s i).currentState = DeviceState.STATE_IDLE := hh.1.trans hidle
      have hd' : sub32 i.buttonNow (loop_head s i).lastButtonCheck ≥ BUTTON_DEBOUNCE_MS := by
        rw [hb.2.2.2.1]; exact hd
      have hl' : (loop_head s i).lastButtonState = false := hb.2.2.2.2.trans hlow
      revert e
      rw [hlevel]
      unfold handleButtonPress
      cases h2 : (loop_head s i).isOtaMode <;> cases h3 : (loop_head s i).otaExitInProgress <;>
        simp [hd', hi', hl', h2, h3, h0, risingEdge_fields]

/-- The rest of a pass with the beacon up, in terms of the rotation time `L` stored after
`handleButtonPress`: the pass returns with the beacon still up and the session state left
by the state machine; `handleBLESpoofing` rotates exactly when the session is active and
its clock read is at least 30 ms (32-bit) past `L`, and then stores that read. -/
theorem spoofRotationTimes_effect (sinTurn : ℚ → ℚ) (s s' : State) (i : PassInput)
    (hble : s.bleInitialized = true) (hadv : s.pAdvertising = true)
    (hloop : loop sinTurn s i = some s') :
    s'.bleInitialized = true ∧ s'.pAdvertising = true ∧
    s'.currentState = (loop_stateMachine s i).currentState ∧
    ((loop_stateMachine s i).currentState = DeviceState.STATE_IDLE →
      spoofRotationTimes sinTurn s i = []) ∧
    ((loop_stateMachine s i).currentState ≠ DeviceState.STATE_IDLE →
      (sub32 i.spoofNow
          (handleButtonPress (loop_head s i) i.buttonNow i.buttonLevel
            i.buttonRnd).lastBLESpoofTime ≥ BLE_SPOOF_INTERVAL_MS →
        spoofRotationTimes sinTurn s i = [i.spoofNow] ∧ s'.lastBLESpoofTime = i.spoofNow) ∧
      (¬ sub32 i.spoofNow
          (handleButtonPress (loop_head s i) i.buttonNow i.buttonLevel
            i.buttonRnd).lastBLESpoofTime ≥ BLE_SPOOF_INTERVAL_MS →
        spoofRotationTimes sinTurn s i = [] ∧
        s'.lastBLESpoofTime =
          (handleButtonPress (loop_head s i) i.buttonNow i.buttonLevel
            i.buttonRnd).lastBLESpoofTime)) := by
  have hb := loop_head_beacon s i
  have hbp := handleButtonPress_beacon (loop_head s i) i.buttonNow i.buttonLevel i.buttonRnd
  have hsm := updateStateMachine_beacon
    (handleButtonPress (loop_head s i) i.buttonNow i.buttonLevel i.buttonRnd)
    i.updateNow i.updateLevel
  have hmb : (loop_stateMachine s i).bleInitialized = true := by
    unfold loop_stateMachine; rw [hsm.1, hbp.1, hb.1, hble]
  have hmp : (loop_stateMachine s i).pAdvertising = true := by
    unfold loop_stateMachine; rw [hsm.2.1, hbp.2.1, hb.2.1, hadv]
  have hml : (loop_stateMachine s i).lastBLESpoofTime =
      (handleButtonPress (loop_head s i) i.buttonNow i.buttonLevel
        i.buttonRnd).lastBLESpoofTime := by
    unfold loop_stateMachine; rw [hsm.2.2]
  unfold loop at hloop
  cases hact : loop_activities sinTurn (loop_stateMachine s i) i with
  | none => rw [hact] at hloop; exact absurd hloop (by simp)
  | some a =>
    rw [hact] at hloop
    simp only [Option.some.injEq] at hloop
    have ht := loop_tail_beacon a i.now
    have hts := loop_tail_session a i.now
    rw [hloop] at ht hts
    by_cases hidle : (loop_stateMachine s i).currentState = DeviceState.STATE_IDLE
    · have ha : a = loop_stateMachine s i := by
        unfold loop_activities at hact
        simp [hidle] at hact
        exact hact.symm
      rw [ht.1, ht.2.1, hts.1, ha]
      refine ⟨hmb, hmp, rfl, ?_, fun hne => absurd hidle hne⟩
      intro _
      unfold spoofRotationTimes
      rw [if_pos hidle]
    · have hcond : (loop_stateMachine s i).currentState = DeviceState.STATE_CHECKING_PRESS ∨
          (loop_stateMachine s i).currentState = DeviceState.STATE_RUNNING_SHORT ∨
          (loop_stateMachine s i).currentState = DeviceState.STATE_RUNNING_LONG := by
        cases hcs : (loop_stateMachine s i).currentState <;> simp_all
      unfold loop_activities at hact
      rw [if_pos hcond] at hact
      cases hsend : sendNextIrCode
          (handleMagicalGlow sinTurn (loop_stateMachine s i) i.glowNow) with
      | none => rw [hsend] at hact; exact absurd hact (by simp)
      | some b =>
        rw [hsend] at hact
        simp only [Option.some.injEq] at hact
        obtain ⟨hbc, hbb, hbp', hbl, hbr⟩ := glow_send_beacon sinTurn _ b i.glowNow hsend
        have hbact : b.currentState ≠ DeviceState.STATE_IDLE := by rw [hbc]; exact hidle
        obtain ⟨hs1, hs2, hs3, hyes, hno⟩ :=
          handleBLESpoofing_beacon b i.spoofNow i.spoofRnd (hbb.trans hmb) (hbp'.trans hmp) hbact
        rw [hact] at hs1 hs2 hs3 hyes hno
        rw [hbl, hml] at hyes hno
        rw [ht.1, ht.2.1, ht.2.2, hts.1]
        refine ⟨hs2, hs3, hs1.trans hbc, fun e => absurd e hidle, fun _ => ⟨?_, ?_⟩⟩
        · intro hd
          obtain ⟨hl, hc⟩ := hyes hd
          refine ⟨?_, hl⟩
          unfold spoofRotationTimes
          rw [if_neg hidle, hsend]
          simp only [Option.elim]
          rw [hact, hc]
          simp
        · intro hd
          obtain ⟨hl, hc⟩ := hno hd
          refine ⟨?_, hl⟩
          unfold spoofRotationTimes
          rw [if_neg hidle, hsend]
          simp only [Option.elim]
          rw [hact, hc]
          simp

/-- Every element of a list chained by gaps of at least 30 from `r` is at least `r + 30`. -/
theorem chain_gap_ge (l : List Nat) :
    ∀ r : Nat, List.Chain (fun a b => a + 30 ≤ b) r l → ∀ x ∈ l, r + 30 ≤ x := by
  induction l with
  | nil => intro r _ x hx; simp at hx
  | cons y rest ih =>
    intro r h x hx
    rw [List.chain_cons] at h
    rcases List.mem_cons.mp hx with rfl | hx
    · exact h.1
    · have := ih y h.2 x hx
      omega

/-- Among times chained by gaps of at least 30 from `r`, at most `T / 30 + 1`, `r`
included, lie within `T` of `r`. -/
theorem chain_gap_count (l : List Nat) :
    ∀ r T : Nat, List.Chain (fun a b => a + 30 ≤ b) r l →
      ((r :: l).filter fun x => decide (x ≤ r + T)).length ≤ T / 30 + 1 := by
  induction l with
  | nil => intro r T _; simp
  | cons y rest ih =>
    intro r T h
    rw [List.chain_cons] at h
    have hsplit : ((r :: y :: rest).filter fun x => decide (x ≤ r + T)) =
        r :: ((y :: rest).filter fun x => decide (x ≤ r + T)) := by
      rw [List.filter_cons]
      simp
    rw [hsplit, List.length_cons]
    by_cases hy : y ≤ r + T
    · have hT : 30 ≤ T := by omega
      have := ih y (r + T - y) h.2
      have he : y + (r + T - y) = r + T := by omega
      rw [he] at this
      have hdiv : (r + T - y) / 30 + 1 ≤ T / 30 := by
        have h1 : r + T - y ≤ T - 30 := by omega
        have h2 : (r + T - y) / 30 ≤ (T - 30) / 30 := Nat.div_le_div_right h1
        have h3 : (T - 30) / 30 + 1 = T / 30 := by omega
        omega
      omega
    · have hall : ∀ x ∈ y :: rest, ¬ (decide (x ≤ r + T) = true) := by
        intro x hx
        rcases List.mem_cons.mp hx with rfl | hx
        · simpa using hy
        · have := chain_gap_ge rest y h.2 x hx
          simp only [decide_eq_true_eq, not_le]
          omega
      have hnil : (y :: rest).filter (fun x => decide (x ≤ r + T)) = [] :=
        List.filter_eq_nil_iff.mpr hall
      rw [hnil]
      simp

/-- Inside a session with the beacon up, the rotations of the following passes are
chained by gaps of at least 30 ms, starting from the stored rotation time. -/
theorem sessionRotationTimes_chain (sinTurn : ℚ → ℚ) (rest : List PassInput) :
    ∀ (a : State) (c : Nat),
      a.bleInitialized = true → a.pAdvertising = true →
      a.currentState ≠ DeviceState.STATE_IDLE →
      c < numCommands → a.currentCommandIndex = (c : Int) →
      (∀ t ∈ passTimes rest, a.lastBLESpoofTime ≤ t ∧ t < 4294967296) →
      (passTimes rest).Pairwise (fun x y => x ≤ y) →
      List.Chain (fun x y => x + 30 ≤ y) a.lastBLESpoofTime
        (sessionRotationTimes sinTurn a rest) := by
  induction rest with
  | nil => intro a c _ _ _ _ _ _ _; exact List.Chain.nil
  | cons i rest ih =>
    intro a c hble hadv hact hc hs hrange hmono
    obtain ⟨a', c', hloop, hc', hs'⟩ := loop_returns sinTurn a i c hc hs
    obtain ⟨hb1, hb2, hcs, hidle, hrun⟩ := spoofRotationTimes_effect sinTurn a a' i hble hadv hloop
    obtain ⟨hbtn, hL⟩ := buttonRotationTimes_active a i hact
    rw [hL] at hrun
    have hspoof := hrange i.spoofNow (by simp [passTimes])
    have hrange' : ∀ t ∈ passTimes rest, i.spoofNow ≤ t ∧ t < 4294967296 := by
      intro t ht
      refine ⟨?_, (hrange t (by simp [passTimes, ht])).2⟩
      simp only [passTimes, List.pairwise_cons] at hmono
      exact hmono.2.2.2.2.1 t ht
    have hmono' : (passTimes rest).Pairwise (fun x y => x ≤ y) := by
      simp only [passTimes, List.pairwise_cons] at hmono
      exact hmono.2.2.2.2.2
    rw [sessionRotationTimes, hloop]
    simp only [Option.elim, passRotationTimes, hbtn, List.nil_append]
    by_cases hm : (loop_stateMachine a i).currentState = DeviceState.STATE_IDLE
    · rw [hidle hm, if_pos (hcs.trans hm)]
      exact List.Chain.nil
    · have hact' : a'.currentState ≠ DeviceState.STATE_IDLE := by rw [hcs]; exact hm
      rw [if_neg hact']
      obtain ⟨hyes, hno⟩ := hrun hm
      by_cases hd : sub32 i.spoofNow a.lastBLESpoofTime ≥ BLE_SPOOF_INTERVAL_MS
      · obtain ⟨hlist, hl⟩ := hyes hd
        rw [hlist]
        have hge : a.lastBLESpoofTime + 30 ≤ i.spoofNow := by
          unfold sub32 at hd
          simp only [BLE_SPOOF_INTERVAL_MS] at hd
          omega
        refine List.Chain.cons hge ?_
        have := ih a' c' hb1 hb2 hact' hc' hs' (by rw [hl]; exact hrange') hmono'
        rw [hl] at this
        exact this
      · obtain ⟨hlist, hl⟩ := hno hd
        rw [hlist, List.nil_append]
        have := ih a' c' hb1 hb2 hact' hc' hs' (by
          rw [hl]
          intro t ht
          have := hrange' t ht
          omega) hmono'
        rw [hl] at this
        exact this

set_option maxRecDepth 1000000 in
/-- C19 fails as stated: in the long-press session of `longPressPasses` (rising edge
accepted at 100 ms, passes 100 ms apart, back to `Idle` in the pass at 3300 ms, beacon
initialised) 33 rotations are performed, while `(3300 - 100) / 30` is 106. -/
theorem beacon_rotation_count_counterexample :
    (sessionRotationTimes (fun _ => 0) (setup false false true 0) longPressPasses).length =
      33 ∧
    (loopRun (fun _ => 0) (setup false false true 0) (longPressPasses.take 32)).map
      (fun s => s.currentState) = some DeviceState.STATE_RUNNING_LONG ∧
    (loopRun (fun _ => 0) (setup false false true 0) longPressPasses).map
      (fun s => s.currentState) = some DeviceState.STATE_IDLE ∧
    (3300 - 100) / 30 = 106 := by
  decide

/-- C19 as amended: with the beacon initialised, in a session started by a pass whose
`handleButtonPress` accepts a rising edge from `Idle`, the first rotation happens in that
call, at its clock read; consecutive rotations of the session are at least 30 ms apart;
hence at most `T / 30 + 1` rotations happen within `T` ms of the session start. Clock
reads are 32-bit values, non-decreasing in program order. -/
theorem beacon_rotation_cadence (sinTurn : ℚ → ℚ) (s : State) (i0 : PassInput)
    (rest : List PassInput) (c : Nat)
    (hc : c < numCommands) (hs : s.currentCommandIndex = (c : Int))
    (hidle : s.currentState = DeviceState.STATE_IDLE)
    (hble : s.bleInitialized = true) (hadv : s.pAdvertising = true)
    (hd : sub32 i0.buttonNow s.lastButtonCheck ≥ BUTTON_DEBOUNCE_MS)
    (hlevel : i0.buttonLevel = true) (hlow : s.lastButtonState = false)
    (hrange : ∀ t ∈ passTimes (i0 :: rest), t < 4294967296)
    (hmono : (passTimes (i0 :: rest)).Pairwise (fun x y => x ≤ y)) :
    ∃ later, sessionRotationTimes sinTurn s (i0 :: rest) = i0.buttonNow :: later ∧
      List.Chain (fun x y => x + 30 ≤ y) i0.buttonNow later ∧
      ∀ T : Nat,
        ((i0.buttonNow :: later).filter fun r => decide (r ≤ i0.buttonNow + T)).length ≤
          T / 30 + 1 := by
  obtain ⟨a', c', hloop, hc', hs'⟩ := loop_returns sinTurn s i0 c hc hs
  obtain ⟨hb1, hb2, hcs, _, hrun⟩ := spoofRotationTimes_effect sinTurn s a' i0 hble hadv hloop
  obtain ⟨hbtn, hL, hm⟩ := buttonRotationTimes_start s i0 hidle hble hadv hd hlevel hlow
  rw [hL] at hrun
  have hact' : a'.currentState ≠ DeviceState.STATE_IDLE := by rw [hcs]; exact hm
  have hbn := hrange i0.buttonNow (by simp [passTimes])
  have hspoof := hrange i0.spoofNow (by simp [passTimes])
  have hle : i0.buttonNow ≤ i0.spoofNow := by
    simp only [passTimes, List.pairwise_cons] at hmono
    exact hmono.2.1 i0.spoofNow (by simp)
  have hrange' : ∀ t ∈ passTimes rest, i0.spoofNow ≤ t ∧ t < 4294967296 := by
    intro t ht
    refine ⟨?_, hrange t (by simp [passTimes, ht])⟩
    simp only [passTimes, List.pairwise_cons] at hmono
    exact hmono.2.2.2.2.1 t ht
  have hmono' : (passTimes rest).Pairwise (fun x y => x ≤ y) := by
    simp only [passTimes, List.pairwise_cons] at hmono
    exact hmono.2.2.2.2.2
  have hlist : sessionRotationTimes sinTurn s (i0 :: rest) =
      i0.buttonNow :: (spoofRotationTimes sinTurn s i0 ++ sessionRotationTimes sinTurn a' rest) := by
    rw [sessionRotationTimes, hloop]
    simp only [Option.elim, passRotationTimes, hbtn, if_neg hact']
    rfl
  have hchain : List.Chain (fun x y => x + 30 ≤ y) i0.buttonNow
      (spoofRotationTimes sinTurn s i0 ++ sessionRotationTimes sinTurn a' rest) := by
    obtain ⟨hyes, hno⟩ := hrun hm
    by_cases hd' : sub32 i0.spoofNow i0.buttonNow ≥ BLE_SPOOF_INTERVAL_MS
    · obtain ⟨hl1, hl⟩ := hyes hd'
      rw [hl1]
      have hge : i0.buttonNow + 30 ≤ i0.spoofNow := by
        unfold sub32 at hd'
        simp only [BLE_SPOOF_INTERVAL_MS] at hd'
        omega
      refine List.Chain.cons hge ?_
      have := sessionRotationTimes_chain sinTurn rest a' c' hb1 hb2 hact' hc' hs'
        (by rw [hl]; exact hrange') hmono'
      rw [hl] at this
      exact this
    · obtain ⟨hl1, hl⟩ := hno hd'
      rw [hl1, List.nil_append]
      have := sessionRotationTimes_chain sinTurn rest a' c' hb1 hb2 hact' hc' hs' (by
        rw [hl]
        intro t ht
        have := hrange' t ht
        omega) hmono'
      rw [hl] at this
      exact this
  exact ⟨_, hlist, hchain, fun T => chain_gap_count _ i0.buttonNow T hchain⟩

/-- C19 as amended, at a concrete input: a press accepted at 100 ms, followed by passes at
200 ms and 300 ms whose `handleBLESpoofing` reads the clock 80 ms after the pass start,
gives rotations at 100, 180, 280 and 380 ms. -/
theorem beacon_rotation_cadence_witness :
    sessionRotationTimes (fun _ => 0) (setup false false true 0)
        [busyPassAt 100 true, busyPassAt 200 true, busyPassAt 300 true] =
      [100, 180, 280, 380] ∧
    ∃ later,
      sessionRotationTimes (fun _ => 0) (setup false false true 0)
          (busyPassAt 100 true :: [busyPassAt 200 true, busyPassAt 300 true]) =
        (busyPassAt 100 true).buttonNow :: later ∧
      List.Chain (fun x y => x + 30 ≤ y) (busyPassAt 100 true).buttonNow later ∧
      ∀ T : Nat,
        (((busyPassAt 100 true).buttonNow :: later).filter fun r =>
          decide (r ≤ (busyPassAt 100 true).buttonNow + T)).length ≤ T / 30 + 1 :=
  ⟨by decide,
   beacon_rotation_cadence (fun _ => 0) (setup false false true 0) (busyPassAt 100 true)
     [busyPassAt 200 true, busyPassAt 300 true] 0 (by decide) rfl rfl rfl rfl (by decide) rfl
     rfl (by decide) (by decide)⟩

/-! ## Published brightness and the reference formula -/

/-- C21 fails as stated: in `longSession` (session started at 100 ms) the recomputation at
10543 ms uses the period 500 and the phase 2π * 43 / 500, whose sine in single precision
is 8630863/2^24 = 0.51443952; the scaled value is 75.72, the code publishes 75 and the
reference formula gives 76. -/
theorem brightness_rounding_counterexample :
    sub32 10543 longSession.lastUpdate ≥ 10 ∧ longSession.breathingActive = true ∧
    longSession.breathingStartTime = 100 ∧
    breathingPeriod (sub32 10543 100) = 500 ∧
    phaseTurns 10543 100 = 43 / 500 ∧
    roundF32 (roundF32 ((8630863 : ℚ) / 16777216 + 1) * 50) = 9925031 / 131072 ∧
    (handleMagicalGlow (fun _ => 8630863 / 16777216) longSession 10543).currentBrightness =
      75 ∧
    referenceBrightness (8630863 / 16777216) = 76 := by
  have hd : sub32 10543 longSession.lastUpdate ≥ 10 := by decide
  have hb : longSession.breathingActive = true := by decide
  have hs : longSession.breathingStartTime = 100 := by decide
  have hp : breathingPeriod (sub32 10543 100) = 500 := by
    have e : sub32 10543 100 = 10443 := by decide
    rw [e]
    exact breathingPeriod_late 10443 (by norm_num)
  have hph : phaseTurns 10543 100 = 43 / 500 := by
    unfold phaseTurns
    rw [hp]
    have e : truncToInt (500 : ℚ) = 500 := by
      unfold truncToInt
      norm_num
    have e2 : (10543 % 4294967296 % (500 : Int).toNat : Nat) = 43 := by decide
    rw [e, e2]
    norm_num
  have h1 : roundF32 ((8630863 : ℚ) / 16777216 + 1) = 1588005 / 1048576 := by
    have hf : ⌊((8630863 : ℚ) / 16777216 + 1) / 2 ^ ((0 : Int) - 23)⌋ = 12704039 := by
      rw [Int.floor_eq_iff]
      norm_num
    have hr : roundHalfEven (((8630863 : ℚ) / 16777216 + 1) / 2 ^ ((0 : Int) - 23)) =
        12704040 := by
      unfold roundHalfEven
      rw [hf]
      norm_num
    rw [roundF32_of_exponent _ 0 12704040 (by norm_num) (by norm_num [abs_of_pos])
      (by norm_num [abs_of_pos]) hr]
    norm_num
  have h2 : roundF32 ((1588005 : ℚ) / 1048576 * 50) = 9925031 / 131072 := by
    rw [roundF32_eval _ 6 9925031 (by norm_num) (by norm_num [abs_of_pos])
      (by norm_num [abs_of_pos]) (by norm_num) (by norm_num)]
    norm_num
  have hfl : ⌊(9925031 : ℚ) / 131072⌋ = 75 := by
    rw [Int.floor_eq_iff]
    norm_num
  refine ⟨hd, hb, hs, hp, hph, by rw [h1, h2], ?_, ?_⟩
  · rw [handleMagicalGlow_publishes _ _ _ hd hb]
    simp only [h1, h2]
    unfold truncToInt
    rw [if_pos (by norm_num), hfl]
  · unfold referenceBrightness
    rw [round_eq, Int.floor_eq_iff]
    norm_num

/-- Two values less than 1/2 apart: the floor of the one is the rounding of the other or
one less. -/
theorem floor_against_round (v w : ℚ) (h : |w - v| < 1 / 2) :
    round v - 1 ≤ ⌊w⌋ ∧ ⌊w⌋ ≤ round v := by
  rw [abs_lt] at h
  rw [round_eq]
  constructor
  · have h1 : ((⌊v + 1 / 2⌋ - 1 : Int) : ℚ) ≤ w := by
      have := Int.floor_le (v + 1 / 2)
      push_cast
      linarith
    exact Int.le_floor.mpr h1
  · exact Int.floor_mono (by linarith)

/-- The scaled sine in single precision is within 1/2 of its exact value. -/
theorem scaled_sine_near (q : ℚ) (hlo : -1 ≤ q) (hhi : q ≤ 1) :
    0 ≤ roundF32 (roundF32 (q + 1) * 50) ∧
    |roundF32 (roundF32 (q + 1) * 50) - (q + 1) * 50| < 1 / 2 := by
  have e2 : roundF32 2 = 2 := by
    have := roundF32_natCast 2 (by norm_num)
    simpa using this
  have y0 : 0 ≤ roundF32 (q + 1) := roundF32_nonneg _ (by linarith)
  have y2 : roundF32 (q + 1) ≤ 2 := by
    have := roundF32_mono (q + 1) 2 (by linarith) (by linarith)
    rwa [e2] at this
  have err1 : |roundF32 (q + 1) - (q + 1)| ≤ 1 / 8388608 := by
    have := roundF32_error (q + 1) 1 (by norm_num)
      (by rw [abs_of_nonneg (by linarith)]; norm_num; linarith)
    norm_num at this
    exact this
  have err2 : |roundF32 (roundF32 (q + 1) * 50) - roundF32 (q + 1) * 50| ≤ 1 / 262144 := by
    have := roundF32_error (roundF32 (q + 1) * 50) 6 (by norm_num)
      (by rw [abs_of_nonneg (by linarith)]; norm_num; linarith)
    norm_num at this
    exact this
  refine ⟨roundF32_nonneg _ (by linarith), ?_⟩
  rw [abs_le] at err1 err2
  rw [abs_lt]
  constructor <;> linarith [err1.1, err1.2, err2.1, err2.2]

/-- C21 as amended: when `handleMagicalGlow` recomputes the curve (update due,
`breathingActive` set) and the sine at the phase lies in [-1, 1], the brightness it
publishes is the scaled sine value `(sin(phase) + 1) * 50`, computed in single precision
and truncated to an integer, where `phase = 2π * (now mod truncated period) / period`; it
is the reference value `round((sin(phase) + 1) * 50)` or one less than it. -/
theorem published_brightness_truncates (sinTurn : ℚ → ℚ) (s : State) (now : Nat)
    (hd : sub32 now s.lastUpdate ≥ 10) (hb : s.breathingActive = true)
    (hlo : -1 ≤ sinTurn (phaseTurns now s.breathingStartTime))
    (hhi : sinTurn (phaseTurns now s.breathingStartTime) ≤ 1) :
    (handleMagicalGlow sinTurn s now).currentBrightness =
      ⌊roundF32 (roundF32 (sinTurn (phaseTurns now s.breathingStartTime) + 1) * 50)⌋ ∧
    referenceBrightness (sinTurn (phaseTurns now s.breathingStartTime)) - 1 ≤
      (handleMagicalGlow sinTurn s now).currentBrightness ∧
    (handleMagicalGlow sinTurn s now).currentBrightness ≤
      referenceBrightness (sinTurn (phaseTurns now s.breathingStartTime)) := by
  obtain ⟨h0, hnear⟩ := scaled_sine_near _ hlo hhi
  have hp : (handleMagicalGlow sinTurn s now).currentBrightness =
      ⌊roundF32 (roundF32 (sinTurn (phaseTurns now s.breathingStartTime) + 1) * 50)⌋ := by
    rw [handleMagicalGlow_publishes sinTurn s now hd hb]
    simp only []
    unfold truncToInt
    rw [if_pos h0]
  obtain ⟨r1, r2⟩ := floor_against_round _ _ hnear
  refine ⟨hp, ?_, ?_⟩
  · rw [hp]
    unfold referenceBrightness
    exact r1
  · rw [hp]
    unfold referenceBrightness
    exact r2

/-- C21 as amended, at a concrete input: in `longSession` at 10543 ms with the sine value
8630863/2^24 the published brightness is the floor of the single-precision scaled value,
and it is one less than the reference value 76. -/
theorem published_brightness_truncates_witness :
    (handleMagicalGlow (fun _ => 8630863 / 16777216) longSession 10543).currentBrightness =
      ⌊roundF32 (roundF32 ((8630863 : ℚ) / 16777216 + 1) * 50)⌋ ∧
    referenceBrightness (8630863 / 16777216) - 1 ≤
      (handleMagicalGlow (fun _ => 8630863 / 16777216) longSession 10543).currentBrightness ∧
    (handleMagicalGlow (fun _ => 8630863 / 16777216) longSession 10543).currentBrightness ≤
      referenceBrightness (8630863 / 16777216) :=
  published_brightness_truncates (fun _ => 8630863 / 16777216) longSession 10543
    (by decide) (by decide) (by norm_num) (by norm_num)

/-! ## Shared variables and the critical section -/

/-- The writes of `breathingActive` of a concatenated log. -/
theorem breathingWrites_append (a b : List Event) :
    breathingWrites (a ++ b) = breathingWrites a ++ breathingWrites b := by
  induction a with
  | nil => rfl
  | cons e rest ih => cases e <;> simp [breathingWrites, ih]

/-- The function `cycleBLEDevice` does not write `breathingActive`. -/
theorem cycleBLEDevice_breathingWrites (s : State) (rnd : BleDraw) :
    breathingWrites (cycleBLEDevice s rnd).log = breathingWrites s.log := by
  unfold cycleBLEDevice
  split <;> simp [breathingWrites_append, breathingWrites]

/-- The session-start block writes `breathingActive` once. -/
theorem startOperation_breathingWrites (s : State) (now : Nat) (rnd : BleDraw) :
    breathingWrites (handleButtonPress_startOperation s now rnd).log =
      breathingWrites s.log ++ [Access.write SharedVar.breathingActive] := by
  unfold handleButtonPress_startOperation
  simp only []
  split <;> simp [cycleBLEDevice_breathingWrites, breathingWrites_append, breathingWrites]

/-- The rising-edge block writes `breathingActive` when it starts a session. -/
theorem risingEdge_breathingWrites (s : State) (now : Nat) (rnd : BleDraw) :
    breathingWrites (handleButtonPress_risingEdge s now rnd).log =
      breathingWrites s.log ++
        (if s.currentState = DeviceState.STATE_IDLE then
          [Access.write SharedVar.breathingActive]
        else []) := by
  unfold handleButtonPress_risingEdge
  simp only []
  split_ifs <;> simp_all [startOperation_breathingWrites]

/-- The OTA-exit block writes `breathingActive` once. -/
theorem exitOta_breathingWrites (s : State) (now : Nat) :
    breathingWrites (handleButtonPress_exitOta s now).log =
      breathingWrites s.log ++ [Access.write SharedVar.breathingActive] := by
  rw [exitOta_log]
  split <;> simp [breathingWrites_append, breathingWrites]

/-- The session-end block writes `breathingActive` once. -/
theorem endSession_breathingWrites (s : State) :
    breathingWrites (endSession s).log =
      breathingWrites s.log ++ [Access.write SharedVar.breathingActive] := by
  unfold endSession
  simp only []
  split <;> simp [digitalWrite, breathingWrites_append, breathingWrites]

/-- The accesses listed for `updateStateMachine` are the writes of `breathingActive` that
the function records in the log. -/
theorem updateStateMachine_breathingWrites (s : State) (now : Nat) (button : Bool) :
    breathingWrites (updateStateMachine s now button).log =
      breathingWrites s.log ++ updateStateMachine_accesses s now button := by
  unfold updateStateMachine updateStateMachine_accesses
  cases hcs : s.currentState <;> simp only [] <;> (try split_ifs) <;>
    simp [endSession_breathingWrites, breathingWrites_append, breathingWrites]

/-- The accesses listed for `handleButtonPress` are the writes of `breathingActive` that
the function records in the log. -/
theorem handleButtonPress_breathingWrites (s : State) (now : Nat) (level : Bool)
    (rnd : BleDraw) :
    breathingWrites (handleButtonPress s now level rnd).log =
      breathingWrites s.log ++ handleButtonPress_accesses s now level rnd := by
  have h0 : sub32 now now = 0 := by unfold sub32; omega
  unfold handleButtonPress handleButtonPress_accesses
  by_cases hd : sub32 now s.lastButtonCheck ≥ BUTTON_DEBOUNCE_MS
  · cases level <;> cases h1 : s.lastButtonState <;> cases h2 : s.isOtaMode <;>
      cases h3 : s.otaExitInProgress <;>
      simp [hd, h0, h1, h2, h3, risingEdge_fields, exitOta_fields,
        risingEdge_breathingWrites, exitOta_breathingWrites]
    split_ifs <;>
      simp_all [risingEdge_fields, exitOta_fields, risingEdge_breathingWrites,
        exitOta_breathingWrites]
  · simp [hd]

/-- C22 fails as stated: the press accepted at 100 ms in the boot state starts a session,
and `handleButtonPress` assigns `breathingActive = true` (the write is in the log) without
entering the critical section; so does `updateStateMachine` when it ends `shortSession` at
10100 ms; and `handleMagicalGlow` at 210 ms reads `breathingActive` before it enters the
section. -/
theorem unguarded_flag_access_counterexample :
    handleButtonPress_accesses (setup false false true 0) 100 true sampleDraw =
      [Access.write SharedVar.breathingActive] ∧
    breathingWrites (handleButtonPress (setup false false true 0) 100 true sampleDraw).log =
      [Access.write SharedVar.breathingActive] ∧
    (handleButtonPress (setup false false true 0) 100 true sampleDraw).breathingActive = true ∧
    guarded (handleButtonPress_accesses (setup false false true 0) 100 true sampleDraw) =
      false ∧
    updateStateMachine_accesses shortSession 10100 false =
      [Access.write SharedVar.breathingActive] ∧
    guarded (updateStateMachine_accesses shortSession 10100 false) = false ∧
    handleMagicalGlow_accesses shortSession 210 =
      [Access.read SharedVar.breathingActive, Access.enterCritical,
        Access.write SharedVar.currentBrightness, Access.exitCritical] ∧
    guarded (handleMagicalGlow_accesses shortSession 210) = false := by
  decide

/-- C22 as amended: every read of the shared variables made by `onTimer` and every access
to `currentBrightness` made by `handleMagicalGlow` (its write, in either branch) happens
between entering and leaving the `timerMux` critical section; `handleMagicalGlow` reads
`breathingActive` before it enters the section; `handleButtonPress` and
`updateStateMachine` never enter the section and access nothing of the shared variables
but `breathingActive`, which they write, and these writes are the ones recorded in the
log. -/
theorem brightness_accesses_guarded :
    (∀ s : State, guarded (onTimer_accesses s) = true) ∧
    (∀ (s : State) (now : Nat), brightnessGuarded (handleMagicalGlow_accesses s now) = true) ∧
    (∀ (s : State) (now : Nat), sub32 now s.lastUpdate ≥ 10 →
      handleMagicalGlow_accesses s now =
        [Access.read SharedVar.breathingActive, Access.enterCritical,
          Access.write SharedVar.currentBrightness, Access.exitCritical]) ∧
    (∀ (s : State) (now : Nat), ¬ sub32 now s.lastUpdate ≥ 10 →
      handleMagicalGlow_accesses s now = []) ∧
    (∀ (s : State) (now : Nat) (level : Bool) (rnd : BleDraw),
      (∀ a ∈ handleButtonPress_accesses s now level rnd,
        a = Access.write SharedVar.breathingActive) ∧
      breathingWrites (handleButtonPress s now level rnd).log =
        breathingWrites s.log ++ handleButtonPress_accesses s now level rnd) ∧
    (∀ (s : State) (now : Nat) (button : Bool),
      (∀ a ∈ updateStateMachine_accesses s now button,
        a = Access.write SharedVar.breathingActive) ∧
      breathingWrites (updateStateMachine s now button).log =
        breathingWrites s.log ++ updateStateMachine_accesses s now button) := by
  refine ⟨?_, ?_, ?_, ?_, ?_, ?_⟩
  · intro s
    unfold onTimer_accesses
    cases s.breathingActive <;> decide
  · intro s now
    unfold handleMagicalGlow_accesses
    by_cases hd : sub32 now s.lastUpdate ≥ 10 <;> cases s.breathingActive <;>
      simp [hd, brightnessGuarded, guardedFrom]
  · intro s now hd
    unfold handleMagicalGlow_accesses
    cases s.breathingActive <;> simp [hd]
  · intro s now hd
    unfold handleMagicalGlow_accesses
    simp [hd]
  · intro s now level rnd
    refine ⟨?_, handleButtonPress_breathingWrites s now level rnd⟩
    intro a ha
    have key : ∀ (c1 c2 c3 c4 : Prop) [Decidable c1] [Decidable c2] [Decidable c3]
        [Decidable c4],
        a ∈ (if c1 then (if c2 then [Access.write SharedVar.breathingActive] else [])
              else []) ++
            (if c3 then (if c4 then [Access.write SharedVar.breathingActive] else [])
              else []) →
        a = Access.write SharedVar.breathingActive := by
      intro c1 c2 c3 c4 _ _ _ _ h
      split_ifs at h <;> simp_all
    unfold handleButtonPress_accesses at ha
    by_cases hd : sub32 now s.lastButtonCheck ≥ BUTTON_DEBOUNCE_MS
    · rw [if_pos hd] at ha
      exact key _ _ _ _ ha
    · rw [if_neg hd] at ha
      exact absurd ha (List.not_mem_nil a)
  · intro s now button
    refine ⟨?_, updateStateMachine_breathingWrites s now button⟩
    unfold updateStateMachine_accesses
    intro a ha
    cases hcs : s.currentState <;> rw [hcs] at ha <;> simp only [] at ha <;>
      (try split_ifs at ha) <;> simp_all

/-- C22 as amended, at a concrete input: in `shortSession` the update at 210 ms is due, so
`handleMagicalGlow` reads the flag and then writes the brightness inside the critical
section. -/
theorem brightness_accesses_guarded_witness :
    sub32 210 shortSession.lastUpdate ≥ 10 ∧
    handleMagicalGlow_accesses shortSession 210 =
      [Access.read SharedVar.breathingActive, Access.enterCritical,
        Access.write SharedVar.currentBrightness, Access.exitCritical] ∧
    brightnessGuarded (handleMagicalGlow_accesses shortSession 210) = true :=
  ⟨by decide, brightness_accesses_guarded.2.2.1 shortSession 210 (by decide),
   brightness_accesses_guarded.2.1 shortSession 210⟩

/-! ## Breathing flag and session state -/

/-- The function `handleButtonPress` keeps the flag in line with the session state and
the lights off in Idle. -/
theorem handleButtonPress_session_lights (s : State) (now : Nat) (level : Bool)
    (rnd : BleDraw)
    (h1 : s.breathingActive = true ↔ s.currentState ≠ DeviceState.STATE_IDLE)
    (h2 : s.currentState = DeviceState.STATE_IDLE →
      s.led1 = true ∧ s.led2 = true ∧ s.led3 = true) :
    ((handleButtonPress s now level rnd).breathingActive = true ↔
      (handleButtonPress s now level rnd).currentState ≠ DeviceState.STATE_IDLE) ∧
    ((handleButtonPress s now level rnd).currentState = DeviceState.STATE_IDLE →
      (handleButtonPress s now level rnd).led1 = true ∧
      (handleButtonPress s now level rnd).led2 = true ∧
      (handleButtonPress s now level rnd).led3 = true) := by
  unfold handleButtonPress
  by_cases hd : sub32 now s.lastButtonCheck ≥ BUTTON_DEBOUNCE_MS
  · by_cases hi : s.currentState = DeviceState.STATE_IDLE
    · have hbf : s.breathingActive = false := by
        cases hb : s.breathingActive
        · rfl
        · exact absurd hi (h1.mp hb)
      obtain ⟨l1, l2, l3⟩ := h2 hi
      cases level <;> cases h3 : s.lastButtonState <;> cases h4 : s.isOtaMode <;>
        cases h5 : s.otaExitInProgress <;>
        simp [hd, hi, hbf, l1, l2, l3, h3, h4, h5, risingEdge_fields, exitOta_fields] <;>
        split_ifs <;> simp [hi, hbf, l1, l2, l3, risingEdge_fields, exitOta_fields]
    · have hbt : s.breathingActive = true := h1.mpr hi
      cases level <;> cases h3 : s.lastButtonState <;> cases h4 : s.isOtaMode <;>
        cases h5 : s.otaExitInProgress <;>
        simp [hd, hi, hbt, h3, h4, h5, risingEdge_fields, exitOta_fields] <;>
        split_ifs <;> simp [hi, hbt, risingEdge_fields, exitOta_fields]
  · simp only [hd, if_false]
    exact ⟨h1, h2⟩

/-- One step keeps the flag in line with the session state and the lights off in Idle. -/
theorem step_session_lights (sinTurn : ℚ → ℚ) (s s' : State) (st : Step)
    (h : step sinTurn s st = some s')
    (h1 : s.breathingActive = true ↔ s.currentState ≠ DeviceState.STATE_IDLE)
    (h2 : s.currentState = DeviceState.STATE_IDLE →
      s.led1 = true ∧ s.led2 = true ∧ s.led3 = true) :
    (s'.breathingActive = true ↔ s'.currentState ≠ DeviceState.STATE_IDLE) ∧
    (s'.currentState = DeviceState.STATE_IDLE →
      s'.led1 = true ∧ s'.led2 = true ∧ s'.led3 = true) := by
  cases st with
  | handleButtonPress now level rnd =>
    simp only [step, Option.some.injEq] at h
    rw [← h]
    exact handleButtonPress_session_lights s now level rnd h1 h2
  | updateStateMachine now level =>
    simp only [step, Option.some.injEq] at h
    rw [← h]
    unfold updateStateMachine
    split <;> (try split_ifs) <;> simp_all [endSession_fields]
  | handleMagicalGlow now =>
    simp only [step, Option.some.injEq] at h
    rw [← h]
    have hf : (handleMagicalGlow sinTurn s now).breathingActive = s.breathingActive ∧
        (handleMagicalGlow sinTurn s now).currentState = s.currentState ∧
        (handleMagicalGlow sinTurn s now).led1 = s.led1 ∧
        (handleMagicalGlow sinTurn s now).led2 = s.led2 ∧
        (handleMagicalGlow sinTurn s now).led3 = s.led3 := by
      unfold handleMagicalGlow
      by_cases hd : sub32 now s.lastUpdate ≥ 10 <;> cases hb : s.breathingActive <;>
        simp [hd, hb]
    rw [hf.1, hf.2.1, hf.2.2.1, hf.2.2.2.1, hf.2.2.2.2]
    exact ⟨h1, h2⟩
  | sendNextIrCode =>
    simp only [step, sendNextIrCode] at h
    split_ifs at h
    split at h
    · simp only [Option.some.injEq] at h
      rw [← h]
      exact ⟨h1, h2⟩
    · exact absurd h (by simp)
  | handleBLESpoofing now rnd =>
    simp only [step, Option.some.injEq] at h
    rw [← h]
    unfold handleBLESpoofing
    split_ifs <;> simp <;> exact ⟨h1, h2⟩
  | onTimer =>
    simp only [step, Option.some.injEq] at h
    rw [← h]
    by_cases hb : s.breathingActive = true
    · rw [onTimer_active s hb]
      have hn := h1.mp hb
      simp [hb, hn]
    · have : onTimer s = s := by
        unfold onTimer
        simp [hb]
      rw [this]
      exact ⟨h1, h2⟩
  | otaOnStart =>
    simp only [step, Option.some.injEq] at h
    rw [← h]
    unfold otaOnStart
    simp [digitalWrite]
    split_ifs <;> simp

/-- The same along a whole schedule. -/
theorem run_session_lights (sinTurn : ℚ → ℚ) (steps : List Step) :
    ∀ (s s' : State),
      (s.breathingActive = true ↔ s.currentState ≠ DeviceState.STATE_IDLE) →
      (s.currentState = DeviceState.STATE_IDLE →
        s.led1 = true ∧ s.led2 = true ∧ s.led3 = true) →
      run sinTurn s steps = some s' →
      (s'.breathingActive = true ↔ s'.currentState ≠ DeviceState.STATE_IDLE) ∧
      (s'.currentState = DeviceState.STATE_IDLE →
        s'.led1 = true ∧ s'.led2 = true ∧ s'.led3 = true) := by
  induction steps with
  | nil =>
    intro s s' h1 h2 h
    simp only [run, Option.some.injEq] at h
    subst h
    exact ⟨h1, h2⟩
  | cons st rest ih =>
    intro s s' h1 h2 h
    simp only [run] at h
    cases hstep : step sinTurn s st with
    | none => rw [hstep] at h; exact absurd h (by simp)
    | some a =>
      rw [hstep] at h
      obtain ⟨k1, k2⟩ := step_session_lights sinTurn s a st hstep h1 h2
      exact ih a s' k1 k2 h

/-- C23: in every state reached from `setup` by any schedule of the atomic steps
(`handleButtonPress`, `updateStateMachine`, `handleMagicalGlow`, `sendNextIrCode`,
`handleBLESpoofing`, ticks of `onTimer` and the update-start callback), `breathingActive`
is true exactly when the session state is not Idle, and in Idle all three light outputs
are at the off level (HIGH). -/
theorem breathing_flag_tracks_session (sinTurn : ℚ → ℚ)
    (switchLevel buttonLevel bleOk : Bool) (t0 : Nat) (steps : List Step) (s : State)
    (hrun : run sinTurn (setup switchLevel buttonLevel bleOk t0) steps = some s) :
    (s.breathingActive = true ↔ s.currentState ≠ DeviceState.STATE_IDLE) ∧
    (s.currentState = DeviceState.STATE_IDLE →
      s.led1 = true ∧ s.led2 = true ∧ s.led3 = true) :=
  run_session_lights sinTurn steps (setup switchLevel buttonLevel bleOk t0) s
    (by simp [setup]) (by simp [setup]) hrun

/-- C23 at a concrete input: the schedule `sessionThenUpdate` run from `setup` returns a
state, which is Idle with the flag clear and the lights off; after its first six steps
the session is running with the flag set. -/
theorem breathing_flag_tracks_session_witness :
    (∃ s, run (fun _ => 1 / 2) (setup false false true 0) (sessionThenUpdate.take 6) = some s ∧
      s.currentState = DeviceState.STATE_RUNNING_SHORT ∧ s.breathingActive = true) ∧
    (∃ s, run (fun _ => 1 / 2) (setup false false true 0) sessionThenUpdate = some s ∧
      s.currentState = DeviceState.STATE_IDLE ∧ s.breathingActive = false ∧
      s.led1 = true ∧ s.led2 = true ∧ s.led3 = true) := by
  constructor
  · obtain ⟨s, h⟩ := Option.isSome_iff_exists.mp
      (by decide :
        (run (fun _ => 1 / 2) (setup false false true 0) (sessionThenUpdate.take 6)).isSome
          = true)
    have hc : (run (fun _ => 1 / 2) (setup false false true 0)
        (sessionThenUpdate.take 6)).map State.currentState
          = some DeviceState.STATE_RUNNING_SHORT := by decide
    rw [h] at hc
    have hcs : s.currentState = DeviceState.STATE_RUNNING_SHORT := by simpa using hc
    have hinv := breathing_flag_tracks_session (fun _ => 1 / 2) false false true 0
      (sessionThenUpdate.take 6) s h
    exact ⟨s, h, hcs, hinv.1.mpr (by rw [hcs]; decide)⟩
  · obtain ⟨s, h⟩ := Option.isSome_iff_exists.mp
      (by decide :
        (run (fun _ => 1 / 2) (setup false false true 0) sessionThenUpdate).isSome = true)
    have hc : (run (fun _ => 1 / 2) (setup false false true 0)
        sessionThenUpdate).map State.currentState = some DeviceState.STATE_IDLE := by decide
    rw [h] at hc
    have hcs : s.currentState = DeviceState.STATE_IDLE := by simpa using hc
    have hinv := breathing_flag_tracks_session (fun _ => 1 / 2) false false true 0
      sessionThenUpdate s h
    have hb : s.breathingActive = false := by
      cases hbb : s.breathingActive
      · rfl
      · exact absurd hcs (hinv.1.mp hbb)
    exact ⟨s, h, hcs, hb, hinv.2 hcs⟩

/-! ## Duty cycle of the software PWM -/

/-- Among the residues `(m + k) % 100` of the first `n ≤ 100` offsets `k`, the number that
lie below `b` (closed form, by the wrap of the counter at `100 - m`). -/
theorem countP_wrapped_below (m b : Nat) (hm : m < 100) (hb : b ≤ 100) (n : Nat)
    (hn : n ≤ 100) :
    (List.range n).countP (fun k => decide ((m + k) % 100 < b)) =
      if n ≤ 100 - m then min n (b - m)
      else min (100 - m) (b - m) + min (n - (100 - m)) b := by
  induction n with
  | zero => simp
  | succ n ih =>
    have ih1 := ih (by omega)
    rw [List.range_succ, List.countP_append, ih1]
    simp only [List.countP_cons, List.countP_nil, zero_add]
    by_cases h1 : (m + n) % 100 < b <;> by_cases h2 : n ≤ 100 - m <;>
      by_cases h3 : n + 1 ≤ 100 - m <;> simp [h1, h2, h3] <;> omega

/-- A tick does not write `breathingActive` or `currentBrightness`. -/
theorem onTimer_keeps_brightness (s : State) :
    (onTimer s).breathingActive = s.breathingActive ∧
    (onTimer s).currentBrightness = s.currentBrightness := by
  unfold onTimer
  split_ifs <;> simp [digitalWrite]

/-- The counter and the lights after an active tick. -/
theorem onTimer_lights (s : State) (hb : s.breathingActive = true)
    (hc : 0 ≤ s.pwmCounter ∧ s.pwmCounter < 100) :
    (onTimer s).pwmCounter = (s.pwmCounter + 1) % 100 ∧
    lightsOn (onTimer s) = decide ((s.pwmCounter + 1) % 100 < s.currentBrightness) ∧
    lightsOff (onTimer s) = !decide ((s.pwmCounter + 1) % 100 < s.currentBrightness) := by
  have hmod : Int.tmod (s.pwmCounter + 1) 100 = (s.pwmCounter + 1) % 100 :=
    Int.tmod_eq_emod (by omega) (by omega)
  rw [onTimer_active s hb, hmod]
  simp [lightsOn, lightsOff]

/-- Successive ticks from an active state with the counter in range: the number of
states, the on/off pattern of the lights, and what every tick leaves in place. -/
theorem tickStates_lights (n : Nat) :
    ∀ (s : State), s.breathingActive = true → (0 ≤ s.pwmCounter ∧ s.pwmCounter < 100) →
      (tickStates s n).length = n ∧
      (tickStates s n).map lightsOn =
        (List.range n).map
          (fun (k : Nat) =>
            decide ((s.pwmCounter + 1 + (k : Int)) % 100 < s.currentBrightness)) ∧
      (∀ a ∈ tickStates s n, a.breathingActive = true ∧
        a.currentBrightness = s.currentBrightness ∧ lightsOff a = !lightsOn a) := by
  induction n with
  | zero =>
    intro s _ _
    simp [tickStates]
  | succ n ih =>
    intro s hb hc
    obtain ⟨k1, k2⟩ := onTimer_keeps_brightness s
    obtain ⟨l1, l2, l3⟩ := onTimer_lights s hb hc
    have hc1 : 0 ≤ (onTimer s).pwmCounter ∧ (onTimer s).pwmCounter < 100 := by
      rw [l1]; omega
    obtain ⟨i1, i2, i3⟩ := ih (onTimer s) (k1.trans hb) hc1
    refine ⟨?_, ?_, ?_⟩
    · simp [tickStates, i1]
    · rw [tickStates, List.map_cons, i2, List.range_succ_eq_map, List.map_cons, List.map_map,
        l2, l1, k2]
      congr 1
      · simp
      · apply List.map_congr_left
        intro k _
        have e : ((s.pwmCounter + 1) % 100 + 1 + (k : Int)) % 100 =
            (s.pwmCounter + 1 + ((k + 1 : Nat) : Int)) % 100 := by
          push_cast
          omega
        simp only [Function.comp, e, Nat.succ_eq_add_one]
    · intro a ha
      rw [tickStates, List.mem_cons] at ha
      rcases ha with rfl | ha
      · exact ⟨k1.trans hb, k2, by rw [l2, l3]⟩
      · obtain ⟨j1, j2, j3⟩ := i3 a ha
        exact ⟨j1, j2.trans k2, j3⟩

/-- The states of the ticks after the first `k` are the ticks run from the state that the
first `k` ticks leave. -/
theorem tickStates_drop (k n : Nat) :
    ∀ (s : State), (tickStates s (k + n)).drop k = tickStates (onTimer^[k] s) n := by
  induction k with
  | zero =>
    intro s
    simp
  | succ k ih =>
    intro s
    have e : k + 1 + n = (k + n) + 1 := by omega
    rw [e, tickStates, List.drop_succ_cons, ih (onTimer s), Function.iterate_succ_apply]

/-- Ticks keep an active state active, its brightness in place and its counter in
range. -/
theorem iterate_onTimer_active (k : Nat) :
    ∀ (s : State), s.breathingActive = true → (0 ≤ s.pwmCounter ∧ s.pwmCounter < 100) →
      (onTimer^[k] s).breathingActive = true ∧
      (onTimer^[k] s).currentBrightness = s.currentBrightness ∧
      0 ≤ (onTimer^[k] s).pwmCounter ∧ (onTimer^[k] s).pwmCounter < 100 := by
  induction k with
  | zero =>
    intro s hb hc
    exact ⟨hb, rfl, hc.1, hc.2⟩
  | succ k ih =>
    intro s hb hc
    obtain ⟨k1, k2⟩ := onTimer_keeps_brightness s
    obtain ⟨l1, _, _⟩ := onTimer_lights s hb hc
    have hc1 : 0 ≤ (onTimer s).pwmCounter ∧ (onTimer s).pwmCounter < 100 := by
      rw [l1]; omega
    obtain ⟨i1, i2, i3⟩ := ih (onTimer s) (k1.trans hb) hc1
    rw [Function.iterate_succ_apply]
    exact ⟨i1, i2.trans k2, i3⟩

/-- From an active state with the counter in 0..99 and the brightness in 0..100, the
lights are on in exactly `currentBrightness` of the next 100 ticks. -/
theorem tickStates_on_count (s : State) (hb : s.breathingActive = true)
    (hc : 0 ≤ s.pwmCounter ∧ s.pwmCounter < 100)
    (hbr : 0 ≤ s.currentBrightness ∧ s.currentBrightness ≤ 100) :
    (((tickStates s 100).countP lightsOn : Nat) : Int) = s.currentBrightness := by
  obtain ⟨_, h2, _⟩ := tickStates_lights 100 s hb hc
  have e1 : (tickStates s 100).countP lightsOn =
      ((tickStates s 100).map lightsOn).countP (fun x => x) := by
    rw [List.countP_map]
    rfl
  rw [e1, h2, List.countP_map]
  obtain ⟨c, hcn⟩ := Int.eq_ofNat_of_zero_le hc.1
  obtain ⟨b, hbn⟩ := Int.eq_ofNat_of_zero_le hbr.1
  have e2 : (List.range 100).countP
      ((fun x => x) ∘
        fun (k : Nat) =>
          decide ((s.pwmCounter + 1 + (k : Int)) % 100 < s.currentBrightness)) =
      (List.range 100).countP (fun k => decide (((c + 1) % 100 + k) % 100 < b)) := by
    apply List.countP_congr
    intro k _
    simp only [Function.comp, decide_eq_true_eq, hcn, hbn]
    omega
  rw [e2, countP_wrapped_below ((c + 1) % 100) b (by omega) (by omega) 100 (le_refl _), hbn]
  split_ifs <;> omega

/-- C24: from a state with `breathingActive` set, the PWM counter in 0..99 and the
brightness `b` in 0..100, ticks leave the flag and the brightness in place, and among any
100 consecutive ticks (those after the first `k`, for every `k`) all three light outputs
are driven on in exactly `b` ticks and are off in exactly `100 - b`; at `b = 0` they are
off after every tick of the window and at `b = 100` on after every tick. -/
theorem pwm_duty_cycle (s : State) (hb : s.breathingActive = true)
    (hc : 0 ≤ s.pwmCounter ∧ s.pwmCounter < 100)
    (hbr : 0 ≤ s.currentBrightness ∧ s.currentBrightness ≤ 100) (k : Nat) :
    (∀ a ∈ tickStates s (k + 100),
      a.breathingActive = true ∧ a.currentBrightness = s.currentBrightness) ∧
    ((((tickStates s (k + 100)).drop k).countP lightsOn : Nat) : Int) =
      s.currentBrightness ∧
    ((((tickStates s (k + 100)).drop k).countP lightsOff : Nat) : Int) =
      100 - s.currentBrightness ∧
    (s.currentBrightness = 0 →
      ∀ a ∈ (tickStates s (k + 100)).drop k, lightsOff a = true) ∧
    (s.currentBrightness = 100 →
      ∀ a ∈ (tickStates s (k + 100)).drop k, lightsOn a = true) := by
  obtain ⟨a1, a2, a3, a4⟩ := iterate_onTimer_active k s hb hc
  have hon := tickStates_on_count (onTimer^[k] s) a1 ⟨a3, a4⟩ (by rw [a2]; exact hbr)
  obtain ⟨hlen, _, hall⟩ := tickStates_lights 100 (onTimer^[k] s) a1 ⟨a3, a4⟩
  have hoff : (tickStates (onTimer^[k] s) 100).countP lightsOff =
      (tickStates (onTimer^[k] s) 100).countP (fun a => ¬ lightsOn a) := by
    apply List.countP_congr
    intro a ha
    rw [(hall a ha).2.2]
    simp
  have hsum := List.length_eq_countP_add_countP (p := lightsOn) (tickStates (onTimer^[k] s) 100)
  rw [hlen, ← hoff] at hsum
  rw [a2] at hon
  have hoffc : (((tickStates (onTimer^[k] s) 100).countP lightsOff : Nat) : Int) =
      100 - s.currentBrightness := by omega
  rw [tickStates_drop k 100 s]
  refine ⟨?_, hon, hoffc, ?_, ?_⟩
  · intro a ha
    obtain ⟨j1, j2, _⟩ := (tickStates_lights (k + 100) s hb hc).2.2 a ha
    exact ⟨j1, j2⟩
  · intro h0
    apply List.countP_eq_length.mp
    rw [hlen]
    omega
  · intro h100
    apply List.countP_eq_length.mp
    rw [hlen]
    omega

/-- C24 at a concrete input: in a running session with the counter at 97 and the
brightness at 30, the 100 ticks after the first three drive the lights on in 30 ticks and
leave them off in 70. -/
theorem pwm_duty_cycle_witness :
    ((tickStates { shortSession with currentBrightness := 30, pwmCounter := 97 } 103).drop
      3).countP lightsOn = 30 ∧
    ((tickStates { shortSession with currentBrightness := 30, pwmCounter := 97 } 103).drop
      3).countP lightsOff = 70 := by
  have h := pwm_duty_cycle { shortSession with currentBrightness := 30, pwmCounter := 97 }
    (by decide) (by decide) (by decide) 3
  have h1 := h.2.1
  have h2 := h.2.2.1
  simp only [Nat.reduceAdd] at h1 h2
  constructor
  · exact_mod_cast h1
  · have e : (100 : Int) - 30 = ((70 : Nat) : Int) := by norm_num
    rw [e] at h2
    exact_mod_cast h2

end MagicPedal
